import Mathlib

/-!
# Resource manager: procedural geometry, model parser, registry

A shallow embedding of `src/Project/resource_manager.cpp`.

Conventions of the embedding

* `std::string` is `List Char`; `std::vector<T>` is `List T`.
* The heap arrays `vertex` and `face` of the generators are not materialised.
  A generator returns the sizes it allocates and uploads together with the
  sequence of stores `array[slot] = value` it performs, in program order.
  `memoryOf` turns such a sequence into the contents of the array
  (the last store to a slot wins, a slot never stored to is `none`).
* `int` values are natural numbers or integers without wrap-around: an
  execution in which a signed operation overflows has no defined behaviour.
  The sizes that the generators compute as `GLuint` and register as `GLsizei`
  are likewise the mathematical values; they are the values of the source as
  long as they stay below `2^31`.
* The floating-point block that computes the position, normal, colour and
  texture coordinate of a generated vertex is a parameter of the generator.
  The triangle indices however are integers routed through a `glm::vec3`
  of `float`; that conversion is exact integer rounding and is modelled by `f32`.
* In `LoadMesh` a `float` is the rational number it holds. Every arithmetic
  operation is the exact operation followed by the rounding `fl`; the rounding,
  the stream extraction `>>` and `glm::inversesqrt` are parameters (`FloatLib`).
* A call ends in `Except.ok` when it returns and in `Except.error` when it
  throws; subscripting a vector out of range is recorded as
  `Abort.out_of_range`.
* The graphics backend is not modelled: the handles it hands out are
  parameters, the data uploaded to it are results.
-/

namespace game

/-! ## Registry -/

/-- Modelled from the spec: the resource kinds declared in `resource.h`
(the header is not part of the sources). -/
inductive ResourceType where
  | Material
  | Texture
  | Mesh
deriving DecidableEq

/-- Modelled from the spec: the `Resource` record of `resource.h`: kind, name,
primary handle, secondary handle (meshes only, 0 otherwise) and size. -/
structure Resource where
  type : ResourceType
  name : String
  resource : Nat
  element_array_buffer : Nat
  size : Nat
deriving DecidableEq

/-- The member `resource_` of `ResourceManager`, a `std::vector<Resource*>`. -/
abbrev Registry := List Resource

/-- `AddResource(type, name, resource, size)`: the overload with one handle. -/
def AddResource (resource_ : Registry) (type : ResourceType) (name : String)
    (resource : Nat) (size : Nat) : Registry :=
  resource_ ++ [{ type := type, name := name, resource := resource,
                  element_array_buffer := 0, size := size }]

/-- `AddResource(type, name, array_buffer, element_array_buffer, size)`: the
overload with two handles, used for meshes. -/
def AddResource2 (resource_ : Registry) (type : ResourceType) (name : String)
    (array_buffer element_array_buffer : Nat) (size : Nat) : Registry :=
  resource_ ++ [{ type := type, name := name, resource := array_buffer,
                  element_array_buffer := element_array_buffer, size := size }]

/-! ## Buffers as sequences of stores -/

/-- Three components, as in `glm::vec3`; `get k` is `v[k]`. -/
structure vec3 (A : Type) where
  x : A
  y : A
  z : A
deriving DecidableEq

/-- Component access `v[k]` for `k = 0, 1, 2`. -/
def vec3.get {A : Type} (v : vec3 A) (k : Nat) : A :=
  match k with
  | 0 => v.x
  | 1 => v.y
  | _ => v.z

/-- Two components, as in `glm::vec2`. -/
structure vec2 (A : Type) where
  x : A
  y : A
deriving DecidableEq

/-- Component access `v[k]` for `k = 0, 1`. -/
def vec2.get {A : Type} (v : vec2 A) (k : Nat) : A :=
  match k with
  | 0 => v.x
  | _ => v.y

/-- One store `array[slot] = value`. -/
abbrev Store (A : Type) := Nat × A

/-- Effect of one store on the contents of an array. -/
def storeAt {A : Type} (mem : Nat → Option A) (w : Store A) : Nat → Option A :=
  fun s => if s = w.1 then some w.2 else mem s

/-- Contents of an array after a sequence of stores, starting from an
uninitialised allocation (`new T[n]`). -/
def memoryOf {A : Type} (writes : List (Store A)) : Nat → Option A :=
  writes.foldl storeAt (fun _ => none)

/-- Number of attributes of a vertex (`vertex_att`). -/
def vertex_att : Nat := 11

/-- Number of indices of a triangle (`face_att`). -/
def face_att : Nat := 3

/-- What a generator hands to the graphics backend.
`vertex_len` floats and `face_len` indices are allocated for the arrays
`vertex` and `face`; the fields `vertex` and `face` are the stores into the
two arrays; `vbo_size` and `ebo_size` are the element counts passed to
`glBufferData` (byte count divided by the element size). -/
structure MeshData (A : Type) where
  vertex_len : Nat
  face_len : Nat
  vertex : List (Store A)
  face : List (Store Nat)
  vbo_size : Nat
  ebo_size : Nat

/-- The four vectors a generator computes for one vertex. -/
structure VertexVectors (A : Type) where
  vertex_position : vec3 A
  vertex_normal : vec3 A
  vertex_color : vec3 A
  vertex_coord : vec2 A

/-- The block "Add vectors to the data buffer": the eleven stores of the vertex
whose first attribute lives at `base * vertex_att`, in program order. -/
def addVectors {A : Type} (base : Nat) (v : VertexVectors A) : List (Store A) :=
  ((List.range 3).flatMap fun k =>
    [ (base * vertex_att + k, v.vertex_position.get k),
      (base * vertex_att + k + 3, v.vertex_normal.get k),
      (base * vertex_att + k + 6, v.vertex_color.get k) ]) ++
  [ (base * vertex_att + 9, v.vertex_coord.get 0),
    (base * vertex_att + 10, v.vertex_coord.get 1) ]

/-- Number of low bits an `int → float` conversion drops from a value below `2^31`. -/
def f32_shift (n : Nat) : Nat :=
  ((List.range 8).find? fun e => decide (n < 2 ^ (24 + e))).getD 8

/-- The value `(GLuint) (float) n` for an `int` `0 ≤ n < 2^31`: `n` rounded to a
24-bit significand, to nearest, ties to even. This is what happens to an index
that is stored in a `glm::vec3` and read back with `(GLuint) t[k]`. -/
def f32 (n : Nat) : Nat :=
  let e := f32_shift n
  let q := n / 2 ^ e
  let r := n % 2 ^ e
  if 2 * r < 2 ^ e then q * 2 ^ e
  else if 2 * r = 2 ^ e ∧ q % 2 = 0 then q * 2 ^ e
  else (q + 1) * 2 ^ e

/-- The constructor `glm::vec3 t(a, b, c)` applied to three `int`s. -/
def ivec3 (a b c : Nat) : vec3 Nat := ⟨f32 a, f32 b, f32 c⟩

/-- The block "Add two triangles to the data buffer": six stores, the two
triangles of quad number `quad`. -/
def addTriangles (quad : Nat) (t1 t2 : vec3 Nat) : List (Store Nat) :=
  (List.range 3).flatMap fun k =>
    [ (quad * face_att * 2 + k, t1.get k),
      (quad * face_att * 2 + k + face_att, t2.get k) ]

/-! ## CreateTorus -/

/-- First triangle of the torus quad `(i, j)`. -/
def torus_t1 (num_loop_samples num_circle_samples i j : Nat) : vec3 Nat :=
  ivec3 (((i + 1) % num_loop_samples) * num_circle_samples + j)
        (i * num_circle_samples + ((j + 1) % num_circle_samples))
        (i * num_circle_samples + j)

/-- Second triangle of the torus quad `(i, j)`. -/
def torus_t2 (num_loop_samples num_circle_samples i j : Nat) : vec3 Nat :=
  ivec3 (((i + 1) % num_loop_samples) * num_circle_samples + j)
        (((i + 1) % num_loop_samples) * num_circle_samples + ((j + 1) % num_circle_samples))
        (i * num_circle_samples + ((j + 1) % num_circle_samples))

/-- Buffers built by `CreateTorus`. `vtx i j` stands for the vectors computed
from `theta`, `phi` and the two radii in iteration `(i, j)`. The sizes and the
subscripts are natural numbers; the source computes them in 32-bit arithmetic
(`GLuint`, `int`, and `GLsizei` for the registered size), so the fields give the
values of the source only as long as `face_num * face_att` is below `2^31`. -/
def torusData {A : Type} (vtx : Nat → Nat → VertexVectors A)
    (num_loop_samples num_circle_samples : Nat) : MeshData A :=
  let vertex_num := num_loop_samples * num_circle_samples
  let face_num := num_loop_samples * num_circle_samples * 2
  { vertex_len := vertex_num * vertex_att
    face_len := face_num * face_att
    vertex := (List.range num_loop_samples).flatMap fun i =>
      (List.range num_circle_samples).flatMap fun j =>
        addVectors (i * num_circle_samples + j) (vtx i j)
    face := (List.range num_loop_samples).flatMap fun i =>
      (List.range num_circle_samples).flatMap fun j =>
        addTriangles (i * num_circle_samples + j)
          (torus_t1 num_loop_samples num_circle_samples i j)
          (torus_t2 num_loop_samples num_circle_samples i j)
    vbo_size := vertex_num * vertex_att
    ebo_size := face_num * face_att }

/-- `ResourceManager::CreateTorus`: builds the buffers, uploads them under the
handles `vbo` and `ebo` the backend hands out, and registers the mesh. -/
def CreateTorus {A : Type} (resource_ : Registry) (vbo ebo : Nat)
    (vtx : Nat → Nat → VertexVectors A) (object_name : String)
    (num_loop_samples num_circle_samples : Nat) : MeshData A × Registry :=
  let face_num := num_loop_samples * num_circle_samples * 2
  (torusData vtx num_loop_samples num_circle_samples,
   AddResource2 resource_ ResourceType.Mesh object_name vbo ebo (face_num * face_att))

/-! ## CreateSphere -/

/-- First triangle of the sphere quad `(i, j)`. -/
def sphere_t1 (num_samples_theta num_samples_phi i j : Nat) : vec3 Nat :=
  ivec3 (((i + 1) % num_samples_theta) * num_samples_phi + j)
        (i * num_samples_phi + (j + 1))
        (i * num_samples_phi + j)

/-- Second triangle of the sphere quad `(i, j)`. -/
def sphere_t2 (num_samples_theta num_samples_phi i j : Nat) : vec3 Nat :=
  ivec3 (((i + 1) % num_samples_theta) * num_samples_phi + j)
        (((i + 1) % num_samples_theta) * num_samples_phi + (j + 1))
        (i * num_samples_phi + (j + 1))

/-- Buffers built by `CreateSphere` (for `num_samples_phi ≥ 1`, so that
`num_samples_phi - 1` is the `int` difference). As for the torus, the sizes are
those of the source as long as they stay below `2^31`. -/
def sphereData {A : Type} (vtx : Nat → Nat → VertexVectors A)
    (num_samples_theta num_samples_phi : Nat) : MeshData A :=
  let vertex_num := num_samples_theta * num_samples_phi
  let face_num := num_samples_theta * (num_samples_phi - 1) * 2
  { vertex_len := vertex_num * vertex_att
    face_len := face_num * face_att
    vertex := (List.range num_samples_theta).flatMap fun i =>
      (List.range num_samples_phi).flatMap fun j =>
        addVectors (i * num_samples_phi + j) (vtx i j)
    face := (List.range num_samples_theta).flatMap fun i =>
      (List.range (num_samples_phi - 1)).flatMap fun j =>
        addTriangles (i * (num_samples_phi - 1) + j)
          (sphere_t1 num_samples_theta num_samples_phi i j)
          (sphere_t2 num_samples_theta num_samples_phi i j)
    vbo_size := vertex_num * vertex_att
    ebo_size := face_num * face_att }

/-- `ResourceManager::CreateSphere`. -/
def CreateSphere {A : Type} (resource_ : Registry) (vbo ebo : Nat)
    (vtx : Nat → Nat → VertexVectors A) (object_name : String)
    (num_samples_theta num_samples_phi : Nat) : MeshData A × Registry :=
  let face_num := num_samples_theta * (num_samples_phi - 1) * 2
  (sphereData vtx num_samples_theta num_samples_phi,
   AddResource2 resource_ ResourceType.Mesh object_name vbo ebo (face_num * face_att))

/-! ## CreateWall and CreatePlane -/

/-- Stores that initialise an array from a brace-enclosed list. -/
def initStores {A : Type} (values : List A) : List (Store A) :=
  (List.range values.length).zip values

/-- The array `vertex` of `CreateWall`. -/
def wall_vertex : List ℚ :=
  [ -1, -1, 0,  0, 0, 1,  1, 0, 0,  0, 0,
    -1,  1, 0,  0, 0, 1,  1, 0, 0,  0, 1,
     1,  1, 0,  0, 0, 1,  1, 0, 0,  1, 1,
     1, -1, 0,  0, 0, 1,  1, 0, 0,  1, 0 ]

/-- The array `face` of `CreateWall`. -/
def wall_face : List Nat := [0, 2, 1, 0, 3, 2]

/-- Buffers of `CreateWall`. -/
def wallData : MeshData ℚ :=
  { vertex_len := wall_vertex.length
    face_len := wall_face.length
    vertex := initStores wall_vertex
    face := initStores wall_face
    vbo_size := 4 * 11
    ebo_size := 2 * 3 }

/-- `ResourceManager::CreateWall`. -/
def CreateWall (resource_ : Registry) (vbo ebo : Nat) (object_name : String) :
    MeshData ℚ × Registry :=
  (wallData, AddResource2 resource_ ResourceType.Mesh object_name vbo ebo (2 * 3))

/-- The array `vertex` of `CreatePlane`. -/
def plane_vertex : List ℚ :=
  [ -10, 0, -5,  0, 0, 1,  1, 0, 0,  0, 0,
     10, 0, -5,  0, 0, 1,  1, 0, 0,  1, 0,
     10, 0,  5,  0, 0, 1,  1, 0, 0,  1, 1 / 2,
    -10, 0,  5,  0, 0, 1,  1, 0, 0,  0, 1 / 2 ]

/-- The array `face` of `CreatePlane`. -/
def plane_face : List Nat := [0, 2, 1, 0, 3, 2]

/-- Buffers of `CreatePlane`. -/
def planeData : MeshData ℚ :=
  { vertex_len := plane_vertex.length
    face_len := plane_face.length
    vertex := initStores plane_vertex
    face := initStores plane_face
    vbo_size := 4 * 11
    ebo_size := 2 * 3 }

/-- `ResourceManager::CreatePlane`. -/
def CreatePlane (resource_ : Registry) (vbo ebo : Nat) (object_name : String) :
    MeshData ℚ × Registry :=
  (planeData, AddResource2 resource_ ResourceType.Mesh object_name vbo ebo (2 * 3))

/-! ## CreatePlaneWithCraters -/

/-- The floating-point operations the crater generator applies; the scalar
type `A` stands for `GLfloat`. -/
structure FloatOps (A : Type) where
  ofInt : Nat → A
  lit : ℚ → A
  mul : A → A → A
  div : A → A → A

/-- The vectors computed for grid point `(gridX, gridZ)`. -/
def crater_vectors {A : Type} (ops : FloatOps A) (heightMap : Nat → A)
    (gridWidth gridHeight : A) (v_gridWidth v_gridLength gridX gridZ : Nat) :
    VertexVectors A :=
  { vertex_position :=
      ⟨ops.mul (ops.div (ops.ofInt gridX) (ops.ofInt (v_gridWidth - 1))) gridWidth,
       heightMap (gridZ + gridX * v_gridLength),
       ops.mul (ops.div (ops.ofInt gridZ) (ops.ofInt (v_gridLength - 1))) gridHeight⟩
    vertex_normal := ⟨ops.lit 0, ops.lit 1, ops.lit 0⟩
    vertex_color := ⟨ops.lit 0, ops.lit 1, ops.lit 0⟩
    vertex_coord :=
      ⟨ops.div (ops.ofInt gridX) (ops.ofInt (v_gridWidth - 1)),
       ops.div (ops.ofInt gridZ) (ops.ofInt (v_gridLength - 1))⟩ }

/-- Vertex number under which the vertex loop stores grid point `(gridX, gridZ)`:
the subscript `gridX * v_gridWidth + gridZ` of the source. -/
def crater_slot (v_gridWidth gridX gridZ : Nat) : Nat :=
  gridX * v_gridWidth + gridZ

/-- First triangle of the grid cell `(faceX, faceZ)`. -/
def crater_t1 (v_gridWidth faceX faceZ : Nat) : vec3 Nat :=
  ivec3 (faceX * v_gridWidth + faceZ)
        (faceX * v_gridWidth + faceZ + 1)
        ((faceX + 1) * v_gridWidth + faceZ + 1)

/-- Second triangle of the grid cell `(faceX, faceZ)`. -/
def crater_t2 (v_gridWidth faceX faceZ : Nat) : vec3 Nat :=
  ivec3 ((faceX + 1) * v_gridWidth + faceZ + 1)
        ((faceX + 1) * v_gridWidth + faceZ)
        (faceX * v_gridWidth + faceZ)

/-- Buffers built by `CreatePlaneWithCraters` (for `v_gridWidth, v_gridLength ≥ 1`).
A store behind the `vertex_len` allocated floats is listed like any other store:
in the source it is a write outside the array, after which nothing is defined;
the list only records where the loop writes. As for the torus, the sizes are
those of the source as long as they stay below `2^31`. -/
def craterData {A : Type} (ops : FloatOps A) (heightMap : Nat → A)
    (gridWidth gridHeight : A) (v_gridWidth v_gridLength : Nat) : MeshData A :=
  let numQuads := (v_gridWidth - 1) * (v_gridLength - 1)
  let vertex_num := v_gridWidth * v_gridLength
  let face_num := numQuads * 2
  { vertex_len := vertex_num * vertex_att
    face_len := face_num * face_att
    vertex := (List.range v_gridWidth).flatMap fun gridX =>
      (List.range v_gridLength).flatMap fun gridZ =>
        addVectors (crater_slot v_gridWidth gridX gridZ)
          (crater_vectors ops heightMap gridWidth gridHeight v_gridWidth v_gridLength gridX gridZ)
    face := (List.range (v_gridWidth - 1)).flatMap fun faceX =>
      (List.range (v_gridLength - 1)).flatMap fun faceZ =>
        addTriangles (faceX * (v_gridLength - 1) + faceZ)
          (crater_t1 v_gridWidth faceX faceZ) (crater_t2 v_gridWidth faceX faceZ)
    vbo_size := v_gridWidth * v_gridLength * vertex_att
    ebo_size := numQuads * 2 * face_att }

/-- `ResourceManager::CreatePlaneWithCraters`. -/
def CreatePlaneWithCraters {A : Type} (resource_ : Registry) (vbo ebo : Nat)
    (ops : FloatOps A) (object_name : String) (heightMap : Nat → A)
    (gridWidth gridHeight : A) (v_gridWidth v_gridLength : Nat) : MeshData A × Registry :=
  let numQuads := (v_gridWidth - 1) * (v_gridLength - 1)
  (craterData ops heightMap gridWidth gridHeight v_gridWidth v_gridLength,
   AddResource2 resource_ ResourceType.Mesh object_name vbo ebo (numQuads * 2 * face_att))

/-- Exact rational arithmetic in the place of `GLfloat`, used to run the
generators on examples. -/
def exactOps : FloatOps ℚ :=
  { ofInt := fun n => (n : ℚ), lit := fun q => q, mul := fun a b => a * b, div := fun a b => a / b }

/-- The nested loops "for i, for j: add two triangles" shared by the torus, the
sphere and the crater plane: `rows × cols` quads, quad `(i, j)` has number
`i * cols + j` and triangles `t1 i j`, `t2 i j`. -/
def quadStores (rows cols : Nat) (t1 t2 : Nat → Nat → vec3 Nat) : List (Store Nat) :=
  (List.range rows).flatMap fun i =>
    (List.range cols).flatMap fun j => addTriangles (i * cols + j) (t1 i j) (t2 i j)

/-- Closed form of the index stored in slot `s` by `quadStores`. -/
def quadEntry (cols : Nat) (t1 t2 : Nat → Nat → vec3 Nat) (s : Nat) : Nat :=
  if s % 6 < 3 then (t1 (s / 6 / cols) (s / 6 % cols)).get (s % 6)
  else (t2 (s / 6 / cols) (s / 6 % cols)).get (s % 6 - 3)

/-- Contents of the index array `face` after the generator has run. -/
def MeshData.indexAt {A : Type} (d : MeshData A) (s : Nat) : Option Nat :=
  memoryOf d.face s

/-- Triangle number `t` of the index array: the entries `3t`, `3t+1`, `3t+2`,
when all three have been stored. -/
def MeshData.triangle {A : Type} (d : MeshData A) (t : Nat) : Option (vec3 Nat) :=
  match d.indexAt (3 * t), d.indexAt (3 * t + 1), d.indexAt (3 * t + 2) with
  | some a, some b, some c => some ⟨a, b, c⟩
  | _, _, _ => none

/-- A triangle contains the vertex index `v`. -/
def vec3.has (t : vec3 Nat) (v : Nat) : Prop := t.x = v ∨ t.y = v ∨ t.z = v

/-- Vertex vectors with exactly representable entries, used to run the torus and
the sphere generator on examples (the index array does not depend on them). -/
def sampleVectors (i j : Nat) : VertexVectors ℚ :=
  { vertex_position := ⟨i, j, 0⟩, vertex_normal := ⟨0, 0, 1⟩,
    vertex_color := ⟨0, 0, 0⟩, vertex_coord := ⟨i, j⟩ }

/-- Every slot of the allocated index array has been stored to and holds an
index below `vertex_count`. -/
def MeshData.indicesValid {A : Type} (d : MeshData A) (vertex_count : Nat) : Prop :=
  ∀ s, s < d.face_len → ∃ v, d.indexAt s = some v ∧ v < vertex_count

/-- The three directed edges `(c0,c1)`, `(c1,c2)`, `(c2,c0)` of a triangle. -/
def directedEdges (t : vec3 Nat) : List (Nat × Nat) :=
  [(t.x, t.y), (t.y, t.z), (t.z, t.x)]

/-- Triangle number `t` of the index array has the directed edge `e`. -/
def MeshData.hasEdge {A : Type} (d : MeshData A) (t : Nat) (e : Nat × Nat) : Prop :=
  ∃ tri, d.triangle t = some tri ∧ e ∈ directedEdges tri

/-- The triangle list of the index array is a closed, consistently wound
surface: every triangle is fully stored, its three directed edges are distinct,
each of them occurs in no other triangle, and the reverse of each occurs in
exactly one triangle. The array holds `face_len / face_att` triangles. -/
def MeshData.closedSurface {A : Type} (d : MeshData A) : Prop :=
  ∀ t, t < d.face_len / face_att → ∃ tri, d.triangle t = some tri ∧
    (directedEdges tri).Nodup ∧
    ∀ e, e ∈ directedEdges tri →
      (∀ t1, t1 < d.face_len / face_att → d.hasEdge t1 e → t1 = t) ∧
      (∃ t2, t2 < d.face_len / face_att ∧ d.hasEdge t2 e.swap ∧
        ∀ t3, t3 < d.face_len / face_att → d.hasEdge t3 e.swap → t3 = t2)

/-- The registry `after` is `before` with one mesh resource of the given name,
handles and size appended. -/
def registersMesh (before after : Registry) (name : String) (vbo ebo size : Nat) : Prop :=
  after = before ++ [{ type := ResourceType.Mesh, name := name, resource := vbo,
                       element_array_buffer := ebo, size := size }]

/-! ## Text utilities -/

/-- The test `separator.find(c) != std::string::npos`. -/
def is_separator (separator : List Char) (c : Char) : Bool := separator.contains c

/-- The statement `output[string_index] += c`; `string_index` is always the
last position of `output`. -/
def append_to_last (output : List (List Char)) (c : Char) : List (List Char) :=
  output.dropLast ++ [output.getLastD [] ++ [c]]

/-- The loop of `string_split` over the remaining characters. `skipping` is
true inside the inner loop "Skip separators", that is after a separator has
opened a new token and until the next character that is not a separator. -/
def string_split_loop (separator : List Char) :
    List Char → Bool → List (List Char) → List (List Char)
  | [], _, output => output
  | c :: rest, skipping, output =>
    if is_separator separator c then
      if skipping then string_split_loop separator rest true output
      else string_split_loop separator rest true (output ++ [[]])
    else string_split_loop separator rest false (append_to_last output c)

/-- `string_split(str, separator)`: a run of separators ends the current token. -/
def string_split (str separator : List Char) : List (List Char) :=
  string_split_loop separator str false [[]]

/-- The loop of `string_split_once` over the remaining characters. -/
def string_split_once_loop (separator : List Char) :
    List Char → List (List Char) → List (List Char)
  | [], output => output
  | c :: rest, output =>
    if is_separator separator c then string_split_once_loop separator rest (output ++ [[]])
    else string_split_once_loop separator rest (append_to_last output c)

/-- `string_split_once(str, separator)`: every separator ends the current token. -/
def string_split_once (str separator : List Char) : List (List Char) :=
  string_split_once_loop separator str [[]]

/-- The value of the local variable `str` when `string_trim(str, to_trim)`
returns. The first loop calls `str.erase(0)`, which erases from position 0 to
the end of the string; the second loop erases the last character while it is
in `to_trim`. The function takes `str` by value and returns `void`: the
caller's string is not changed. -/
def string_trim (str to_trim : List Char) : List Char :=
  let str1 : List Char :=
    match str with
    | [] => []
    | c :: rest => if is_separator to_trim c then [] else c :: rest
  str1.rdropWhile (is_separator to_trim)

/-! ## LoadMesh -/

/-- How a call ends other than by returning. `failure` and `invalid_argument`
are the exceptions `std::ios_base::failure` and `std::invalid_argument` with
their message. `out_of_range` is not an exception: it marks an execution that
subscripts a `std::vector` outside its bounds and so has no defined behaviour. -/
inductive Abort where
  | failure (what : String)
  | invalid_argument (what : String)
  | out_of_range (index : Int)
deriving DecidableEq

/-- The floating-point facilities `LoadMesh` relies on; `ℚ` holds the value of a
`float`. `fl` rounds the exact result of an operation to a `float`,
`read_float str` is `std::istringstream ss(str); ss >> result` (`none` when
`ss.fail()`), `inversesqrt` is `glm::inversesqrt`. -/
structure FloatLib where
  fl : ℚ → ℚ
  read_float : List Char → Option ℚ
  inversesqrt : ℚ → ℚ

/-- `str_to_num<float>(str)`. -/
def str_to_num (lib : FloatLib) (str : List Char) : Except Abort ℚ :=
  match lib.read_float str with
  | some result => .ok result
  | none => .error (.failure ("Invalid number: " ++ String.mk str))

/-- `num_to_str<int>(num)`. -/
def num_to_str (num : Int) : String := toString num

/-- Conversion of a `float` to `int`: truncation towards zero. The source stores
the result in a 32-bit `int`, and the conversion is defined only for a value
whose truncation lies in `[-2^31, 2^31)`; inside that range this is the value of
the source, outside it the source has no defined value. -/
def float_to_int (q : ℚ) : Int := Int.tdiv q.num q.den

/-- The values of the C++ type `int`: 32 bits, two's complement. -/
def is_int (x : Int) : Prop := -2147483648 ≤ x ∧ x ≤ 2147483647

/-- Modelled from the spec: the `Face` record of `model_loader.h` (not part of
the sources): three corners, each with a position index `i`, a normal index `n`
and a texture coordinate index `t`; `-1` stands for an absent index. -/
structure Face where
  i : vec3 Int
  n : vec3 Int
  t : vec3 Int
deriving DecidableEq

/-- One corner of a `Quad` or `Face` under construction: the entries `i[k]`,
`t[k]`, `n[k]` for one `k`. -/
structure Corner where
  i : Int
  t : Int
  n : Int
deriving DecidableEq

/-- Modelled from the spec: the `TriMesh` record of `model_loader.h` (not part
of the sources). -/
structure TriMesh where
  position : List (vec3 ℚ)
  normal : List (vec3 ℚ)
  tex_coord : List (vec2 ℚ)
  face : List Face
deriving DecidableEq

/-- The locals of `LoadMesh` that the line loop updates. -/
structure ParseState where
  mesh : TriMesh
  added_normal : Bool
deriving DecidableEq

/-- The string `ignore`. -/
def ignore : List Char := [' ', '\t', '\r', '\n']

/-- The string `part_separator`. -/
def part_separator : List Char := [' ', '\t']

/-- The string `face_separator`. -/
def face_separator : List Char := ['/']

/-- The expression `str_to_num<float>(s.c_str())-1` assigned to an `int`. -/
def index_of (lib : FloatLib) (s : List Char) : Except Abort Int := do
  let x ← str_to_num lib s
  pure (float_to_int (lib.fl (x - 1)))

/-- The body of the corner loops: decode one corner descriptor. `what` is the
message of the exception thrown for a descriptor with more than two `/`. -/
def decode_corner (lib : FloatLib) (what : String) (descriptor : List Char) :
    Except Abort Corner :=
  let fd := string_split_once descriptor face_separator
  if fd.length = 1 then do
    let i ← index_of lib (fd.getD 0 [])
    pure { i := i, t := -1, n := -1 }
  else if fd.length = 2 then do
    let i ← index_of lib (fd.getD 0 [])
    let t ← index_of lib (fd.getD 1 [])
    pure { i := i, t := t, n := -1 }
  else if fd.length = 3 then do
    let i ← index_of lib (fd.getD 0 [])
    let t ← if fd.getD 1 [] ≠ [] then index_of lib (fd.getD 1 []) else pure (-1)
    let n ← index_of lib (fd.getD 2 [])
    pure { i := i, t := t, n := n }
  else .error (.failure what)

/-- Message of the quad branch for a malformed corner descriptor. -/
def quad_corner_what : String :=
  "Error: f parameter should have 1 or 3 parameters separated by '/'"

/-- Message of the triangle branch for a malformed corner descriptor. -/
def face_corner_what : String :=
  "Error: f parameter should have 1, 2, or 3 parameters separated by '/'"

/-- The `Face` made of three corners. -/
def Face.ofCorners (a b c : Corner) : Face :=
  { i := ⟨a.i, b.i, c.i⟩, n := ⟨a.n, b.n, c.n⟩, t := ⟨a.t, b.t, c.t⟩ }

/-- One iteration of the line loop of `LoadMesh`. The three arguments of a
vector constructor are evaluated from left to right; C++ leaves their order
open, and a compiler that evaluates them from right to left throws the
`Invalid number` error of a later argument when two arguments are malformed.
The order changes only which of these messages is thrown. -/
def parse_line (lib : FloatLib) (st : ParseState) (line : List Char) :
    Except Abort ParseState :=
  -- `string_trim(line, ignore);` works on a copy, `line` keeps its value
  let _trimmed := string_trim line ignore
  if line.length ≤ 0 ∨ line.head? = some '#' then .ok st
  else
    let part := string_split line part_separator
    if part.getD 0 [] = ['v'] then
      if part.length ≥ 4 then do
        let x ← str_to_num lib (part.getD 1 [])
        let y ← str_to_num lib (part.getD 2 [])
        let z ← str_to_num lib (part.getD 3 [])
        pure { st with mesh := { st.mesh with position := st.mesh.position ++ [⟨x, y, z⟩] } }
      else .error (.failure "Error: v command should have exactly 3 parameters")
    else if part.getD 0 [] = ['v', 'n'] then
      if part.length ≥ 4 then do
        let x ← str_to_num lib (part.getD 1 [])
        let y ← str_to_num lib (part.getD 2 [])
        let z ← str_to_num lib (part.getD 3 [])
        pure { mesh := { st.mesh with normal := st.mesh.normal ++ [⟨x, y, z⟩] },
               added_normal := true }
      else .error (.failure "Error: vn command should have exactly 3 parameters")
    else if part.getD 0 [] = ['v', 't'] then
      if part.length ≥ 3 then do
        let x ← str_to_num lib (part.getD 1 [])
        let y ← str_to_num lib (part.getD 2 [])
        pure { st with mesh := { st.mesh with tex_coord := st.mesh.tex_coord ++ [⟨x, y⟩] } }
      else .error (.failure "Error: vt command should have exactly 2 parameters")
    else if part.getD 0 [] = ['f'] then
      if part.length ≥ 4 then
        if part.length > 5 then
          .error (.failure "Error: f commands with more than 4 vertices not supported")
        else if part.length = 5 then do
          let c0 ← decode_corner lib quad_corner_what (part.getD 1 [])
          let c1 ← decode_corner lib quad_corner_what (part.getD 2 [])
          let c2 ← decode_corner lib quad_corner_what (part.getD 3 [])
          let c3 ← decode_corner lib quad_corner_what (part.getD 4 [])
          let face1 := Face.ofCorners c0 c1 c2
          let face2 := Face.ofCorners c0 c2 c3
          pure { st with mesh := { st.mesh with face := st.mesh.face ++ [face1] ++ [face2] } }
        else do
          let c0 ← decode_corner lib face_corner_what (part.getD 1 [])
          let c1 ← decode_corner lib face_corner_what (part.getD 2 [])
          let c2 ← decode_corner lib face_corner_what (part.getD 3 [])
          pure { st with mesh := { st.mesh with face := st.mesh.face ++ [Face.ofCorners c0 c1 c2] } }
      else .error (.failure "Error: f command should have 3 or 4 parameters")
    else .ok st

/-- The locals `mesh` and `added_normal` before the first line is read. -/
def initial_state : ParseState :=
  { mesh := { position := [], normal := [], tex_coord := [], face := [] },
    added_normal := false }

/-- The line loop of `LoadMesh` over the lines `std::getline` delivers. -/
def parse_lines (lib : FloatLib) : ParseState → List (List Char) → Except Abort ParseState
  | st, [] => .ok st
  | st, line :: rest => do
    let st1 ← parse_line lib st line
    parse_lines lib st1 rest

/-- The comparison `index >= vector.size()` of an `int` with a `size_t`: the
`int` is converted to `size_t`, so a negative index compares as a value above
every vector size. -/
def index_exceeds (index : Int) (size : Nat) : Bool :=
  decide (index < 0) || decide ((size : Int) ≤ index)

/-- Message of the exception thrown for a position index that is out of bounds. -/
def out_of_bounds_what (index : Int) : String :=
  "Error: index for triangle " ++ num_to_str index ++ " is out of bounds"

/-- The inner loop "for j" of the check of the vertex references of one face. -/
def check_face (position_size : Nat) (f : Face) : Except Abort Unit :=
  (List.range 3).forM fun j =>
    if index_exceeds (f.i.get j) position_size then
      .error (.failure (out_of_bounds_what (f.i.get j)))
    else pure ()

/-- The block "Check if vertex references are correct". -/
def check_faces (mesh : TriMesh) : Except Abort Unit :=
  mesh.face.forM fun f => check_face mesh.position.length f

/-- The subscript `v[index]` of a `std::vector` with an `int` index. -/
def subscript {α : Type} (v : List α) (index : Int) : Except Abort α :=
  if index < 0 then .error (.out_of_range index)
  else match v.get? index.toNat with
    | some a => .ok a
    | none => .error (.out_of_range index)

/-- The update `v[index] = f(v[index])` of a `std::vector` with an `int` index. -/
def update {α : Type} (v : List α) (index : Int) (f : α → α) : Except Abort (List α) := do
  let a ← subscript v index
  pure (v.set index.toNat (f a))

/-- The block "Compute degree of each vertex". -/
def compute_degree (mesh : TriMesh) : Except Abort (List Nat) :=
  mesh.face.foldlM
    (fun degree f => (List.range 3).foldlM
      (fun degree j => update degree (f.i.get j) (fun d => d + 1)) degree)
    (List.replicate mesh.position.length 0)

/-- Difference of two `glm::vec3`. -/
def vec3_sub (lib : FloatLib) (a b : vec3 ℚ) : vec3 ℚ :=
  ⟨lib.fl (a.x - b.x), lib.fl (a.y - b.y), lib.fl (a.z - b.z)⟩

/-- Sum of two `glm::vec3`. -/
def vec3_add (lib : FloatLib) (a b : vec3 ℚ) : vec3 ℚ :=
  ⟨lib.fl (a.x + b.x), lib.fl (a.y + b.y), lib.fl (a.z + b.z)⟩

/-- Quotient of a `glm::vec3` by an `int`, which is first converted to `float`. -/
def vec3_div (lib : FloatLib) (a : vec3 ℚ) (n : Nat) : vec3 ℚ :=
  ⟨lib.fl (a.x / lib.fl n), lib.fl (a.y / lib.fl n), lib.fl (a.z / lib.fl n)⟩

/-- The function `glm::cross`. -/
def cross (lib : FloatLib) (x y : vec3 ℚ) : vec3 ℚ :=
  ⟨lib.fl (lib.fl (x.y * y.z) - lib.fl (y.y * x.z)),
   lib.fl (lib.fl (x.z * y.x) - lib.fl (y.z * x.x)),
   lib.fl (lib.fl (x.x * y.y) - lib.fl (y.x * x.y))⟩

/-- The function `glm::dot`. -/
def dot (lib : FloatLib) (a b : vec3 ℚ) : ℚ :=
  lib.fl (lib.fl (lib.fl (a.x * b.x) + lib.fl (a.y * b.y)) + lib.fl (a.z * b.z))

/-- The function `glm::normalize`: `v * inversesqrt(dot(v, v))`. The result has
length one only as far as `lib.inversesqrt` is an inverse square root. For the
zero vector the source multiplies zero by an infinite `inversesqrt(0)` and gets
NaN components; NaN is not a rational number, so the value here for the zero
vector is not the value of the source. -/
def normalize (lib : FloatLib) (v : vec3 ℚ) : vec3 ℚ :=
  let s := lib.inversesqrt (dot lib v v)
  ⟨lib.fl (v.x * s), lib.fl (v.y * s), lib.fl (v.z * s)⟩

/-- One iteration of the face loop of the normal computation: the face normal
is added to the three vertices of the face. -/
def add_face_normal (lib : FloatLib) (position : List (vec3 ℚ)) (normal : List (vec3 ℚ))
    (f : Face) : Except Abort (List (vec3 ℚ)) := do
  let p0 ← subscript position (f.i.get 0)
  let p1 ← subscript position (f.i.get 1)
  let vec1 := vec3_sub lib p0 p1
  let p0b ← subscript position (f.i.get 0)
  let p2 ← subscript position (f.i.get 2)
  let vec2 := vec3_sub lib p0b p2
  let norm := normalize lib (cross lib vec1 vec2)
  let normal ← update normal (f.i.get 0) (fun v => vec3_add lib v norm)
  let normal ← update normal (f.i.get 1) (fun v => vec3_add lib v norm)
  update normal (f.i.get 2) (fun v => vec3_add lib v norm)

/-- The loop that divides each accumulated normal by the degree of its vertex. -/
def average_normals (lib : FloatLib) (normal : List (vec3 ℚ)) (degree : List Nat) :
    Except Abort (List (vec3 ℚ)) :=
  (List.range normal.length).foldlM
    (fun normal (i : Nat) => do
      let d ← subscript degree (i : Int)
      if d > 0 then update normal (i : Int) (fun v => vec3_div lib v d) else pure normal)
    normal

/-- The block "Compute vertex normals if no normals were ever added". -/
def compute_normals (lib : FloatLib) (st : ParseState) (degree : List Nat) :
    Except Abort TriMesh :=
  if !st.added_normal then do
    let zero := List.replicate st.mesh.position.length (⟨0, 0, 0⟩ : vec3 ℚ)
    let normal ← st.mesh.face.foldlM (add_face_normal lib st.mesh.position) zero
    let normal ← average_normals lib normal degree
    pure { st.mesh with normal := normal }
  else pure st.mesh

/-- The eleven attributes of corner `j` of a face: the slice
`att[j*vertex_att .. j*vertex_att + 10]` of the zero-initialised array `att`. -/
def corner_attributes (mesh : TriMesh) (added_normal : Bool) (f : Face) (j : Nat) :
    Except Abort (List ℚ) := do
  let p ← subscript mesh.position (f.i.get j)
  let n ←
    if !added_normal then subscript mesh.normal (f.i.get j)
    else if f.n.get j ≥ 0 then subscript mesh.normal (f.n.get j)
    else pure ⟨0, 0, 0⟩
  let t ←
    if f.t.get j ≥ 0 then subscript mesh.tex_coord (f.t.get j)
    else pure ⟨0, 0⟩
  pure [p.x, p.y, p.z, n.x, n.y, n.z, 0, 0, 0, t.x, t.y]

/-- The array `att` of one face: three vertices of eleven attributes. -/
def face_attributes (mesh : TriMesh) (added_normal : Bool) (f : Face) :
    Except Abort (List ℚ) := do
  let a0 ← corner_attributes mesh added_normal f 0
  let a1 ← corner_attributes mesh added_normal f 1
  let a2 ← corner_attributes mesh added_normal f 2
  pure (a0 ++ a1 ++ a2)

/-- The array `findex` of the face that starts at `vertex_index`. -/
def face_indices (vertex_index : Nat) : List Nat :=
  [vertex_index, vertex_index + 1, vertex_index + 2]

/-- The two buffers after the materialisation loop: `glBufferSubData` writes
the block of face `i` at offset `i * 3 * vertex_att` of the vertex buffer and
at offset `i * face_att` of the index buffer. -/
def materialize (mesh : TriMesh) (added_normal : Bool) :
    List Face → Nat → Except Abort (List ℚ × List Nat)
  | [], _ => .ok ([], [])
  | f :: rest, vertex_index => do
    let att ← face_attributes mesh added_normal f
    let findex := face_indices vertex_index
    let (vbo_data, ebo_data) ← materialize mesh added_normal rest (vertex_index + 3)
    pure (att ++ vbo_data, findex ++ ebo_data)

/-- What `LoadMesh` leaves behind when it returns: the mesh in memory after the
normal computation, the flag `added_normal`, the contents of the two backend
buffers and the registry. -/
structure LoadedMesh where
  mesh : TriMesh
  added_normal : Bool
  degree : List Nat
  vbo_data : List ℚ
  ebo_data : List Nat
  registry : Registry

/-- `ResourceManager::LoadMesh`. `file` is the sequence of lines of the file
`filename`, or `none` when the file cannot be opened; `vbo` and `ebo` are the
handles the backend hands out. -/
def LoadMesh (lib : FloatLib) (resource_ : Registry) (vbo ebo : Nat) (name : String)
    (filename : String) (file : Option (List (List Char))) : Except Abort LoadedMesh :=
  match file with
  | none => .error (.failure ("Error opening file " ++ filename))
  | some lines => do
    let st ← parse_lines lib initial_state lines
    check_faces st.mesh
    let degree ← compute_degree st.mesh
    let mesh ← compute_normals lib st degree
    let (vbo_data, ebo_data) ← materialize mesh st.added_normal mesh.face 0
    pure { mesh := mesh, added_normal := st.added_normal, degree := degree,
           vbo_data := vbo_data, ebo_data := ebo_data,
           registry := AddResource2 resource_ ResourceType.Mesh name vbo ebo
             (mesh.face.length * face_att) }

/-- Reads an unsigned decimal integer; any other string is rejected. -/
def read_decimal (str : List Char) : Option ℚ :=
  if str ≠ [] ∧ str.all Char.isDigit then
    some ((str.foldl (fun acc c => 10 * acc + (c.toNat - '0'.toNat)) 0 : Nat) : ℚ)
  else none

/-- An instance of the floating-point facilities for running examples whose
values are small integers: operations are exact, numbers are unsigned decimal
integers, and the inverse square root is exact on squares. -/
def exampleLib : FloatLib :=
  { fl := fun q => q, read_float := read_decimal, inversesqrt := fun q => 1 / Rat.sqrt q }

/-- The model `v 0 0 0`, `v 1 0 0`, `v 0 1 0`, `f 1 2 3`, line by line. -/
def single_triangle_lines : List (List Char) :=
  ["v 0 0 0".toList, "v 1 0 0".toList, "v 0 1 0".toList, "f 1 2 3".toList]

/-- A model whose face refers to a fourth position although only three are
declared, with the `f` record ahead of the `v` records. -/
def dangling_face_lines : List (List Char) :=
  ["f 1 2 4".toList, "v 0 0 0".toList, "v 1 0 0".toList, "v 0 1 0".toList]

/-- A model with a `v` record of four parameters and a `vt` record of three. -/
def extra_parameter_lines : List (List Char) :=
  ["v 1 2 3 4".toList, "vt 0 0 0".toList]

/-! ## GetResource -/

/-- The loop of `GetResource` over the entries from position `i` on: the
position of the first entry whose name equals `name`. -/
def GetResource_loop (name : String) : List Resource → Nat → Option Nat
  | [], _ => none
  | r :: rest, i => if r.name = name then some i else GetResource_loop name rest (i + 1)

/-- `ResourceManager::GetResource`: the entry `resource_[i]` the loop stops at,
or `none` for `NULL`; the second component is the registry after the call. -/
def GetResource (resource_ : Registry) (name : String) : Option Resource × Registry :=
  ((GetResource_loop name resource_ 0).bind fun i => resource_.get? i, resource_)

/-- The `float` nearest to a number that is an integer of magnitude below
`2^31`, with `f32` (ties to even). Numbers that are not integers are returned
as they are: the instance below is only run on integers. -/
def round_integer (q : ℚ) : ℚ :=
  if q.den = 1 then
    if q.num < 0 then -((f32 q.num.natAbs : Nat) : ℚ) else ((f32 q.num.natAbs : Nat) : ℚ)
  else q

/-- An instance of the floating-point facilities for running examples on
integers that need more than 24 bits: numbers are unsigned decimal integers
rounded to the nearest `float`, and the result of an operation is rounded to
the nearest `float`. -/
def integerLib : FloatLib :=
  { fl := round_integer,
    read_float := fun str => (read_decimal str).map round_integer,
    inversesqrt := fun q => 1 / Rat.sqrt q }

/-! ## Observations on a loaded mesh -/

/-- The eleven attributes of vertex `v` of a vertex buffer. -/
def emitted_vertex (vbo_data : List ℚ) (v : Nat) : List ℚ :=
  (vbo_data.drop (v * vertex_att)).take vertex_att

/-- The number of corner descriptors of an `f` record: the tokens after the
first one; `none` for a line that is no `f` record. -/
def face_corners (line : List Char) : Option Nat :=
  let part := string_split line part_separator
  if part.getD 0 [] = ['f'] then some (part.length - 1) else none

/-- The number of `f` records with `k` corner descriptors. -/
def face_records (lines : List (List Char)) (k : Nat) : Nat :=
  lines.countP fun line => face_corners line = some k

/-- The normal a `vn` record declares: its first three parameters; `none` for
a line that is no `vn` record with three numbers. -/
def vn_record (lib : FloatLib) (line : List Char) : Option (vec3 ℚ) :=
  let part := string_split line part_separator
  if part.getD 0 [] = ['v', 'n'] ∧ part.length ≥ 4 then do
    let x ← lib.read_float (part.getD 1 [])
    let y ← lib.read_float (part.getD 2 [])
    let z ← lib.read_float (part.getD 3 [])
    pure ⟨x, y, z⟩
  else none

/-- Whether the first token of a line is `vn`. -/
def is_vn (line : List Char) : Bool :=
  decide ((string_split line part_separator).getD 0 [] = ['v', 'n'])

/-- A model with one texture coordinate and one explicit normal, whose face
gives its first corner both, its second corner the normal only and its third
corner neither. -/
def explicit_normal_lines : List (List Char) :=
  ["v 0 0 0".toList, "v 1 0 0".toList, "v 0 1 0".toList, "vt 1 0".toList,
   "vn 1 0 0".toList, "f 1/1/1 2//1 3".toList]

/-- The mesh in memory after the lines of `explicit_normal_lines` are read. -/
def explicit_normal_mesh : TriMesh :=
  { position := [⟨0, 0, 0⟩, ⟨1, 0, 0⟩, ⟨0, 1, 0⟩], normal := [⟨1, 0, 0⟩],
    tex_coord := [⟨1, 0⟩],
    face := [{ i := ⟨0, 1, 2⟩, n := ⟨0, 0, -1⟩, t := ⟨0, -1, -1⟩ }] }

/-! ## The average of the face normals -/

/-- The two shader kinds `LoadMaterial` creates. -/
inductive ShaderType where
  | GL_VERTEX_SHADER
  | GL_FRAGMENT_SHADER
deriving DecidableEq

/-- One call that leaves the program: the opening of a file, a call of the
graphics backend or a call of the image library. `glGetProgramInfoLog` is a
backend call the source never makes. `mesh_upload` stands for the buffer calls
of `LoadMesh` (`glGenBuffers`, `glBindBuffer`, `glBufferData` and the
`glBufferSubData` of every face) and carries the contents they leave in the
two buffers. -/
inductive Call where
  | ifstream_open (filename : String)
  | glCreateShader (type : ShaderType)
  | glShaderSource (shader : Nat) (source : String)
  | glCompileShader (shader : Nat)
  | glGetShaderiv (shader : Nat)
  | glGetShaderInfoLog (shader : Nat)
  | glCreateProgram
  | glAttachShader (program shader : Nat)
  | glLinkProgram (program : Nat)
  | glGetProgramiv (program : Nat)
  | glGetProgramInfoLog (program : Nat)
  | glDeleteShader (shader : Nat)
  | SOIL_load_OGL_texture (filename : String)
  | SOIL_last_result
  | glGenTextures
  | glBindTexture (texture : Nat)
  | SOIL_load_image (filename : String)
  | glTexImage2D (face : Nat)
  | SOIL_free_image_data
  | glTexParameteri (pname param : String)
  | mesh_upload (vbo ebo : Nat) (vbo_data : List ℚ) (ebo_data : List Nat)
deriving DecidableEq

/-- What the code takes from outside `resource_manager.cpp` during one call:
the two macros of `resource_manager.h`, the lines of the files (`none` for a
file that cannot be opened), the floating-point facilities, and the answers of
the graphics backend and of the image library. `compile_status shader` and
`link_status program` tell whether the status read back equals `GL_TRUE`;
`shader_info_log object` is the text `glGetShaderInfoLog(object, 512, NULL,
buffer)` leaves in `buffer`; `program_info_log program` is the info log of a
program object, the linker's diagnostic; `SOIL_load_OGL_texture` returns 0 on
failure; `SOIL_load_image` tells whether the image pointer is not null;
`SOIL_last_result filename` is the text of `SOIL_last_result()` after the
failed load of `filename`. -/
structure Environment where
  VERTEX_PROGRAM_EXTENSION : String
  FRAGMENT_PROGRAM_EXTENSION : String
  file : String → Option (List (List Char))
  lib : FloatLib
  glCreateShader : ShaderType → Nat
  glCreateProgram : Nat
  compile_status : Nat → Bool
  link_status : Nat → Bool
  shader_info_log : Nat → String
  program_info_log : Nat → String
  SOIL_load_OGL_texture : String → Nat
  SOIL_load_image : String → Bool
  SOIL_last_result : String → String
  glGenTextures : Nat
  vbo : Nat
  ebo : Nat

/-- The state a loader works on: the member `resource_` and the calls made so
far. -/
structure World where
  resource_ : Registry
  calls : List Call
deriving DecidableEq

/-- The world after further calls. -/
def World.call (w : World) (cs : List Call) : World :=
  { w with calls := w.calls ++ cs }

/-- `ResourceManager::LoadTextFile`: the lines of the file, each followed by a
newline. -/
def LoadTextFile (env : Environment) (w : World) (filename : String) :
    Except Abort String × World :=
  match env.file filename with
  | none => (.error (.failure ("Error opening file " ++ filename)),
             w.call [.ifstream_open filename])
  | some lines =>
    (.ok (lines.foldl (fun content line => content ++ (String.mk line ++ "\n")) ""),
     w.call [.ifstream_open filename])

/-- `ResourceManager::LoadMaterial`. The first component is how the call ends,
the second the world it leaves, also when it throws. -/
def LoadMaterial (env : Environment) (w : World) (name prefix_ : String) :
    Except Abort Unit × World :=
  match LoadTextFile env w (prefix_ ++ env.VERTEX_PROGRAM_EXTENSION) with
  | (.error e, w1) => (.error e, w1)
  | (.ok vp, w1) =>
    match LoadTextFile env w1 (prefix_ ++ env.FRAGMENT_PROGRAM_EXTENSION) with
    | (.error e, w2) => (.error e, w2)
    | (.ok fp, w2) =>
      let vs := env.glCreateShader .GL_VERTEX_SHADER
      let w3 := w2.call [.glCreateShader .GL_VERTEX_SHADER, .glShaderSource vs vp,
        .glCompileShader vs, .glGetShaderiv vs]
      if env.compile_status vs ≠ true then
        (.error (.failure ("Error compiling vertex shader: " ++ env.shader_info_log vs)),
         w3.call [.glGetShaderInfoLog vs])
      else
        let fs := env.glCreateShader .GL_FRAGMENT_SHADER
        let w4 := w3.call [.glCreateShader .GL_FRAGMENT_SHADER, .glShaderSource fs fp,
          .glCompileShader fs, .glGetShaderiv fs]
        if env.compile_status fs ≠ true then
          (.error (.failure ("Error compiling fragment shader: " ++ env.shader_info_log fs)),
           w4.call [.glGetShaderInfoLog fs])
        else
          let sp := env.glCreateProgram
          let w5 := w4.call [.glCreateProgram, .glAttachShader sp vs, .glAttachShader sp fs,
            .glLinkProgram sp, .glGetProgramiv sp]
          if env.link_status sp ≠ true then
            (.error (.failure ("Error linking shaders: " ++ env.shader_info_log sp)),
             w5.call [.glGetShaderInfoLog sp])
          else
            let w6 := w5.call [.glDeleteShader vs, .glDeleteShader fs]
            (.ok (), { w6 with resource_ := AddResource w6.resource_ .Material name sp 0 })

/-- `ResourceManager::LoadTexture`. -/
def LoadTexture (env : Environment) (w : World) (name filename : String) :
    Except Abort Unit × World :=
  let texture := env.SOIL_load_OGL_texture filename
  let w1 := w.call [.SOIL_load_OGL_texture filename]
  if texture = 0 then
    (.error (.failure ("Error loading texture " ++ filename ++ ": " ++
       env.SOIL_last_result filename)),
     w1.call [.SOIL_last_result])
  else (.ok (), { w1 with resource_ := AddResource w1.resource_ .Texture name texture 0 })

/-- `ResourceManager::LoadMesh` as a step on the world. The only statement of
`LoadMesh` that touches `resource_` is the `AddResource` at its end, and every
exception is thrown before the first buffer call. The world paired with
`out_of_range` carries no meaning: the behaviour of that execution is
undefined. -/
def LoadMesh_call (env : Environment) (w : World) (name filename : String) :
    Except Abort Unit × World :=
  match LoadMesh env.lib w.resource_ env.vbo env.ebo name filename (env.file filename) with
  | .ok r =>
    (.ok (), { resource_ := r.registry,
               calls := w.calls ++ [.ifstream_open filename,
                 .mesh_upload env.vbo env.ebo r.vbo_data r.ebo_data] })
  | .error e => (.error e, w.call [.ifstream_open filename])

/-- `ResourceManager::LoadResource`. `type` is `none` for a value of the
enumeration that is none of `Material`, `Texture`, `Mesh`. -/
def LoadResource (env : Environment) (w : World) (type : Option ResourceType)
    (name filename : String) : Except Abort Unit × World :=
  if type = some .Material then LoadMaterial env w name filename
  else if type = some .Texture then LoadTexture env w name filename
  else if type = some .Mesh then LoadMesh_call env w name filename
  else (.error (.invalid_argument "Invalid type of resource"), w)

/-- The loop of `LoadCubeMap` over the faces from number `i` on. -/
def LoadCubeMap_loop (env : Environment) :
    List String → Nat → World → Except Abort Unit × World
  | [], _, w => (.ok (), w)
  | face :: rest, i, w =>
    let w1 := w.call [.SOIL_load_image face]
    if ¬ env.SOIL_load_image face then
      (.error (.failure ("Error loading cube map texture: " ++ face ++ ": " ++
         env.SOIL_last_result face)),
       w1.call [.SOIL_last_result])
    else LoadCubeMap_loop env rest (i + 1) (w1.call [.glTexImage2D i, .SOIL_free_image_data])

/-- `ResourceManager::LoadCubeMap`. -/
def LoadCubeMap (env : Environment) (w : World) (name : String) (faces : List String) :
    Except Abort Unit × World :=
  let textureID := env.glGenTextures
  let w1 := w.call [.glGenTextures, .glBindTexture textureID]
  match LoadCubeMap_loop env faces 0 w1 with
  | (.error e, w2) => (.error e, w2)
  | (.ok _, w2) =>
    let w3 := w2.call
      [.glTexParameteri "GL_TEXTURE_MAG_FILTER" "GL_LINEAR",
       .glTexParameteri "GL_TEXTURE_MIN_FILTER" "GL_LINEAR",
       .glTexParameteri "GL_TEXTURE_WRAP_S" "GL_CLAMP_TO_EDGE",
       .glTexParameteri "GL_TEXTURE_WRAP_T" "GL_CLAMP_TO_EDGE",
       .glTexParameteri "GL_TEXTURE_WRAP_R" "GL_CLAMP_TO_EDGE"]
    (.ok (), { w3 with resource_ := AddResource w3.resource_ .Texture name textureID 0 })

/-- An environment for running the loaders on examples: the material `m` has
the shader files `m_vp.glsl` and `m_fp.glsl`, the three flags tell whether the
vertex shader compiles, the fragment shader compiles and the program links;
the shaders get the handles 1 and 2 and the program the handle 3. The query
`glGetShaderInfoLog` on the program handle leaves no text. The image
`a.png` loads, no other image does. -/
def exampleEnvironment (vertex_ok fragment_ok link_ok : Bool) : Environment :=
  { VERTEX_PROGRAM_EXTENSION := "_vp.glsl"
    FRAGMENT_PROGRAM_EXTENSION := "_fp.glsl"
    file := fun filename =>
      if filename = "m_vp.glsl" then some ["v".toList]
      else if filename = "m_fp.glsl" then some ["f".toList]
      else if filename = "t.obj" then some single_triangle_lines
      else none
    lib := exampleLib
    glCreateShader := fun type =>
      match type with
      | .GL_VERTEX_SHADER => 1
      | .GL_FRAGMENT_SHADER => 2
    glCreateProgram := 3
    compile_status := fun shader => if shader = 1 then vertex_ok else fragment_ok
    link_status := fun _ => link_ok
    shader_info_log := fun object =>
      if object = 1 then "vertex diagnostic"
      else if object = 2 then "fragment diagnostic" else ""
    program_info_log := fun _ => "link diagnostic"
    SOIL_load_OGL_texture := fun filename => if filename = "a.png" then 7 else 0
    SOIL_load_image := fun filename => decide (filename = "a.png")
    SOIL_last_result := fun _ => "Unable to open file"
    glGenTextures := 8
    vbo := 1
    ebo := 2 }

/-! ## Observations on the text utilities -/

/-- The number of maximal runs of separator characters that begin in a string;
`inside` tells whether the character in front of the string is a separator. -/
def separator_runs (separator : List Char) : List Char → Bool → Nat
  | [], _ => 0
  | c :: rest, inside =>
    if is_separator separator c then
      (if inside then 0 else 1) + separator_runs separator rest true
    else separator_runs separator rest false

/-- The tokens joined with the character `c` between them. -/
def join_with (c : Char) : List (List Char) → List Char
  | [] => []
  | [token] => token
  | token :: rest => token ++ c :: join_with c rest

/-- A model without `vt` record whose face gives its first corner the texture
coordinate index 5. -/
def dangling_texcoord_lines : List (List Char) :=
  ["v 0 0 0".toList, "v 1 0 0".toList, "v 0 1 0".toList, "f 1/5 2 3".toList]

/-- A model with one `vn` record whose face gives its first corner the normal
index 7. -/
def dangling_normal_lines : List (List Char) :=
  ["v 0 0 0".toList, "v 1 0 0".toList, "v 0 1 0".toList, "vn 1 0 0".toList,
   "f 1//7 2 3".toList]

/-! # Theorems -/

/-- Length of a `flatMap` whose pieces all have the same length. -/
theorem length_flatMap_const {α β : Type} (l : List α) (f : α → List β) (c : Nat)
    (h : ∀ a, (f a).length = c) : (l.flatMap f).length = l.length * c := by
  induction l with
  | nil => simp
  | cons a l ih => simp [List.flatMap_cons, h, ih, Nat.succ_mul, Nat.add_comm]

theorem length_addVectors {A : Type} (base : Nat) (v : VertexVectors A) :
    (addVectors base v).length = 11 := by
  simp [addVectors, List.range_succ_eq_map, List.flatMap]

theorem length_addTriangles (quad : Nat) (t1 t2 : vec3 Nat) :
    (addTriangles quad t1 t2).length = 6 := by
  simp [addTriangles, List.range_succ_eq_map, List.flatMap]

/-! ## Contents of the index array -/

theorem foldl_storeAt_of_not_mem {A : Type} (writes : List (Store A)) (mem : Nat → Option A)
    (s : Nat) (h : ∀ w ∈ writes, w.1 ≠ s) : writes.foldl storeAt mem s = mem s := by
  induction writes generalizing mem with
  | nil => rfl
  | cons w ws ih =>
    rw [List.foldl_cons, ih _ (fun w' hw' => h w' (List.mem_cons_of_mem _ hw'))]
    have : w.1 ≠ s := h w (List.mem_cons_self _ _)
    simp [storeAt, Ne.symm this]

theorem foldl_storeAt_of_unique {A : Type} (writes : List (Store A)) (mem : Nat → Option A)
    (s : Nat) (v : A) (hmem : (s, v) ∈ writes) (huniq : ∀ w ∈ writes, w.1 = s → w.2 = v) :
    writes.foldl storeAt mem s = some v := by
  induction writes generalizing mem with
  | nil => simp at hmem
  | cons w ws ih =>
    rw [List.foldl_cons]
    by_cases hex : ∃ w1 ∈ ws, w1.1 = s
    · obtain ⟨w1, hw1, hs1⟩ := hex
      have hv1 : w1.2 = v := huniq w1 (List.mem_cons_of_mem _ hw1) hs1
      have : (s, v) ∈ ws := by
        have e : w1 = (s, v) := Prod.ext hs1 hv1
        rw [← e]; exact hw1
      exact ih _ this (fun w2 hw2 => huniq w2 (List.mem_cons_of_mem _ hw2))
    · have hnone : ∀ w1 ∈ ws, w1.1 ≠ s := fun w1 hw1 h1 => hex ⟨w1, hw1, h1⟩
      rw [foldl_storeAt_of_not_mem _ _ _ hnone]
      have hw : w = (s, v) := by
        rcases List.mem_cons.1 hmem with h | h
        · exact h.symm
        · exact absurd rfl (hnone _ h)
      simp [storeAt, hw]

/-- A slot that is stored to with one value only holds that value. -/
theorem memoryOf_of_unique {A : Type} (writes : List (Store A)) (s : Nat) (v : A)
    (hmem : (s, v) ∈ writes) (huniq : ∀ w ∈ writes, w.1 = s → w.2 = v) :
    memoryOf writes s = some v :=
  foldl_storeAt_of_unique writes _ s v hmem huniq

theorem mem_addTriangles (quad : Nat) (t1 t2 : vec3 Nat) (w : Store Nat) :
    w ∈ addTriangles quad t1 t2 ↔
      ∃ k, k < 3 ∧ (w = (quad * 6 + k, t1.get k) ∨ w = (quad * 6 + k + 3, t2.get k)) := by
  simp only [addTriangles, face_att, List.mem_flatMap, List.mem_range, List.mem_cons,
    List.mem_singleton, List.not_mem_nil, or_false, Nat.mul_assoc]

theorem mem_quadStores (rows cols : Nat) (t1 t2 : Nat → Nat → vec3 Nat) (w : Store Nat) :
    w ∈ quadStores rows cols t1 t2 ↔
      ∃ i, i < rows ∧ ∃ j, j < cols ∧ ∃ k, k < 3 ∧
        (w = ((i * cols + j) * 6 + k, (t1 i j).get k) ∨
         w = ((i * cols + j) * 6 + k + 3, (t2 i j).get k)) := by
  simp only [quadStores, List.mem_flatMap, List.mem_range, mem_addTriangles]

theorem grid_div_mod (cols i j : Nat) (hj : j < cols) :
    (i * cols + j) / cols = i ∧ (i * cols + j) % cols = j := by
  have hc : 0 < cols := by omega
  constructor
  · rw [Nat.add_comm, Nat.add_mul_div_right _ _ hc, Nat.div_eq_of_lt hj, Nat.zero_add]
  · rw [Nat.add_comm, Nat.add_mul_mod_self_right, Nat.mod_eq_of_lt hj]

theorem grid_lt (rows cols i j : Nat) (hi : i < rows) (hj : j < cols) :
    i * cols + j < rows * cols := by
  have : (i + 1) * cols ≤ rows * cols := Nat.mul_le_mul_right _ hi
  rw [Nat.add_mul, Nat.one_mul] at this
  omega

/-- Every slot below `rows * cols * 6` is stored to, and holds `quadEntry`. -/
theorem memoryOf_quadStores (rows cols : Nat) (t1 t2 : Nat → Nat → vec3 Nat) (s : Nat)
    (hs : s < rows * cols * 6) :
    memoryOf (quadStores rows cols t1 t2) s = some (quadEntry cols t1 t2 s) := by
  have hc : 0 < cols := by
    rcases Nat.eq_zero_or_pos cols with h | h
    · subst h; simp at hs
    · exact h
  have hq : s / 6 < rows * cols := by
    apply Nat.div_lt_of_lt_mul; rw [Nat.mul_comm]; exact hs
  have hi : s / 6 / cols < rows := by
    apply Nat.div_lt_of_lt_mul; rw [Nat.mul_comm]; exact hq
  have hj : s / 6 % cols < cols := Nat.mod_lt _ hc
  have hij : s / 6 / cols * cols + s / 6 % cols = s / 6 := Nat.div_add_mod' _ _
  apply memoryOf_of_unique
  · rw [mem_quadStores]
    refine ⟨s / 6 / cols, hi, s / 6 % cols, hj, ?_⟩
    rw [hij]
    by_cases hr : s % 6 < 3
    · refine ⟨s % 6, hr, Or.inl ?_⟩
      simp only [quadEntry, hr, if_true]
      congr 1; omega
    · refine ⟨s % 6 - 3, by omega, Or.inr ?_⟩
      simp only [quadEntry, hr, if_false]
      congr 1; omega
  · intro w hw hws
    rw [mem_quadStores] at hw
    obtain ⟨i, -, j, hjc, k, hk, h⟩ := hw
    have hdm := grid_div_mod cols i j hjc
    rcases h with h | h
    · subst h
      simp only at hws
      have h6 : s / 6 = i * cols + j := by omega
      have hr : s % 6 = k := by omega
      simp only [quadEntry, h6, hr, hk, if_true, hdm.1, hdm.2]
    · subst h
      simp only at hws
      have h6 : s / 6 = i * cols + j := by omega
      have hr : s % 6 = k + 3 := by omega
      have hnot : ¬ (k + 3 < 3) := by omega
      simp only [quadEntry, h6, hr, hnot, if_false, hdm.1, hdm.2, Nat.add_sub_cancel]

theorem f32_of_le (n : Nat) (h : n ≤ 2 ^ 24) : f32 n = n := by
  rcases Nat.lt_or_ge n (2 ^ 24) with h1 | h1
  · have h1a : n < 16777216 := h1
    have : f32_shift n = 0 := by
      simp [f32_shift, List.range_succ_eq_map, List.find?, h1a]
    simp [f32, this, Nat.mod_one]
  · have : n = 2 ^ 24 := le_antisymm h h1
    subst this; decide

theorem torus_face_eq {A : Type} (vtx : Nat → Nat → VertexVectors A) (N M : Nat) :
    (torusData vtx N M).face = quadStores N M (torus_t1 N M) (torus_t2 N M) := rfl

theorem sphere_face_eq {A : Type} (vtx : Nat → Nat → VertexVectors A) (N M : Nat) :
    (sphereData vtx N M).face = quadStores N (M - 1) (sphere_t1 N M) (sphere_t2 N M) := rfl

theorem crater_face_eq {A : Type} (ops : FloatOps A) (heightMap : Nat → A) (gw gh : A)
    (W L : Nat) :
    (craterData ops heightMap gw gh W L).face =
      quadStores (W - 1) (L - 1) (fun x z => crater_t1 W x z) (fun x z => crater_t2 W x z) := rfl

theorem torus_indexAt {A : Type} (vtx : Nat → Nat → VertexVectors A) (N M s : Nat)
    (hs : s < N * M * 6) :
    (torusData vtx N M).indexAt s = some (quadEntry M (torus_t1 N M) (torus_t2 N M) s) := by
  rw [MeshData.indexAt, torus_face_eq]; exact memoryOf_quadStores _ _ _ _ _ hs

theorem sphere_indexAt {A : Type} (vtx : Nat → Nat → VertexVectors A) (N M s : Nat)
    (hs : s < N * (M - 1) * 6) :
    (sphereData vtx N M).indexAt s =
      some (quadEntry (M - 1) (sphere_t1 N M) (sphere_t2 N M) s) := by
  rw [MeshData.indexAt, sphere_face_eq]; exact memoryOf_quadStores _ _ _ _ _ hs

theorem succ_mod_lt (i N : Nat) (hN : 0 < N) : (i + 1) % N < N := Nat.mod_lt _ hN

/-- Below `2^24` vertices the triangles of the torus hold the exact `int`s. -/
theorem torus_t1_exact (N M i j : Nat) (hi : i < N) (hj : j < M) (hsz : N * M ≤ 2 ^ 24) :
    torus_t1 N M i j = ⟨((i + 1) % N) * M + j, i * M + (j + 1) % M, i * M + j⟩ := by
  have hN : 0 < N := by omega
  have hM : 0 < M := by omega
  have h1 := grid_lt N M _ j (succ_mod_lt i N hN) hj
  have h2 := grid_lt N M i _ hi (succ_mod_lt j M hM)
  have h3 := grid_lt N M i j hi hj
  simp only [torus_t1, ivec3]
  rw [f32_of_le _ (by omega), f32_of_le _ (by omega), f32_of_le _ (by omega)]

theorem torus_t2_exact (N M i j : Nat) (hi : i < N) (hj : j < M) (hsz : N * M ≤ 2 ^ 24) :
    torus_t2 N M i j =
      ⟨((i + 1) % N) * M + j, ((i + 1) % N) * M + (j + 1) % M, i * M + (j + 1) % M⟩ := by
  have hN : 0 < N := by omega
  have hM : 0 < M := by omega
  have h1 := grid_lt N M _ j (succ_mod_lt i N hN) hj
  have h2 := grid_lt N M _ _ (succ_mod_lt i N hN) (succ_mod_lt j M hM)
  have h3 := grid_lt N M i _ hi (succ_mod_lt j M hM)
  simp only [torus_t2, ivec3]
  rw [f32_of_le _ (by omega), f32_of_le _ (by omega), f32_of_le _ (by omega)]

theorem sphere_t1_exact (N M i j : Nat) (hi : i < N) (hj : j + 1 < M) (hsz : N * M ≤ 2 ^ 24) :
    sphere_t1 N M i j = ⟨((i + 1) % N) * M + j, i * M + (j + 1), i * M + j⟩ := by
  have hN : 0 < N := by omega
  have h1 := grid_lt N M _ j (succ_mod_lt i N hN) (by omega)
  have h2 := grid_lt N M i (j + 1) hi hj
  have h3 := grid_lt N M i j hi (by omega)
  simp only [sphere_t1, ivec3]
  rw [f32_of_le _ (by omega), f32_of_le _ (by omega), f32_of_le _ (by omega)]

theorem sphere_t2_exact (N M i j : Nat) (hi : i < N) (hj : j + 1 < M) (hsz : N * M ≤ 2 ^ 24) :
    sphere_t2 N M i j =
      ⟨((i + 1) % N) * M + j, ((i + 1) % N) * M + (j + 1), i * M + (j + 1)⟩ := by
  have hN : 0 < N := by omega
  have h1 := grid_lt N M _ j (succ_mod_lt i N hN) (by omega)
  have h2 := grid_lt N M _ (j + 1) (succ_mod_lt i N hN) hj
  have h3 := grid_lt N M i (j + 1) hi hj
  simp only [sphere_t2, ivec3]
  rw [f32_of_le _ (by omega), f32_of_le _ (by omega), f32_of_le _ (by omega)]

theorem vec3_get_cases {A : Type} (v : vec3 A) (k : Nat) :
    v.get k = v.x ∨ v.get k = v.y ∨ v.get k = v.z := by
  match k with
  | 0 => exact Or.inl rfl
  | 1 => exact Or.inr (Or.inl rfl)
  | _ + 2 => exact Or.inr (Or.inr rfl)

theorem torus_indicesValid {A : Type} (vtx : Nat → Nat → VertexVectors A) (N M : Nat)
    (hsz : N * M ≤ 2 ^ 24) : (torusData vtx N M).indicesValid (N * M) := by
  intro s hs
  have hs6 : s < N * M * 6 := by
    have : (torusData vtx N M).face_len = N * M * 6 := by
      simp only [torusData, face_att]; ring
    omega
  refine ⟨_, torus_indexAt vtx N M s hs6, ?_⟩
  have hq : s / 6 < N * M := by
    apply Nat.div_lt_of_lt_mul; rw [Nat.mul_comm]; exact hs6
  have hM : 0 < M := by
    rcases Nat.eq_zero_or_pos M with h | h
    · subst h; simp at hq
    · exact h
  have hN : 0 < N := by
    rcases Nat.eq_zero_or_pos N with h | h
    · subst h; simp at hq
    · exact h
  have hi : s / 6 / M < N := by
    apply Nat.div_lt_of_lt_mul; rw [Nat.mul_comm]; exact hq
  have hj : s / 6 % M < M := Nat.mod_lt _ hM
  have h1 := grid_lt N M _ _ (succ_mod_lt (s / 6 / M) N hN) hj
  have h2 := grid_lt N M _ _ hi (succ_mod_lt (s / 6 % M) M hM)
  have h3 := grid_lt N M _ _ hi hj
  have h4 := grid_lt N M _ _ (succ_mod_lt (s / 6 / M) N hN) (succ_mod_lt (s / 6 % M) M hM)
  unfold quadEntry
  split
  · rw [torus_t1_exact N M _ _ hi hj hsz]
    rcases vec3_get_cases (A := Nat) ⟨_, _, _⟩ (s % 6) with h | h | h <;> rw [h] <;> assumption
  · rw [torus_t2_exact N M _ _ hi hj hsz]
    rcases vec3_get_cases (A := Nat) ⟨_, _, _⟩ (s % 6 - 3) with h | h | h <;> rw [h] <;> assumption

theorem sphere_indicesValid {A : Type} (vtx : Nat → Nat → VertexVectors A) (N M : Nat)
    (hsz : N * M ≤ 2 ^ 24) : (sphereData vtx N M).indicesValid (N * M) := by
  intro s hs
  have hs6 : s < N * (M - 1) * 6 := by
    have : (sphereData vtx N M).face_len = N * (M - 1) * 6 := by
      simp only [sphereData, face_att]; ring
    omega
  refine ⟨_, sphere_indexAt vtx N M s hs6, ?_⟩
  have hq : s / 6 < N * (M - 1) := by
    apply Nat.div_lt_of_lt_mul; rw [Nat.mul_comm]; exact hs6
  have hM : 0 < M - 1 := by
    rcases Nat.eq_zero_or_pos (M - 1) with h | h
    · rw [h] at hq; simp at hq
    · exact h
  have hN : 0 < N := by
    rcases Nat.eq_zero_or_pos N with h | h
    · subst h; simp at hq
    · exact h
  have hi : s / 6 / (M - 1) < N := by
    apply Nat.div_lt_of_lt_mul; rw [Nat.mul_comm]; exact hq
  have hj : s / 6 % (M - 1) < M - 1 := Nat.mod_lt _ hM
  have hj1 : s / 6 % (M - 1) + 1 < M := by omega
  have h1 := grid_lt N M _ _ (succ_mod_lt (s / 6 / (M - 1)) N hN) (show s / 6 % (M - 1) < M by omega)
  have h2 := grid_lt N M _ _ hi hj1
  have h3 := grid_lt N M _ _ hi (show s / 6 % (M - 1) < M by omega)
  have h4 := grid_lt N M _ _ (succ_mod_lt (s / 6 / (M - 1)) N hN) hj1
  unfold quadEntry
  split
  · rw [sphere_t1_exact N M _ _ hi hj1 hsz]
    rcases vec3_get_cases (A := Nat) ⟨_, _, _⟩ (s % 6) with h | h | h <;> rw [h] <;> assumption
  · rw [sphere_t2_exact N M _ _ hi hj1 hsz]
    rcases vec3_get_cases (A := Nat) ⟨_, _, _⟩ (s % 6 - 3) with h | h | h <;> rw [h] <;> assumption

/-! ## C1 -/

/-- C2, as amended: for `N, M ≥ 3` with at most `2^24` vertices (`N*M ≤ 2^24`),
every slot of the index array allocated by `CreateTorus(N,M)` and by
`CreateSphere(N,M)` is stored to and holds an index `< N*M`. -/
theorem torus_sphere_indices_valid {A : Type} (vtx : Nat → Nat → VertexVectors A)
    (N M : Nat) (_hN : 3 ≤ N) (_hM : 3 ≤ M) (hsz : N * M ≤ 2 ^ 24) :
    (torusData vtx N M).indicesValid (N * M) ∧ (sphereData vtx N M).indicesValid (N * M) :=
  ⟨torus_indicesValid vtx N M hsz, sphere_indicesValid vtx N M hsz⟩

/-- Witness of C2: 3 × 4 samples. -/
theorem torus_sphere_indices_valid_witness :
    (3 ≤ 3 ∧ 3 ≤ 4 ∧ 3 * 4 ≤ 2 ^ 24) ∧
    ((torusData sampleVectors 3 4).indicesValid (3 * 4) ∧
     (sphereData sampleVectors 3 4).indicesValid (3 * 4)) :=
  ⟨⟨by decide, by decide, by decide⟩,
   torus_sphere_indices_valid sampleVectors 3 4 (by decide) (by decide) (by decide)⟩

/-- C2 fails as stated: `CreateTorus(4, 4194305)` has `16777220` vertices; the
quad `(3, 4194304)` stores the index `3*M + 4194304 = 16777219` through a
`float`, and slot `100663316` of the index array receives `16777220`, which is
not the index of a vertex. -/
theorem torus_index_out_of_range :
    3 ≤ 4 ∧ 3 ≤ 4194305 ∧ 100663316 < (torusData sampleVectors 4 4194305).face_len ∧
    (torusData sampleVectors 4 4194305).indexAt 100663316 = some 16777220 ∧
    ¬ (16777220 < 4 * 4194305) ∧
    ¬ (torusData sampleVectors 4 4194305).indicesValid (4 * 4194305) := by
  have hlen : 100663316 < (torusData sampleVectors 4 4194305).face_len := by
    simp only [torusData, face_att]; decide
  have hat : (torusData sampleVectors 4 4194305).indexAt 100663316 = some 16777220 := by
    rw [torus_indexAt _ _ _ _ (by decide)]
    decide
  refine ⟨by decide, by decide, hlen, hat, by decide, ?_⟩
  intro h
  obtain ⟨v, hv, hlt⟩ := h 100663316 hlen
  rw [hat] at hv
  cases hv
  exact absurd hlt (by decide)

/-! ## Triangles of the index array -/

theorem quadEntry_t1 (cols : Nat) (t1 t2 : Nat → Nat → vec3 Nat) (i j k : Nat)
    (hj : j < cols) (hk : k < 3) :
    quadEntry cols t1 t2 ((i * cols + j) * 6 + k) = (t1 i j).get k := by
  have hdm := grid_div_mod cols i j hj
  have h6 : ((i * cols + j) * 6 + k) / 6 = i * cols + j := by omega
  have hr : ((i * cols + j) * 6 + k) % 6 = k := by omega
  simp only [quadEntry, h6, hr, hk, if_true, hdm.1, hdm.2]

theorem quadEntry_t2 (cols : Nat) (t1 t2 : Nat → Nat → vec3 Nat) (i j k : Nat)
    (hj : j < cols) (hk : k < 3) :
    quadEntry cols t1 t2 ((i * cols + j) * 6 + k + 3) = (t2 i j).get k := by
  have hdm := grid_div_mod cols i j hj
  have h6 : ((i * cols + j) * 6 + k + 3) / 6 = i * cols + j := by omega
  have hr : ((i * cols + j) * 6 + k + 3) % 6 = k + 3 := by omega
  have hnot : ¬ (k + 3 < 3) := by omega
  simp only [quadEntry, h6, hr, hnot, if_false, hdm.1, hdm.2, Nat.add_sub_cancel]

/-- The two triangles the index array holds for quad `(i, j)`. -/
theorem triangle_of_quadStores {A : Type} (d : MeshData A) (rows cols : Nat)
    (t1 t2 : Nat → Nat → vec3 Nat) (hd : d.face = quadStores rows cols t1 t2)
    (i j : Nat) (hi : i < rows) (hj : j < cols) :
    d.triangle (2 * (i * cols + j)) = some (t1 i j) ∧
    d.triangle (2 * (i * cols + j) + 1) = some (t2 i j) := by
  have hq := grid_lt rows cols i j hi hj
  have hat : ∀ s, s < rows * cols * 6 → d.indexAt s = some (quadEntry cols t1 t2 s) := by
    intro s hs; rw [MeshData.indexAt, hd]; exact memoryOf_quadStores _ _ _ _ _ hs
  have e0 := quadEntry_t1 cols t1 t2 i j 0 hj (by omega)
  have e1 := quadEntry_t1 cols t1 t2 i j 1 hj (by omega)
  have e2 := quadEntry_t1 cols t1 t2 i j 2 hj (by omega)
  have e3 := quadEntry_t2 cols t1 t2 i j 0 hj (by omega)
  have e4 := quadEntry_t2 cols t1 t2 i j 1 hj (by omega)
  have e5 := quadEntry_t2 cols t1 t2 i j 2 hj (by omega)
  constructor
  · have a0 : 3 * (2 * (i * cols + j)) = (i * cols + j) * 6 + 0 := by omega
    have a1 : 3 * (2 * (i * cols + j)) + 1 = (i * cols + j) * 6 + 1 := by omega
    have a2 : 3 * (2 * (i * cols + j)) + 2 = (i * cols + j) * 6 + 2 := by omega
    unfold MeshData.triangle
    rw [a1, a2, a0, hat _ (by omega), hat _ (by omega), hat _ (by omega), e0, e1, e2]
    rfl
  · have a0 : 3 * (2 * (i * cols + j) + 1) = (i * cols + j) * 6 + 0 + 3 := by omega
    have a1 : 3 * (2 * (i * cols + j) + 1) + 1 = (i * cols + j) * 6 + 1 + 3 := by omega
    have a2 : 3 * (2 * (i * cols + j) + 1) + 2 = (i * cols + j) * 6 + 2 + 3 := by omega
    unfold MeshData.triangle
    rw [a1, a2, a0, hat _ (by omega), hat _ (by omega), hat _ (by omega), e3, e4, e5]
    rfl

theorem triangle_lt_decompose (rows cols t : Nat) (ht : t < 2 * rows * cols) :
    ∃ i j, i < rows ∧ j < cols ∧ (t = 2 * (i * cols + j) ∨ t = 2 * (i * cols + j) + 1) := by
  have hc : 0 < cols := by
    rcases Nat.eq_zero_or_pos cols with h | h
    · subst h; simp at ht
    · exact h
  have hq : t / 2 < rows * cols := by
    apply Nat.div_lt_of_lt_mul; rw [← Nat.mul_assoc]; exact ht
  have hi : t / 2 / cols < rows := by
    apply Nat.div_lt_of_lt_mul; rw [Nat.mul_comm]; exact hq
  have hij : t / 2 / cols * cols + t / 2 % cols = t / 2 := Nat.div_add_mod' _ _
  refine ⟨t / 2 / cols, t / 2 % cols, hi, Nat.mod_lt _ hc, ?_⟩
  rw [hij]; omega

theorem grid_mod (cols i j : Nat) (hj : j < cols) : (i * cols + j) % cols = j :=
  (grid_div_mod cols i j hj).2

/-! ## C3 -/

/-- C3, as amended: for a torus of at most `2^24` vertices, both triangles of
the quad at loop-index `N-1` contain the loop-index-0 vertex `0*M + j` together
with a vertex of loop-index `N-1`, and both triangles of the quad at
circle-index `M-1` contain the circle-index-0 vertex `i*M + 0`. -/
theorem torus_wraps_both_directions {A : Type} (vtx : Nat → Nat → VertexVectors A)
    (N M : Nat) (hN : 1 ≤ N) (hM : 1 ≤ M) (hsz : N * M ≤ 2 ^ 24) :
    (∀ j, j < M → ∃ ta tb,
      (torusData vtx N M).triangle (2 * ((N - 1) * M + j)) = some ta ∧
      (torusData vtx N M).triangle (2 * ((N - 1) * M + j) + 1) = some tb ∧
      ta.has (0 * M + j) ∧
      (ta.has ((N - 1) * M + j) ∨ ta.has ((N - 1) * M + (j + 1) % M)) ∧
      tb.has (0 * M + j) ∧
      (tb.has ((N - 1) * M + j) ∨ tb.has ((N - 1) * M + (j + 1) % M))) ∧
    (∀ i, i < N → ∃ ta tb,
      (torusData vtx N M).triangle (2 * (i * M + (M - 1))) = some ta ∧
      (torusData vtx N M).triangle (2 * (i * M + (M - 1)) + 1) = some tb ∧
      ta.has (i * M + 0) ∧ tb.has (i * M + 0)) := by
  constructor
  · intro j hj
    have hi : N - 1 < N := by omega
    have hwrap : (N - 1 + 1) % N = 0 := by
      rw [Nat.sub_add_cancel hN, Nat.mod_self]
    obtain ⟨h1, h2⟩ := triangle_of_quadStores (torusData vtx N M) N M _ _
      (torus_face_eq vtx N M) (N - 1) j hi hj
    refine ⟨_, _, h1, h2, ?_, ?_, ?_, ?_⟩
    · rw [torus_t1_exact N M _ _ hi hj hsz, hwrap]; exact Or.inl rfl
    · rw [torus_t1_exact N M _ _ hi hj hsz]; exact Or.inl (Or.inr (Or.inr rfl))
    · rw [torus_t2_exact N M _ _ hi hj hsz, hwrap]; exact Or.inl rfl
    · rw [torus_t2_exact N M _ _ hi hj hsz]; exact Or.inr (Or.inr (Or.inr rfl))
  · intro i hi
    have hj : M - 1 < M := by omega
    have hwrap : (M - 1 + 1) % M = 0 := by
      rw [Nat.sub_add_cancel hM, Nat.mod_self]
    obtain ⟨h1, h2⟩ := triangle_of_quadStores (torusData vtx N M) N M _ _
      (torus_face_eq vtx N M) i (M - 1) hi hj
    refine ⟨_, _, h1, h2, ?_, ?_⟩
    · rw [torus_t1_exact N M _ _ hi hj hsz, hwrap]; exact Or.inr (Or.inl rfl)
    · rw [torus_t2_exact N M _ _ hi hj hsz, hwrap]; exact Or.inr (Or.inr rfl)

/-- C3 fails as stated: in `CreateTorus(3, 16777218)` the first triangle of the
quad at loop-index `N-1 = 2` and circle-index `j = 16777217` is
`(16777216, 33554436, 50331652)`; it does not contain the loop-index-0 vertex
`0*M + j = 16777217`, which is not representable as a `float`. -/
theorem torus_wrap_vertex_missing :
    16777217 < 16777218 ∧
    (torusData sampleVectors 3 16777218).triangle (2 * ((3 - 1) * 16777218 + 16777217)) =
      some ⟨16777216, 33554436, 50331652⟩ ∧
    ¬ (vec3.has ⟨16777216, 33554436, 50331652⟩ (0 * 16777218 + 16777217)) ∧
    ¬ (∃ ta, (torusData sampleVectors 3 16777218).triangle
        (2 * ((3 - 1) * 16777218 + 16777217)) = some ta ∧
        ta.has (0 * 16777218 + 16777217)) := by
  have htri : (torusData sampleVectors 3 16777218).triangle
      (2 * ((3 - 1) * 16777218 + 16777217)) = some ⟨16777216, 33554436, 50331652⟩ := by
    rw [(triangle_of_quadStores (torusData sampleVectors 3 16777218) 3 16777218 _ _
      (torus_face_eq _ _ _) 2 16777217 (by decide) (by decide)).1]
    decide
  have hnot : ¬ (vec3.has ⟨16777216, 33554436, 50331652⟩ (0 * 16777218 + 16777217)) := by
    simp [vec3.has]
  refine ⟨by decide, htri, hnot, ?_⟩
  rintro ⟨ta, hta, hhas⟩
  rw [htri] at hta
  cases hta
  exact hnot hhas

/-- Witness of C3: a 3 × 4 torus. -/
theorem torus_wraps_both_directions_witness :
    (1 ≤ 3 ∧ 1 ≤ 4 ∧ 3 * 4 ≤ 2 ^ 24) ∧
    ((∀ j, j < 4 → ∃ ta tb,
      (torusData sampleVectors 3 4).triangle (2 * ((3 - 1) * 4 + j)) = some ta ∧
      (torusData sampleVectors 3 4).triangle (2 * ((3 - 1) * 4 + j) + 1) = some tb ∧
      ta.has (0 * 4 + j) ∧
      (ta.has ((3 - 1) * 4 + j) ∨ ta.has ((3 - 1) * 4 + (j + 1) % 4)) ∧
      tb.has (0 * 4 + j) ∧
      (tb.has ((3 - 1) * 4 + j) ∨ tb.has ((3 - 1) * 4 + (j + 1) % 4))) ∧
    (∀ i, i < 3 → ∃ ta tb,
      (torusData sampleVectors 3 4).triangle (2 * (i * 4 + (4 - 1))) = some ta ∧
      (torusData sampleVectors 3 4).triangle (2 * (i * 4 + (4 - 1)) + 1) = some tb ∧
      ta.has (i * 4 + 0) ∧ tb.has (i * 4 + 0))) :=
  ⟨⟨by decide, by decide, by decide⟩,
   torus_wraps_both_directions sampleVectors 3 4 (by decide) (by decide) (by decide)⟩

/-! ## C4 -/

theorem grid_inj (M a b c d : Nat) (hb : b < M) (hd : d < M) (h : a * M + b = c * M + d) :
    a = c ∧ b = d := by
  have h1 := grid_div_mod M a b hb
  have h2 := grid_div_mod M c d hd
  rw [h] at h1
  exact ⟨h1.1.symm.trans h2.1, h1.2.symm.trans h2.2⟩

theorem succ_mod_cases (i N : Nat) (hi : i < N) :
    (i + 1 < N ∧ (i + 1) % N = i + 1) ∨ (i + 1 = N ∧ (i + 1) % N = 0) := by
  rcases Nat.lt_or_ge (i + 1) N with h | h
  · exact Or.inl ⟨h, Nat.mod_eq_of_lt h⟩
  · have e : i + 1 = N := by omega
    exact Or.inr ⟨e, by rw [e, Nat.mod_self]⟩

theorem pred_mod_cases (i N : Nat) (hi : i < N) :
    (0 < i ∧ (i + N - 1) % N = i - 1) ∨ (i = 0 ∧ (i + N - 1) % N = N - 1) := by
  rcases Nat.eq_zero_or_pos i with h | h
  · subst h
    refine Or.inr ⟨rfl, ?_⟩
    rw [Nat.zero_add]; exact Nat.mod_eq_of_lt (by omega)
  · refine Or.inl ⟨h, ?_⟩
    have e : i + N - 1 = (i - 1) + N := by omega
    rw [e, Nat.add_mod_right]; exact Nat.mod_eq_of_lt (by omega)

theorem torus_hasEdge_t1 {A : Type} (vtx : Nat → Nat → VertexVectors A) (N M i j : Nat)
    (hi : i < N) (hj : j < M) (hsz : N * M ≤ 2 ^ 24) (e : Nat × Nat) :
    (torusData vtx N M).hasEdge (2 * (i * M + j)) e ↔
      (e = ((i + 1) % N * M + j, i * M + (j + 1) % M) ∨
       e = (i * M + (j + 1) % M, i * M + j) ∨
       e = (i * M + j, (i + 1) % N * M + j)) := by
  have h := (triangle_of_quadStores (torusData vtx N M) N M _ _
    (torus_face_eq vtx N M) i j hi hj).1
  rw [torus_t1_exact N M i j hi hj hsz] at h
  simp only [MeshData.hasEdge, h, Option.some.injEq, exists_eq_left', directedEdges,
    List.mem_cons, List.mem_singleton, List.not_mem_nil, or_false]

theorem torus_hasEdge_t2 {A : Type} (vtx : Nat → Nat → VertexVectors A) (N M i j : Nat)
    (hi : i < N) (hj : j < M) (hsz : N * M ≤ 2 ^ 24) (e : Nat × Nat) :
    (torusData vtx N M).hasEdge (2 * (i * M + j) + 1) e ↔
      (e = ((i + 1) % N * M + j, (i + 1) % N * M + (j + 1) % M) ∨
       e = ((i + 1) % N * M + (j + 1) % M, i * M + (j + 1) % M) ∨
       e = (i * M + (j + 1) % M, (i + 1) % N * M + j)) := by
  have h := (triangle_of_quadStores (torusData vtx N M) N M _ _
    (torus_face_eq vtx N M) i j hi hj).2
  rw [torus_t2_exact N M i j hi hj hsz] at h
  simp only [MeshData.hasEdge, h, Option.some.injEq, exists_eq_left', directedEdges,
    List.mem_cons, List.mem_singleton, List.not_mem_nil, or_false]

theorem torus_edge_t1_t1 (N M i j i' j' : Nat) (hN : 3 ≤ N) (hM : 3 ≤ M)
    (hi : i < N) (hj : j < M) (hi' : i' < N) (hj' : j' < M) (e : Nat × Nat)
    (h : (e = ((i + 1) % N * M + j, i * M + (j + 1) % M) ∨
       e = (i * M + (j + 1) % M, i * M + j) ∨
       e = (i * M + j, (i + 1) % N * M + j)))
    (h' : (e = ((i' + 1) % N * M + j', i' * M + (j' + 1) % M) ∨
       e = (i' * M + (j' + 1) % M, i' * M + j') ∨
       e = (i' * M + j', (i' + 1) % N * M + j'))) :
    i = i' ∧ j = j' := by
  have hs := succ_mod_cases i N hi
  have hs' := succ_mod_cases i' N hi'
  have hu := succ_mod_cases j M hj
  have hu' := succ_mod_cases j' M hj'
  have ls := succ_mod_lt i N (by omega)
  have ls' := succ_mod_lt i' N (by omega)
  have lu := succ_mod_lt j M (by omega)
  have lu' := succ_mod_lt j' M (by omega)
  generalize (i + 1) % N = si at *
  generalize (i' + 1) % N = si' at *
  generalize (j + 1) % M = uj at *
  generalize (j' + 1) % M = uj' at *
  rcases h with h | h | h <;> rcases h' with h' | h' | h' <;>
    (rw [h] at h'
     simp only [Prod.mk.injEq] at h'
     obtain ⟨g1, g2⟩ := h'
     have k1 := grid_inj M _ _ _ _ (by assumption) (by assumption) g1
     have k2 := grid_inj M _ _ _ _ (by assumption) (by assumption) g2
     omega)

theorem torus_edge_t2_t2 (N M i j i' j' : Nat) (hN : 3 ≤ N) (hM : 3 ≤ M)
    (hi : i < N) (hj : j < M) (hi' : i' < N) (hj' : j' < M) (e : Nat × Nat)
    (h : (e = ((i + 1) % N * M + j, (i + 1) % N * M + (j + 1) % M) ∨
       e = ((i + 1) % N * M + (j + 1) % M, i * M + (j + 1) % M) ∨
       e = (i * M + (j + 1) % M, (i + 1) % N * M + j)))
    (h' : (e = ((i' + 1) % N * M + j', (i' + 1) % N * M + (j' + 1) % M) ∨
       e = ((i' + 1) % N * M + (j' + 1) % M, i' * M + (j' + 1) % M) ∨
       e = (i' * M + (j' + 1) % M, (i' + 1) % N * M + j'))) :
    i = i' ∧ j = j' := by
  have hs := succ_mod_cases i N hi
  have hs' := succ_mod_cases i' N hi'
  have hu := succ_mod_cases j M hj
  have hu' := succ_mod_cases j' M hj'
  have ls := succ_mod_lt i N (by omega)
  have ls' := succ_mod_lt i' N (by omega)
  have lu := succ_mod_lt j M (by omega)
  have lu' := succ_mod_lt j' M (by omega)
  generalize (i + 1) % N = si at *
  generalize (i' + 1) % N = si' at *
  generalize (j + 1) % M = uj at *
  generalize (j' + 1) % M = uj' at *
  rcases h with h | h | h <;> rcases h' with h' | h' | h' <;>
    (rw [h] at h'
     simp only [Prod.mk.injEq] at h'
     obtain ⟨g1, g2⟩ := h'
     have k1 := grid_inj M _ _ _ _ (by assumption) (by assumption) g1
     have k2 := grid_inj M _ _ _ _ (by assumption) (by assumption) g2
     omega)

theorem torus_edge_t1_t2 (N M i j i' j' : Nat) (hN : 3 ≤ N) (hM : 3 ≤ M)
    (hi : i < N) (hj : j < M) (hi' : i' < N) (hj' : j' < M) (e : Nat × Nat)
    (h : (e = ((i + 1) % N * M + j, i * M + (j + 1) % M) ∨
       e = (i * M + (j + 1) % M, i * M + j) ∨
       e = (i * M + j, (i + 1) % N * M + j)))
    (h' : (e = ((i' + 1) % N * M + j', (i' + 1) % N * M + (j' + 1) % M) ∨
       e = ((i' + 1) % N * M + (j' + 1) % M, i' * M + (j' + 1) % M) ∨
       e = (i' * M + (j' + 1) % M, (i' + 1) % N * M + j'))) :
    False := by
  have hs := succ_mod_cases i N hi
  have hs' := succ_mod_cases i' N hi'
  have hu := succ_mod_cases j M hj
  have hu' := succ_mod_cases j' M hj'
  have ls := succ_mod_lt i N (by omega)
  have ls' := succ_mod_lt i' N (by omega)
  have lu := succ_mod_lt j M (by omega)
  have lu' := succ_mod_lt j' M (by omega)
  generalize (i + 1) % N = si at *
  generalize (i' + 1) % N = si' at *
  generalize (j + 1) % M = uj at *
  generalize (j' + 1) % M = uj' at *
  rcases h with h | h | h <;> rcases h' with h' | h' | h' <;>
    (rw [h] at h'
     simp only [Prod.mk.injEq] at h'
     obtain ⟨g1, g2⟩ := h'
     have k1 := grid_inj M _ _ _ _ (by assumption) (by assumption) g1
     have k2 := grid_inj M _ _ _ _ (by assumption) (by assumption) g2
     omega)

theorem succ_pred_mod (i N : Nat) (hi : i < N) : ((i + N - 1) % N + 1) % N = i := by
  rcases pred_mod_cases i N hi with ⟨h0, h⟩ | ⟨h0, h⟩
  · rw [h]
    have e : i - 1 + 1 = i := by omega
    rw [e]; exact Nat.mod_eq_of_lt hi
  · rw [h]
    have e : N - 1 + 1 = N := by omega
    rw [e, Nat.mod_self]; exact h0.symm

theorem torus_edges_nodup (N M i j : Nat) (hN : 3 ≤ N) (hM : 3 ≤ M) (hi : i < N) (hj : j < M) :
    (directedEdges ⟨(i + 1) % N * M + j, i * M + (j + 1) % M, i * M + j⟩).Nodup ∧
    (directedEdges
      ⟨(i + 1) % N * M + j, (i + 1) % N * M + (j + 1) % M, i * M + (j + 1) % M⟩).Nodup := by
  have hs := succ_mod_cases i N hi
  have hu := succ_mod_cases j M hj
  have ls := succ_mod_lt i N (by omega)
  have lu := succ_mod_lt j M (by omega)
  generalize (i + 1) % N = si at *
  generalize (j + 1) % M = uj at *
  simp only [directedEdges, List.nodup_cons, List.mem_cons, List.mem_singleton,
    List.not_mem_nil, not_false_eq_true, List.nodup_nil, and_true, Prod.mk.injEq, not_or,
    or_false]
  refine ⟨⟨⟨?_, ?_⟩, ?_⟩, ⟨⟨?_, ?_⟩, ?_⟩⟩ <;>
    (rintro ⟨g1, g2⟩
     have k1 := grid_inj M _ _ _ _ (by assumption) (by assumption) g1
     have k2 := grid_inj M _ _ _ _ (by assumption) (by assumption) g2
     omega)

/-- In a torus of at most `2^24` vertices a directed edge lies in one triangle only. -/
theorem torus_edge_unique {A : Type} (vtx : Nat → Nat → VertexVectors A) (N M : Nat)
    (hN : 3 ≤ N) (hM : 3 ≤ M) (hsz : N * M ≤ 2 ^ 24) (e : Nat × Nat) (t t' : Nat)
    (ht : t < 2 * N * M) (ht' : t' < 2 * N * M)
    (h : (torusData vtx N M).hasEdge t e) (h' : (torusData vtx N M).hasEdge t' e) :
    t = t' := by
  obtain ⟨i, j, hi, hj, hc⟩ := triangle_lt_decompose N M t ht
  obtain ⟨i', j', hi', hj', hc'⟩ := triangle_lt_decompose N M t' ht'
  rcases hc with hc | hc <;> rcases hc' with hc' | hc' <;> subst hc <;> subst hc'
  · rw [torus_hasEdge_t1 vtx N M i j hi hj hsz] at h
    rw [torus_hasEdge_t1 vtx N M i' j' hi' hj' hsz] at h'
    obtain ⟨rfl, rfl⟩ := torus_edge_t1_t1 N M i j i' j' hN hM hi hj hi' hj' e h h'
    rfl
  · rw [torus_hasEdge_t1 vtx N M i j hi hj hsz] at h
    rw [torus_hasEdge_t2 vtx N M i' j' hi' hj' hsz] at h'
    exact (torus_edge_t1_t2 N M i j i' j' hN hM hi hj hi' hj' e h h').elim
  · rw [torus_hasEdge_t2 vtx N M i j hi hj hsz] at h
    rw [torus_hasEdge_t1 vtx N M i' j' hi' hj' hsz] at h'
    exact (torus_edge_t1_t2 N M i' j' i j hN hM hi' hj' hi hj e h' h).elim
  · rw [torus_hasEdge_t2 vtx N M i j hi hj hsz] at h
    rw [torus_hasEdge_t2 vtx N M i' j' hi' hj' hsz] at h'
    obtain ⟨rfl, rfl⟩ := torus_edge_t2_t2 N M i j i' j' hN hM hi hj hi' hj' e h h'
    rfl

/-- In a torus of at most `2^24` vertices the reverse of every directed edge of
a triangle is a directed edge of some triangle. -/
theorem torus_edge_reverse {A : Type} (vtx : Nat → Nat → VertexVectors A) (N M : Nat)
    (hN : 3 ≤ N) (hM : 3 ≤ M) (hsz : N * M ≤ 2 ^ 24) (e : Nat × Nat) (t : Nat)
    (ht : t < 2 * N * M) (h : (torusData vtx N M).hasEdge t e) :
    ∃ t2, t2 < 2 * N * M ∧ (torusData vtx N M).hasEdge t2 e.swap := by
  obtain ⟨i, j, hi, hj, hc⟩ := triangle_lt_decompose N M t ht
  have hNpos : 0 < N := by omega
  have hMpos : 0 < M := by omega
  have lpi : (i + N - 1) % N < N := Nat.mod_lt _ hNpos
  have lpj : (j + M - 1) % M < M := Nat.mod_lt _ hMpos
  have lsi : (i + 1) % N < N := Nat.mod_lt _ hNpos
  have luj : (j + 1) % M < M := Nat.mod_lt _ hMpos
  have bound : ∀ a b, a < N → b < M → 2 * (a * M + b) + 1 < 2 * N * M := by
    intro a b ha hb
    have := grid_lt N M a b ha hb
    rw [Nat.mul_assoc]; omega
  rcases hc with hc | hc <;> subst hc
  · rw [torus_hasEdge_t1 vtx N M i j hi hj hsz] at h
    rcases h with h | h | h <;> subst h
    · refine ⟨2 * (i * M + j) + 1, bound i j hi hj, ?_⟩
      rw [torus_hasEdge_t2 vtx N M i j hi hj hsz]
      exact Or.inr (Or.inr rfl)
    · refine ⟨2 * ((i + N - 1) % N * M + j) + 1, bound _ j lpi hj, ?_⟩
      rw [torus_hasEdge_t2 vtx N M _ j lpi hj hsz, succ_pred_mod i N hi]
      exact Or.inl rfl
    · refine ⟨2 * (i * M + (j + M - 1) % M) + 1, bound i _ hi lpj, ?_⟩
      rw [torus_hasEdge_t2 vtx N M i _ hi lpj hsz, succ_pred_mod j M hj]
      exact Or.inr (Or.inl rfl)
  · rw [torus_hasEdge_t2 vtx N M i j hi hj hsz] at h
    rcases h with h | h | h <;> subst h
    · refine ⟨2 * ((i + 1) % N * M + j), by have := bound _ j lsi hj; omega, ?_⟩
      rw [torus_hasEdge_t1 vtx N M _ j lsi hj hsz]
      exact Or.inr (Or.inl rfl)
    · refine ⟨2 * (i * M + (j + 1) % M), by have := bound i _ hi luj; omega, ?_⟩
      rw [torus_hasEdge_t1 vtx N M i _ hi luj hsz]
      exact Or.inr (Or.inr rfl)
    · refine ⟨2 * (i * M + j), by have := bound i j hi hj; omega, ?_⟩
      rw [torus_hasEdge_t1 vtx N M i j hi hj hsz]
      exact Or.inl rfl

theorem torus_triangle_count {A : Type} (vtx : Nat → Nat → VertexVectors A) (N M : Nat) :
    (torusData vtx N M).face_len / face_att = 2 * N * M := by
  simp only [torusData, face_att]
  rw [Nat.mul_div_cancel _ (by decide : 0 < 3)]; ring

/-- C4, as amended: for `N, M ≥ 3` and at most `2^24` vertices the triangle list
of the torus is a closed, consistently wound surface: the three directed edges
of a triangle are distinct, every directed edge occurs in exactly one triangle,
and its reverse occurs in exactly one triangle. -/
theorem torus_closed_surface {A : Type} (vtx : Nat → Nat → VertexVectors A) (N M : Nat)
    (hN : 3 ≤ N) (hM : 3 ≤ M) (hsz : N * M ≤ 2 ^ 24) :
    (torusData vtx N M).closedSurface := by
  intro t ht
  rw [torus_triangle_count] at ht ⊢
  obtain ⟨i, j, hi, hj, hc⟩ := triangle_lt_decompose N M t ht
  obtain ⟨h1, h2⟩ := triangle_of_quadStores (torusData vtx N M) N M _ _
    (torus_face_eq vtx N M) i j hi hj
  rw [torus_t1_exact N M i j hi hj hsz] at h1
  rw [torus_t2_exact N M i j hi hj hsz] at h2
  obtain ⟨nd1, nd2⟩ := torus_edges_nodup N M i j hN hM hi hj
  have fin : ∀ tri, (torusData vtx N M).triangle t = some tri →
      ∀ e, e ∈ directedEdges tri →
      (∀ t1, t1 < 2 * N * M → (torusData vtx N M).hasEdge t1 e → t1 = t) ∧
      (∃ t2, t2 < 2 * N * M ∧ (torusData vtx N M).hasEdge t2 e.swap ∧
        ∀ t3, t3 < 2 * N * M → (torusData vtx N M).hasEdge t3 e.swap → t3 = t2) := by
    intro tri htri e he
    have hte : (torusData vtx N M).hasEdge t e := ⟨tri, htri, he⟩
    refine ⟨fun t1 ht1 h => torus_edge_unique vtx N M hN hM hsz e t1 t ht1 ht h hte, ?_⟩
    obtain ⟨t2, ht2, hrev⟩ := torus_edge_reverse vtx N M hN hM hsz e t ht hte
    exact ⟨t2, ht2, hrev, fun t3 ht3 h =>
      torus_edge_unique vtx N M hN hM hsz e.swap t3 t2 ht3 ht2 h hrev⟩
  rcases hc with hc | hc
  · rw [← hc] at h1
    exact ⟨_, h1, nd1, fin _ h1⟩
  · rw [← hc] at h2
    exact ⟨_, h2, nd2, fin _ h2⟩

/-- Witness of C4: a 3 × 4 torus. -/
theorem torus_closed_surface_witness :
    (3 ≤ 3 ∧ 3 ≤ 4 ∧ 3 * 4 ≤ 2 ^ 24) ∧ (torusData sampleVectors 3 4).closedSurface :=
  ⟨⟨by decide, by decide, by decide⟩,
   torus_closed_surface sampleVectors 3 4 (by decide) (by decide) (by decide)⟩

/-- C4 fails as stated: in `CreateTorus(4, 4194305)` the vertices `16777216` and
`16777217` are both stored as `16777216`, and the two distinct triangles
`33554432` and `33554433` of quad `(3, 4194301)` both contain the directed edge
`(16777216, 4194301)`. -/
theorem torus_edge_in_two_triangles :
    3 ≤ 4 ∧ 3 ≤ 4194305 ∧
    (torusData sampleVectors 4 4194305).triangle 33554432 =
      some ⟨4194301, 16777216, 16777216⟩ ∧
    (torusData sampleVectors 4 4194305).triangle 33554433 =
      some ⟨4194301, 4194302, 16777216⟩ ∧
    ¬ (torusData sampleVectors 4 4194305).closedSurface := by
  have h := triangle_of_quadStores (torusData sampleVectors 4 4194305) 4 4194305 _ _
    (torus_face_eq _ _ _) 3 4194301 (by decide) (by decide)
  have e1 : torus_t1 4 4194305 3 4194301 = ⟨4194301, 16777216, 16777216⟩ := by decide
  have e2 : torus_t2 4 4194305 3 4194301 = ⟨4194301, 4194302, 16777216⟩ := by decide
  have h1 : (torusData sampleVectors 4 4194305).triangle 33554432 =
      some ⟨4194301, 16777216, 16777216⟩ := by rw [← e1]; exact h.1
  have h2 : (torusData sampleVectors 4 4194305).triangle 33554433 =
      some ⟨4194301, 4194302, 16777216⟩ := by rw [← e2]; exact h.2
  refine ⟨by decide, by decide, h1, h2, ?_⟩
  intro hclosed
  have hcount := torus_triangle_count sampleVectors 4 4194305
  obtain ⟨tri, htri, -, hall⟩ := hclosed 33554432 (by rw [hcount]; decide)
  rw [h1] at htri
  cases htri
  have huniq := (hall (16777216, 4194301) (by simp [directedEdges])).1 33554433
    (by rw [hcount]; decide) ⟨_, h2, by simp [directedEdges]⟩
  exact absurd huniq (by decide)

/-! ## C5 -/

/-- C5, as amended: in a sphere of `N, M ≥ 3` samples and at most `2^24`
vertices the theta index wraps and the phi index does not. Both triangles of
the quad at theta-index `N-1` contain the theta-index-0 vertex `0*M + j`, and
the second one also contains `0*M + j+1`; the phi-indices (`v % M`) of every
triangle lie in `{j, j+1}` for one `j < M-1`, and no triangle contains both a
vertex of phi-index `M-1` and a vertex of phi-index `0`. -/
theorem sphere_theta_wraps_phi_does_not {A : Type} (vtx : Nat → Nat → VertexVectors A)
    (N M : Nat) (hN : 3 ≤ N) (hM : 3 ≤ M) (hsz : N * M ≤ 2 ^ 24) :
    (∀ j, j < M - 1 → ∃ ta tb,
      (sphereData vtx N M).triangle (2 * ((N - 1) * (M - 1) + j)) = some ta ∧
      (sphereData vtx N M).triangle (2 * ((N - 1) * (M - 1) + j) + 1) = some tb ∧
      ta.has (0 * M + j) ∧ tb.has (0 * M + j) ∧ tb.has (0 * M + (j + 1))) ∧
    (∀ t, t < 2 * N * (M - 1) → ∃ tri,
      (sphereData vtx N M).triangle t = some tri ∧
      (∃ j, j < M - 1 ∧ ∀ v, tri.has v → v % M = j ∨ v % M = j + 1) ∧
      ¬ (∃ u v, tri.has u ∧ tri.has v ∧ u % M = M - 1 ∧ v % M = 0)) := by
  constructor
  · intro j hj
    have hi : N - 1 < N := by omega
    have hwrap : (N - 1 + 1) % N = 0 := by
      rw [Nat.sub_add_cancel (by omega), Nat.mod_self]
    obtain ⟨h1, h2⟩ := triangle_of_quadStores (sphereData vtx N M) N (M - 1) _ _
      (sphere_face_eq vtx N M) (N - 1) j hi hj
    refine ⟨_, _, h1, h2, ?_, ?_, ?_⟩
    · rw [sphere_t1_exact N M _ _ hi (by omega) hsz, hwrap]; exact Or.inl rfl
    · rw [sphere_t2_exact N M _ _ hi (by omega) hsz, hwrap]; exact Or.inl rfl
    · rw [sphere_t2_exact N M _ _ hi (by omega) hsz, hwrap]; exact Or.inr (Or.inl rfl)
  · intro t ht
    obtain ⟨i0, j0, hi, hj, hcase⟩ := triangle_lt_decompose N (M - 1) t ht
    obtain ⟨h1, h2⟩ := triangle_of_quadStores (sphereData vtx N M) N (M - 1) _ _
      (sphere_face_eq vtx N M) _ _ hi hj
    have hj1 : j0 + 1 < M := by omega
    have hj0 : j0 < M := by omega
    have key : ∀ tri : vec3 Nat,
        (tri = sphere_t1 N M (i0) (j0) ∨
         tri = sphere_t2 N M (i0) (j0)) →
        ∀ v, tri.has v → v % M = j0 ∨ v % M = j0 + 1 := by
      intro tri htri v hv
      rcases htri with e | e
      · rw [e, sphere_t1_exact N M _ _ hi hj1 hsz] at hv
        rcases hv with h | h | h <;> simp only at h <;> rw [← h]
        · exact Or.inl (grid_mod M _ _ hj0)
        · exact Or.inr (grid_mod M _ _ hj1)
        · exact Or.inl (grid_mod M _ _ hj0)
      · rw [e, sphere_t2_exact N M _ _ hi hj1 hsz] at hv
        rcases hv with h | h | h <;> simp only at h <;> rw [← h]
        · exact Or.inl (grid_mod M _ _ hj0)
        · exact Or.inr (grid_mod M _ _ hj1)
        · exact Or.inr (grid_mod M _ _ hj1)
    have fin : ∀ tri : vec3 Nat,
        (tri = sphere_t1 N M (i0) (j0) ∨
         tri = sphere_t2 N M (i0) (j0)) →
        (∃ j, j < M - 1 ∧ ∀ v, tri.has v → v % M = j ∨ v % M = j + 1) ∧
        ¬ (∃ u v, tri.has u ∧ tri.has v ∧ u % M = M - 1 ∧ v % M = 0) := by
      intro tri htri
      refine ⟨⟨_, hj, key tri htri⟩, ?_⟩
      rintro ⟨u, v, hu, hv, hu1, hv0⟩
      have a := key tri htri u hu
      have b := key tri htri v hv
      omega
    rcases hcase with e | e
    · refine ⟨_, ?_, fin _ (Or.inl rfl)⟩
      rw [e]; exact h1
    · refine ⟨_, ?_, fin _ (Or.inr rfl)⟩
      rw [e]; exact h2

/-- Witness of C5: a sphere of 3 × 4 samples. -/
theorem sphere_theta_wraps_phi_does_not_witness :
    (3 ≤ 3 ∧ 3 ≤ 4 ∧ 3 * 4 ≤ 2 ^ 24) ∧
    ((∀ j, j < 4 - 1 → ∃ ta tb,
      (sphereData sampleVectors 3 4).triangle (2 * ((3 - 1) * (4 - 1) + j)) = some ta ∧
      (sphereData sampleVectors 3 4).triangle (2 * ((3 - 1) * (4 - 1) + j) + 1) = some tb ∧
      ta.has (0 * 4 + j) ∧ tb.has (0 * 4 + j) ∧ tb.has (0 * 4 + (j + 1))) ∧
    (∀ t, t < 2 * 3 * (4 - 1) → ∃ tri,
      (sphereData sampleVectors 3 4).triangle t = some tri ∧
      (∃ j, j < 4 - 1 ∧ ∀ v, tri.has v → v % 4 = j ∨ v % 4 = j + 1) ∧
      ¬ (∃ u v, tri.has u ∧ tri.has v ∧ u % 4 = 4 - 1 ∧ v % 4 = 0))) :=
  ⟨⟨by decide, by decide, by decide⟩,
   sphere_theta_wraps_phi_does_not sampleVectors 3 4 (by decide) (by decide) (by decide)⟩

/-- C5 fails as stated: in `CreateSphere(3, 16777216)` the first triangle of
the quad at theta-index 2 and phi-index 5 is `(5, 33554440, 33554436)`; its
phi-indices are 5, 8 and 4, which lie in no set `{j, j+1}`. -/
theorem sphere_phi_indices_scattered :
    3 ≤ 3 ∧ 3 ≤ 16777216 ∧ 2 * ((3 - 1) * (16777216 - 1) + 5) < 2 * 3 * (16777216 - 1) ∧
    (sphereData sampleVectors 3 16777216).triangle (2 * ((3 - 1) * (16777216 - 1) + 5)) =
      some ⟨5, 33554440, 33554436⟩ ∧
    ¬ (∃ j, j < 16777216 - 1 ∧
        ∀ v, vec3.has ⟨5, 33554440, 33554436⟩ v → v % 16777216 = j ∨ v % 16777216 = j + 1) ∧
    ¬ (∃ tri, (sphereData sampleVectors 3 16777216).triangle
        (2 * ((3 - 1) * (16777216 - 1) + 5)) = some tri ∧
        ∃ j, j < 16777216 - 1 ∧
          ∀ v, tri.has v → v % 16777216 = j ∨ v % 16777216 = j + 1) := by
  have htri : (sphereData sampleVectors 3 16777216).triangle
      (2 * ((3 - 1) * (16777216 - 1) + 5)) = some ⟨5, 33554440, 33554436⟩ := by
    rw [(triangle_of_quadStores (sphereData sampleVectors 3 16777216) 3 (16777216 - 1) _ _
      (sphere_face_eq _ _ _) 2 5 (by decide) (by decide)).1]
    decide
  have hnot : ¬ (∃ j, j < 16777216 - 1 ∧
      ∀ v, vec3.has ⟨5, 33554440, 33554436⟩ v →
        v % 16777216 = j ∨ v % 16777216 = j + 1) := by
    rintro ⟨j, -, h⟩
    have a := h 5 (Or.inl rfl)
    have b := h 33554440 (Or.inr (Or.inl rfl))
    omega
  refine ⟨by decide, by decide, by decide, htri, hnot, ?_⟩
  rintro ⟨tri, htri2, hj⟩
  rw [htri] at htri2
  cases htri2
  exact hnot hj

/-! ## C6 -/

/-- C6, the code at the failing input `v_gridWidth = 2`, `v_gridLength = 3`:
the grid points `(0,2)` and `(1,0)` are stored under the same vertex number 2,
the height attribute of that vertex ends up as `heightMap[3]` (the height of
`(1,0)`) instead of `heightMap[2]`, and vertex number 5 of the six allocated
vertices is never stored to. With `v_gridWidth = 3`, `v_gridLength = 2` the grid
point `(2,1)` is stored under vertex number 7 although six vertices are
allocated. -/
theorem crater_vertex_slots_collide {A : Type} (ops : FloatOps A) (heightMap : Nat → A)
    (gw gh : A) :
    crater_slot 2 0 2 = crater_slot 2 1 0 ∧
    memoryOf (craterData ops heightMap gw gh 2 3).vertex (crater_slot 2 0 2 * 11 + 1) =
      some (heightMap 3) ∧
    memoryOf (craterData ops heightMap gw gh 2 3).vertex (5 * 11 + 1) = none ∧
    (craterData ops heightMap gw gh 2 3).vertex_len = 6 * 11 ∧
    (craterData ops heightMap gw gh 3 2).vertex_len = 6 * 11 ∧
    crater_slot 3 2 1 = 7 ∧
    (7 * 11 + 1, heightMap 5) ∈ (craterData ops heightMap gw gh 3 2).vertex := by
  refine ⟨rfl, rfl, rfl, rfl, rfl, rfl, ?_⟩
  simp [craterData, addVectors, crater_slot, crater_vectors, vertex_att, vec3.get,
    List.range_succ_eq_map, List.flatMap]

/-! ## C7 -/

theorem ok_bind {α β : Type} (a : α) (f : α → Except Abort β) :
    (Except.ok a >>= f) = f a := rfl

theorem error_bind {α β : Type} (e : Abort) (f : α → Except Abort β) :
    (Except.error e >>= f) = Except.error e := rfl

theorem pure_eq_ok {α : Type} (a : α) : (pure a : Except Abort α) = Except.ok a := rfl

theorem subscript_three {α : Type} (x y z : α) :
    subscript [x, y, z] 0 = .ok x ∧ subscript [x, y, z] 1 = .ok y ∧
    subscript [x, y, z] 2 = .ok z :=
  ⟨rfl, rfl, rfl⟩

theorem update_three {α : Type} (g : α → α) (x y z : α) :
    update [x, y, z] 0 g = .ok [g x, y, z] ∧ update [x, y, z] 1 g = .ok [x, g y, z] ∧
    update [x, y, z] 2 g = .ok [x, y, g z] :=
  ⟨rfl, rfl, rfl⟩

theorem split_single_triangle_lines :
    string_split "v 0 0 0".toList part_separator = [['v'], ['0'], ['0'], ['0']] ∧
    string_split "v 1 0 0".toList part_separator = [['v'], ['1'], ['0'], ['0']] ∧
    string_split "v 0 1 0".toList part_separator = [['v'], ['0'], ['1'], ['0']] ∧
    string_split "f 1 2 3".toList part_separator = [['f'], ['1'], ['2'], ['3']] ∧
    string_split_once ['1'] face_separator = [['1']] ∧
    string_split_once ['2'] face_separator = [['2']] ∧
    string_split_once ['3'] face_separator = [['3']] := by
  decide

/-- The face `f 1 2 3`. -/
theorem single_triangle_parse (lib : FloatLib)
    (h0 : lib.read_float ['0'] = some 0) (h1 : lib.read_float ['1'] = some 1)
    (h2 : lib.read_float ['2'] = some 2) (h3 : lib.read_float ['3'] = some 3)
    (f0 : lib.fl 0 = 0) (f1 : lib.fl 1 = 1) (f2 : lib.fl 2 = 2) :
    parse_lines lib initial_state single_triangle_lines =
      .ok { mesh := { position := [⟨0, 0, 0⟩, ⟨1, 0, 0⟩, ⟨0, 1, 0⟩], normal := [],
                      tex_coord := [],
                      face := [{ i := ⟨0, 1, 2⟩, n := ⟨-1, -1, -1⟩, t := ⟨-1, -1, -1⟩ }] },
            added_normal := false } := by
  obtain ⟨s1, s2, s3, s4, o1, o2, o3⟩ := split_single_triangle_lines
  have t0 : float_to_int 0 = 0 := by decide
  have t1 : float_to_int 1 = 1 := by decide
  have t2 : float_to_int 2 = 2 := by decide
  have e11 : lib.fl (1 - 1) = 0 := by norm_num [f0]
  have e21 : lib.fl (2 - 1) = 1 := by norm_num [f1]
  have e32 : lib.fl (3 - 1) = 2 := by norm_num [f2]
  have c1 : decode_corner lib face_corner_what ['1'] = .ok { i := 0, t := -1, n := -1 } := by
    simp [decode_corner, o1, index_of, str_to_num, h1, ok_bind, pure_eq_ok, f0, t0]
  have c2 : decode_corner lib face_corner_what ['2'] = .ok { i := 1, t := -1, n := -1 } := by
    simp [decode_corner, o2, index_of, str_to_num, h2, ok_bind, pure_eq_ok, e21, t1]
  have c3 : decode_corner lib face_corner_what ['3'] = .ok { i := 2, t := -1, n := -1 } := by
    simp [decode_corner, o3, index_of, str_to_num, h3, ok_bind, pure_eq_ok, e32, t2]
  simp only [single_triangle_lines, initial_state, parse_lines, parse_line, s1, s2, s3, s4]
  simp [str_to_num, h0, h1, ok_bind, pure_eq_ok, c1, c2, c3, Face.ofCorners]

/-- The synthesized normals of the single triangle. -/
theorem single_triangle_normals (lib : FloatLib)
    (f0 : lib.fl 0 = 0) (f1 : lib.fl 1 = 1) (fm1 : lib.fl (-1) = -1)
    (hsq : lib.inversesqrt 1 = 1) :
    compute_normals lib
        { mesh := { position := [⟨0, 0, 0⟩, ⟨1, 0, 0⟩, ⟨0, 1, 0⟩], normal := [],
                    tex_coord := [],
                    face := [{ i := ⟨0, 1, 2⟩, n := ⟨-1, -1, -1⟩, t := ⟨-1, -1, -1⟩ }] },
          added_normal := false } [1, 1, 1] =
      .ok { position := [⟨0, 0, 0⟩, ⟨1, 0, 0⟩, ⟨0, 1, 0⟩],
            normal := [⟨0, 0, 1⟩, ⟨0, 0, 1⟩, ⟨0, 0, 1⟩], tex_coord := [],
            face := [{ i := ⟨0, 1, 2⟩, n := ⟨-1, -1, -1⟩, t := ⟨-1, -1, -1⟩ }] } := by
  have e01 : lib.fl (0 - 1) = -1 := by norm_num [fm1]
  have hn : normalize lib (cross lib (vec3_sub lib ⟨0, 0, 0⟩ ⟨1, 0, 0⟩)
      (vec3_sub lib ⟨0, 0, 0⟩ ⟨0, 1, 0⟩)) = ⟨0, 0, 1⟩ := by
    simp [vec3_sub, cross, dot, normalize, f0, f1, fm1, e01, hsq]
  have ha : vec3_add lib ⟨0, 0, 0⟩ ⟨0, 0, 1⟩ = ⟨0, 0, 1⟩ := by
    simp [vec3_add, f0, f1]
  have hd : vec3_div lib ⟨0, 0, 1⟩ 1 = ⟨0, 0, 1⟩ := by
    simp [vec3_div, f0, f1]
  have hface : add_face_normal lib [⟨0, 0, 0⟩, ⟨1, 0, 0⟩, ⟨0, 1, 0⟩]
      [⟨0, 0, 0⟩, ⟨0, 0, 0⟩, ⟨0, 0, 0⟩]
      { i := ⟨0, 1, 2⟩, n := ⟨-1, -1, -1⟩, t := ⟨-1, -1, -1⟩ } =
      .ok [⟨0, 0, 1⟩, ⟨0, 0, 1⟩, ⟨0, 0, 1⟩] := by
    unfold add_face_normal
    simp only [vec3.get, subscript_three, update_three, ok_bind, hn, ha]
  have havg : average_normals lib [⟨0, 0, 1⟩, ⟨0, 0, 1⟩, ⟨0, 0, 1⟩] [1, 1, 1] =
      .ok [⟨0, 0, 1⟩, ⟨0, 0, 1⟩, ⟨0, 0, 1⟩] := by
    have r3 : List.range 3 = [0, 1, 2] := rfl
    unfold average_normals
    simp only [List.length_cons, List.length_nil, Nat.zero_add, Nat.reduceAdd, r3,
      List.foldlM_cons, List.foldlM_nil, Nat.cast_ofNat, Nat.cast_zero, Nat.cast_one,
      subscript_three, update_three, ok_bind, pure_eq_ok, gt_iff_lt, Nat.lt_one_iff,
      Nat.zero_lt_one, if_true, hd]
  have hrep : List.replicate 3 (⟨0, 0, 0⟩ : vec3 ℚ) = [⟨0, 0, 0⟩, ⟨0, 0, 0⟩, ⟨0, 0, 0⟩] := rfl
  unfold compute_normals
  simp only [Bool.not_false, if_true, List.length_cons, List.length_nil, Nat.zero_add,
    Nat.reduceAdd, hrep, List.foldlM_cons, List.foldlM_nil, hface, havg, ok_bind, pure_eq_ok]

/-- The vertex and index buffer of the single triangle. -/
theorem single_triangle_buffers :
    materialize
        { position := [⟨0, 0, 0⟩, ⟨1, 0, 0⟩, ⟨0, 1, 0⟩],
          normal := [⟨0, 0, 1⟩, ⟨0, 0, 1⟩, ⟨0, 0, 1⟩], tex_coord := [],
          face := [{ i := ⟨0, 1, 2⟩, n := ⟨-1, -1, -1⟩, t := ⟨-1, -1, -1⟩ }] } false
        [{ i := ⟨0, 1, 2⟩, n := ⟨-1, -1, -1⟩, t := ⟨-1, -1, -1⟩ }] 0 =
      .ok ([0, 0, 0, 0, 0, 1, 0, 0, 0, 0, 0,
            1, 0, 0, 0, 0, 1, 0, 0, 0, 0, 0,
            0, 1, 0, 0, 0, 1, 0, 0, 0, 0, 0], [0, 1, 2]) := by
  simp [materialize, face_attributes, corner_attributes, face_indices, vec3.get,
    subscript_three, ok_bind, pure_eq_ok]

/-- C7: parsing the lines `v 0 0 0`, `v 1 0 0`, `v 0 1 0`, `f 1 2 3` succeeds
whenever the stream extraction reads the numerals 0 to 3, rounding is exact on
integers up to `2^24` and `inversesqrt(1) = 1`. The mesh has exactly one face
with position indices `(0,1,2)` and no other indices, the synthesized normal of
each of the three positions is `(0,0,1)`, the vertex buffer holds exactly 3
vertices of 11 attributes, the index buffer is `0,1,2`, and a Mesh resource of
size 3 is registered. -/
theorem single_triangle_model (lib : FloatLib) (resource_ : Registry) (vbo ebo : Nat)
    (name filename : String)
    (h0 : lib.read_float ['0'] = some 0) (h1 : lib.read_float ['1'] = some 1)
    (h2 : lib.read_float ['2'] = some 2) (h3 : lib.read_float ['3'] = some 3)
    (hfl : ∀ n : Int, |n| ≤ 2 ^ 24 → lib.fl (n : ℚ) = (n : ℚ))
    (hsq : lib.inversesqrt 1 = 1) :
    ∃ r, LoadMesh lib resource_ vbo ebo name filename (some single_triangle_lines) = .ok r ∧
      r.mesh.position = [⟨0, 0, 0⟩, ⟨1, 0, 0⟩, ⟨0, 1, 0⟩] ∧
      r.mesh.face = [{ i := ⟨0, 1, 2⟩, n := ⟨-1, -1, -1⟩, t := ⟨-1, -1, -1⟩ }] ∧
      r.mesh.normal = [⟨0, 0, 1⟩, ⟨0, 0, 1⟩, ⟨0, 0, 1⟩] ∧
      r.vbo_data.length = 3 * 11 ∧
      r.vbo_data = [0, 0, 0, 0, 0, 1, 0, 0, 0, 0, 0,
                    1, 0, 0, 0, 0, 1, 0, 0, 0, 0, 0,
                    0, 1, 0, 0, 0, 1, 0, 0, 0, 0, 0] ∧
      r.ebo_data = [0, 1, 2] ∧
      registersMesh resource_ r.registry name vbo ebo 3 := by
  have f0 : lib.fl 0 = 0 := by simpa using hfl 0 (by norm_num)
  have f1 : lib.fl 1 = 1 := by simpa using hfl 1 (by norm_num)
  have f2 : lib.fl 2 = 2 := by simpa using hfl 2 (by norm_num)
  have fm1 : lib.fl (-1) = -1 := by simpa using hfl (-1) (by norm_num)
  have p2 : check_faces
      { position := [⟨0, 0, 0⟩, ⟨1, 0, 0⟩, ⟨0, 1, 0⟩], normal := [], tex_coord := [],
        face := [{ i := ⟨0, 1, 2⟩, n := ⟨-1, -1, -1⟩, t := ⟨-1, -1, -1⟩ }] } = .ok () := rfl
  have p3 : compute_degree
      { position := [⟨0, 0, 0⟩, ⟨1, 0, 0⟩, ⟨0, 1, 0⟩], normal := [], tex_coord := [],
        face := [{ i := ⟨0, 1, 2⟩, n := ⟨-1, -1, -1⟩, t := ⟨-1, -1, -1⟩ }] } =
      .ok [1, 1, 1] := rfl
  refine ⟨{ mesh := { position := [⟨0, 0, 0⟩, ⟨1, 0, 0⟩, ⟨0, 1, 0⟩],
                      normal := [⟨0, 0, 1⟩, ⟨0, 0, 1⟩, ⟨0, 0, 1⟩],
                      tex_coord := [],
                      face := [{ i := ⟨0, 1, 2⟩, n := ⟨-1, -1, -1⟩, t := ⟨-1, -1, -1⟩ }] },
            added_normal := false,
            degree := [1, 1, 1],
            vbo_data := [0, 0, 0, 0, 0, 1, 0, 0, 0, 0, 0,
                         1, 0, 0, 0, 0, 1, 0, 0, 0, 0, 0,
                         0, 1, 0, 0, 0, 1, 0, 0, 0, 0, 0],
            ebo_data := [0, 1, 2],
            registry := AddResource2 resource_ ResourceType.Mesh name vbo ebo 3 },
    ?_, rfl, rfl, rfl, rfl, rfl, rfl, rfl⟩
  unfold LoadMesh
  simp only [single_triangle_parse lib h0 h1 h2 h3 f0 f1 f2, ok_bind, p2, p3,
    single_triangle_normals lib f0 f1 fm1 hsq, single_triangle_buffers, pure_eq_ok,
    List.length_cons, List.length_nil, face_att]

/-- Witness of C7: the example instance of the floating-point facilities. -/
theorem single_triangle_model_witness :
    (exampleLib.read_float ['0'] = some 0 ∧ exampleLib.read_float ['1'] = some 1 ∧
     exampleLib.read_float ['2'] = some 2 ∧ exampleLib.read_float ['3'] = some 3 ∧
     (∀ n : Int, |n| ≤ 2 ^ 24 → exampleLib.fl (n : ℚ) = (n : ℚ)) ∧
     exampleLib.inversesqrt 1 = 1) ∧
    ∃ r, LoadMesh exampleLib [] 1 2 "triangle" "triangle.obj" (some single_triangle_lines) =
        .ok r ∧
      r.mesh.position = [⟨0, 0, 0⟩, ⟨1, 0, 0⟩, ⟨0, 1, 0⟩] ∧
      r.mesh.face = [{ i := ⟨0, 1, 2⟩, n := ⟨-1, -1, -1⟩, t := ⟨-1, -1, -1⟩ }] ∧
      r.mesh.normal = [⟨0, 0, 1⟩, ⟨0, 0, 1⟩, ⟨0, 0, 1⟩] ∧
      r.vbo_data.length = 3 * 11 ∧
      r.vbo_data = [0, 0, 0, 0, 0, 1, 0, 0, 0, 0, 0,
                    1, 0, 0, 0, 0, 1, 0, 0, 0, 0, 0,
                    0, 1, 0, 0, 0, 1, 0, 0, 0, 0, 0] ∧
      r.ebo_data = [0, 1, 2] ∧
      registersMesh [] r.registry "triangle" 1 2 3 :=
  ⟨⟨by decide, by decide, by decide, by decide, fun _ _ => rfl,
    by simp [exampleLib, show Rat.sqrt 1 = 1 by decide]⟩,
   single_triangle_model exampleLib [] 1 2 "triangle" "triangle.obj"
     (by decide) (by decide) (by decide) (by decide) (fun _ _ => rfl)
     (by simp [exampleLib, show Rat.sqrt 1 = 1 by decide])⟩

/-! ## C8 -/

/-- The first token keeps its first character while the rest of the line is split. -/
theorem string_split_loop_head (sep : List Char) (c : Char) (rest : List Char) :
    ∀ (skipping : Bool) (tok : List Char) (more : List (List Char)),
      ∃ tok1 more1, string_split_loop sep rest skipping ((c :: tok) :: more) =
        (c :: tok1) :: more1 := by
  induction rest with
  | nil => intro skipping tok more; exact ⟨tok, more, rfl⟩
  | cons d rest ih =>
    intro skipping tok more
    simp only [string_split_loop]
    split
    · split
      · exact ih true tok more
      · exact ih true tok (more ++ [[]])
    · cases more with
      | nil => exact ih false (tok ++ [d]) []
      | cons m ms =>
        have : append_to_last ((c :: tok) :: m :: ms) d =
            (c :: tok) :: append_to_last (m :: ms) d := by
          simp [append_to_last, List.dropLast_cons₂, List.getLastD_cons]
        rw [this]
        exact ih false tok _

/-- A line whose first token is `f` is neither empty nor a comment. -/
theorem line_of_first_token (line : List Char) (more : List (List Char))
    (h : string_split line part_separator = ['f'] :: more) :
    ¬ (line.length ≤ 0 ∨ line.head? = some '#') := by
  cases line with
  | nil => simp [string_split, string_split_loop] at h
  | cons c cs =>
    rintro (hlen | hhead)
    · simp at hlen
    · simp only [List.head?_cons, Option.some.injEq] at hhead
      subst hhead
      have hsep : is_separator part_separator '#' = false := by decide
      simp only [string_split, string_split_loop, hsep] at h
      have happ : append_to_last [[]] '#' = [['#']] := by decide
      rw [happ] at h
      obtain ⟨tok1, more1, h1⟩ := string_split_loop_head part_separator '#' cs false [] []
      rw [h1] at h
      simp at h

/-- Whether a corner descriptor decodes does not depend on the message the
branch would throw. -/
theorem decode_corner_what (lib : FloatLib) (what1 what2 : String) (d : List Char) (c : Corner)
    (h : decode_corner lib what1 d = .ok c) : decode_corner lib what2 d = .ok c := by
  unfold decode_corner at h ⊢
  by_cases h1 : (string_split_once d face_separator).length = 1
  · simp only [h1, if_true] at h ⊢; exact h
  · by_cases h2 : (string_split_once d face_separator).length = 2
    · simp only [h1, h2, if_true, if_false] at h ⊢; exact h
    · by_cases h3 : (string_split_once d face_separator).length = 3
      · simp only [h1, h2, h3, if_true, if_false] at h ⊢; exact h
      · simp only [h1, h2, h3, if_false] at h
        cases h

/-- C8: an `f` record with exactly four corner descriptors that decode to the
corners `c0 c1 c2 c3` appends exactly the two faces `(c0,c1,c2)` and
`(c0,c2,c3)`, in this order, each corner with its own position, texture
coordinate and normal index; an `f` record with exactly three corner
descriptors appends exactly the face `(c0,c1,c2)`. Nothing else of the mesh
changes. -/
theorem face_record_appends (lib : FloatLib) (st : ParseState) (line : List Char)
    (what : String) (d0 d1 d2 d3 : List Char) (c0 c1 c2 c3 : Corner)
    (h0 : decode_corner lib what d0 = .ok c0) (h1 : decode_corner lib what d1 = .ok c1)
    (h2 : decode_corner lib what d2 = .ok c2) (h3 : decode_corner lib what d3 = .ok c3) :
    (string_split line part_separator = [['f'], d0, d1, d2, d3] →
      parse_line lib st line = .ok
        { mesh := { position := st.mesh.position, normal := st.mesh.normal,
                    tex_coord := st.mesh.tex_coord,
                    face := st.mesh.face ++
                      [{ i := ⟨c0.i, c1.i, c2.i⟩, n := ⟨c0.n, c1.n, c2.n⟩,
                         t := ⟨c0.t, c1.t, c2.t⟩ },
                       { i := ⟨c0.i, c2.i, c3.i⟩, n := ⟨c0.n, c2.n, c3.n⟩,
                         t := ⟨c0.t, c2.t, c3.t⟩ }] },
          added_normal := st.added_normal }) ∧
    (string_split line part_separator = [['f'], d0, d1, d2] →
      parse_line lib st line = .ok
        { mesh := { position := st.mesh.position, normal := st.mesh.normal,
                    tex_coord := st.mesh.tex_coord,
                    face := st.mesh.face ++
                      [{ i := ⟨c0.i, c1.i, c2.i⟩, n := ⟨c0.n, c1.n, c2.n⟩,
                         t := ⟨c0.t, c1.t, c2.t⟩ }] },
          added_normal := st.added_normal }) := by
  constructor
  · intro hs
    have hline := line_of_first_token line _ hs
    have q0 := decode_corner_what lib what quad_corner_what d0 c0 h0
    have q1 := decode_corner_what lib what quad_corner_what d1 c1 h1
    have q2 := decode_corner_what lib what quad_corner_what d2 c2 h2
    have q3 := decode_corner_what lib what quad_corner_what d3 c3 h3
    unfold parse_line
    simp only [hline, if_false, hs]
    simp [q0, q1, q2, q3, ok_bind, pure_eq_ok, Face.ofCorners]
  · intro hs
    have hline := line_of_first_token line _ hs
    have q0 := decode_corner_what lib what face_corner_what d0 c0 h0
    have q1 := decode_corner_what lib what face_corner_what d1 c1 h1
    have q2 := decode_corner_what lib what face_corner_what d2 c2 h2
    unfold parse_line
    simp only [hline, if_false, hs]
    simp [q0, q1, q2, ok_bind, pure_eq_ok, Face.ofCorners]

theorem float_to_int_natCast (n : Nat) : float_to_int (n : ℚ) = (n : Int) := by
  simp [float_to_int, Int.tdiv_one]

theorem exampleLib_index_of (s : List Char) (n : Nat)
    (h : read_decimal s = some ((n + 1 : Nat) : ℚ)) :
    index_of exampleLib s = .ok (n : Int) := by
  have e : ((n + 1 : Nat) : ℚ) - 1 = (n : ℚ) := by push_cast; ring
  simp only [index_of, str_to_num, exampleLib, h, ok_bind, pure_eq_ok, e, float_to_int_natCast]

/-- Witness of C8: the quad `f 1 2/1 3/1/1 4//2` and the triangle
`f 1 2/1 3/1/1`, read with the example instance into an empty mesh. -/
theorem face_record_appends_witness :
    (decode_corner exampleLib "" "1".toList = .ok { i := 0, t := -1, n := -1 } ∧
     decode_corner exampleLib "" "2/1".toList = .ok { i := 1, t := 0, n := -1 } ∧
     decode_corner exampleLib "" "3/1/1".toList = .ok { i := 2, t := 0, n := 0 } ∧
     decode_corner exampleLib "" "4//2".toList = .ok { i := 3, t := -1, n := 1 }) ∧
    (string_split "f 1 2/1 3/1/1 4//2".toList part_separator =
        [['f'], "1".toList, "2/1".toList, "3/1/1".toList, "4//2".toList] ∧
     parse_line exampleLib
        { mesh := { position := [], normal := [], tex_coord := [], face := [] },
          added_normal := false } "f 1 2/1 3/1/1 4//2".toList = .ok
        { mesh := { position := [], normal := [], tex_coord := [],
                    face := [{ i := ⟨0, 1, 2⟩, n := ⟨-1, -1, 0⟩, t := ⟨-1, 0, 0⟩ },
                             { i := ⟨0, 2, 3⟩, n := ⟨-1, 0, 1⟩, t := ⟨-1, 0, -1⟩ }] },
          added_normal := false }) ∧
    (string_split "f 1 2/1 3/1/1".toList part_separator =
        [['f'], "1".toList, "2/1".toList, "3/1/1".toList] ∧
     parse_line exampleLib
        { mesh := { position := [], normal := [], tex_coord := [], face := [] },
          added_normal := false } "f 1 2/1 3/1/1".toList = .ok
        { mesh := { position := [], normal := [], tex_coord := [],
                    face := [{ i := ⟨0, 1, 2⟩, n := ⟨-1, -1, 0⟩, t := ⟨-1, 0, 0⟩ }] },
          added_normal := false }) := by
  have r1 : read_decimal ['1'] = some ((0 + 1 : Nat) : ℚ) := by decide
  have r2 : read_decimal ['2'] = some ((1 + 1 : Nat) : ℚ) := by decide
  have r3 : read_decimal ['3'] = some ((2 + 1 : Nat) : ℚ) := by decide
  have r4 : read_decimal ['4'] = some ((3 + 1 : Nat) : ℚ) := by decide
  have i1 := exampleLib_index_of ['1'] 0 r1
  have i2 := exampleLib_index_of ['2'] 1 r2
  have i3 := exampleLib_index_of ['3'] 2 r3
  have i4 := exampleLib_index_of ['4'] 3 r4
  have o1 : string_split_once ['1'] face_separator = [['1']] := by decide
  have o2 : string_split_once ['2', '/', '1'] face_separator = [['2'], ['1']] := by decide
  have o3 : string_split_once ['3', '/', '1', '/', '1'] face_separator =
      [['3'], ['1'], ['1']] := by decide
  have o4 : string_split_once ['4', '/', '/', '2'] face_separator = [['4'], [], ['2']] := by
    decide
  have d1 : decode_corner exampleLib "" "1".toList = .ok { i := 0, t := -1, n := -1 } := by
    simp [decode_corner, o1, i1, ok_bind, pure_eq_ok]
  have d2 : decode_corner exampleLib "" "2/1".toList = .ok { i := 1, t := 0, n := -1 } := by
    simp [decode_corner, o2, i1, i2, ok_bind, pure_eq_ok]
  have d3 : decode_corner exampleLib "" "3/1/1".toList = .ok { i := 2, t := 0, n := 0 } := by
    simp [decode_corner, o3, i1, i3, ok_bind, pure_eq_ok]
  have d4 : decode_corner exampleLib "" "4//2".toList = .ok { i := 3, t := -1, n := 1 } := by
    simp [decode_corner, o4, i2, i4, ok_bind, pure_eq_ok]
  have s4 : string_split "f 1 2/1 3/1/1 4//2".toList part_separator =
      [['f'], "1".toList, "2/1".toList, "3/1/1".toList, "4//2".toList] := by decide
  have s3 : string_split "f 1 2/1 3/1/1".toList part_separator =
      [['f'], "1".toList, "2/1".toList, "3/1/1".toList] := by decide
  exact ⟨⟨d1, d2, d3, d4⟩,
    ⟨s4, (face_record_appends exampleLib _ "f 1 2/1 3/1/1 4//2".toList "" _ _ _ _ _ _ _ _
      d1 d2 d3 d4).1 s4⟩,
    ⟨s3, (face_record_appends exampleLib _ "f 1 2/1 3/1/1".toList "" _ _ _ _ _ _ _ _
      d1 d2 d3 d4).2 s3⟩⟩

/-! ## C9 -/

theorem index_exceeds_iff (index : Int) (size : Nat) :
    index_exceeds index size = true ↔ (index < 0 ∨ (size : Int) ≤ index) := by
  simp [index_exceeds]

theorem index_exceeds_false_iff (index : Int) (size : Nat) :
    index_exceeds index size = false ↔ (0 ≤ index ∧ index < (size : Int)) := by
  simp [index_exceeds]

theorem list_forM_nil {α : Type} (f : α → Except Abort Unit) :
    ([] : List α).forM f = .ok () := rfl

theorem list_forM_cons {α : Type} (f : α → Except Abort Unit) (a : α) (as : List α) :
    (a :: as).forM f = (f a >>= fun _ => as.forM f) := rfl

/-- The check of one face either passes, and then no index exceeds, or throws
for an exceeding index of the face. -/
theorem check_face_spec (n : Nat) (f : Face) :
    (check_face n f = .ok () ∧ ∀ j, j < 3 → index_exceeds (f.i.get j) n = false) ∨
    (∃ j, j < 3 ∧ index_exceeds (f.i.get j) n = true ∧
      check_face n f = .error (.failure (out_of_bounds_what (f.i.get j)))) := by
  have r3 : List.range 3 = [0, 1, 2] := rfl
  unfold check_face
  rw [r3]
  simp only [list_forM_cons, list_forM_nil]
  cases h0 : index_exceeds (f.i.get 0) n
  · cases h1 : index_exceeds (f.i.get 1) n
    · cases h2 : index_exceeds (f.i.get 2) n
      · left
        refine ⟨by simp [ok_bind, pure_eq_ok], ?_⟩
        intro j hj
        interval_cases j <;> assumption
      · right
        refine ⟨2, by decide, h2, ?_⟩
        simp [ok_bind, pure_eq_ok, error_bind, out_of_bounds_what]
    · right
      refine ⟨1, by decide, h1, ?_⟩
      simp [ok_bind, pure_eq_ok, error_bind, out_of_bounds_what]
  · right
    refine ⟨0, by decide, h0, ?_⟩
    simp [error_bind, out_of_bounds_what]

/-- The check of all faces either passes, and then no index exceeds, or throws
for an exceeding index of some face. -/
theorem check_faces_spec (n : Nat) (faces : List Face) :
    (faces.forM (fun f => check_face n f) = .ok () ∧
      ∀ f, f ∈ faces → ∀ j, j < 3 → index_exceeds (f.i.get j) n = false) ∨
    (∃ f, f ∈ faces ∧ ∃ j, j < 3 ∧ index_exceeds (f.i.get j) n = true ∧
      faces.forM (fun f => check_face n f) =
        .error (.failure (out_of_bounds_what (f.i.get j)))) := by
  induction faces with
  | nil => left; exact ⟨rfl, fun f hf => absurd hf (List.not_mem_nil f)⟩
  | cons g gs ih =>
    rw [list_forM_cons]
    rcases check_face_spec n g with ⟨hok, hall⟩ | ⟨j, hj, hex, herr⟩
    · rw [hok, ok_bind]
      rcases ih with ⟨hok2, hall2⟩ | ⟨f, hf, j, hj, hex, herr⟩
      · left
        refine ⟨hok2, ?_⟩
        intro f hf
        rcases List.mem_cons.1 hf with h | h
        · rw [h]; exact hall
        · exact hall2 f h
      · right
        exact ⟨f, List.mem_cons_of_mem _ hf, j, hj, hex, herr⟩
    · right
      refine ⟨g, List.mem_cons_self _ _, j, hj, hex, ?_⟩
      rw [herr, error_bind]

theorem subscript_ok {α : Type} (v : List α) (k : Int) (h0 : 0 ≤ k) (h1 : k < (v.length : Int)) :
    ∃ a, subscript v k = .ok a := by
  have hk : k.toNat < v.length := by omega
  unfold subscript
  rw [if_neg (by omega), List.get?_eq_get hk]
  exact ⟨_, rfl⟩

theorem update_ok {α : Type} (v : List α) (k : Int) (g : α → α) (h0 : 0 ≤ k)
    (h1 : k < (v.length : Int)) :
    ∃ v1, update v k g = .ok v1 ∧ v1.length = v.length := by
  obtain ⟨a, ha⟩ := subscript_ok v k h0 h1
  unfold update
  rw [ha, ok_bind]
  exact ⟨_, rfl, List.length_set _ _ _⟩

/-- A loop whose body keeps an invariant and never aborts runs to the end. -/
theorem foldlM_invariant {σ α : Type} (P : σ → Prop) (f : σ → α → Except Abort σ)
    (l : List α) (h : ∀ s a, a ∈ l → P s → ∃ s1, f s a = .ok s1 ∧ P s1) :
    ∀ init, P init → ∃ s1, l.foldlM f init = .ok s1 ∧ P s1 := by
  induction l with
  | nil => intro init hinit; exact ⟨init, rfl, hinit⟩
  | cons a l ih =>
    intro init hinit
    obtain ⟨s1, hs1, hp1⟩ := h init a (List.mem_cons_self _ _) hinit
    rw [List.foldlM_cons, hs1, ok_bind]
    exact ih (fun s b hb hs => h s b (List.mem_cons_of_mem _ hb) hs) s1 hp1

/-- After a passed check the degree computation subscripts in range only. -/
theorem compute_degree_ok (mesh : TriMesh)
    (hvalid : ∀ f, f ∈ mesh.face → ∀ j, j < 3 →
      0 ≤ f.i.get j ∧ f.i.get j < (mesh.position.length : Int)) :
    ∃ degree, compute_degree mesh = .ok degree ∧ degree.length = mesh.position.length := by
  unfold compute_degree
  apply foldlM_invariant (fun d : List Nat => d.length = mesh.position.length)
  · intro d f hf hd
    apply foldlM_invariant (fun d : List Nat => d.length = mesh.position.length)
    · intro d1 j hj hd1
      have hj3 : j < 3 := List.mem_range.1 hj
      obtain ⟨h0, h1⟩ := hvalid f hf j hj3
      obtain ⟨v1, hv1, hl⟩ := update_ok d1 (f.i.get j) (fun d => d + 1) h0 (by rw [hd1]; exact h1)
      exact ⟨v1, hv1, hl.trans hd1⟩
    · exact hd
  · simp

theorem add_face_normal_ok (lib : FloatLib) (position normal : List (vec3 ℚ)) (f : Face)
    (hlen : normal.length = position.length)
    (hvalid : ∀ j, j < 3 → 0 ≤ f.i.get j ∧ f.i.get j < (position.length : Int)) :
    ∃ normal1, add_face_normal lib position normal f = .ok normal1 ∧
      normal1.length = position.length := by
  obtain ⟨a0, b0⟩ := hvalid 0 (by decide)
  obtain ⟨a1, b1⟩ := hvalid 1 (by decide)
  obtain ⟨a2, b2⟩ := hvalid 2 (by decide)
  obtain ⟨p0, hp0⟩ := subscript_ok position (f.i.get 0) a0 b0
  obtain ⟨p1, hp1⟩ := subscript_ok position (f.i.get 1) a1 b1
  obtain ⟨p2, hp2⟩ := subscript_ok position (f.i.get 2) a2 b2
  unfold add_face_normal
  simp only [hp0, hp1, hp2, ok_bind]
  obtain ⟨n1, hn1, hl1⟩ := update_ok normal (f.i.get 0)
    (fun v => vec3_add lib v (normalize lib (cross lib (vec3_sub lib p0 p1)
      (vec3_sub lib p0 p2)))) a0 (by rw [hlen]; exact b0)
  rw [hn1, ok_bind]
  obtain ⟨n2, hn2, hl2⟩ := update_ok n1 (f.i.get 1)
    (fun v => vec3_add lib v (normalize lib (cross lib (vec3_sub lib p0 p1)
      (vec3_sub lib p0 p2)))) a1 (by rw [hl1, hlen]; exact b1)
  rw [hn2, ok_bind]
  obtain ⟨n3, hn3, hl3⟩ := update_ok n2 (f.i.get 2)
    (fun v => vec3_add lib v (normalize lib (cross lib (vec3_sub lib p0 p1)
      (vec3_sub lib p0 p2)))) a2 (by rw [hl2, hl1, hlen]; exact b2)
  exact ⟨n3, hn3, by rw [hl3, hl2, hl1, hlen]⟩

theorem average_normals_ok (lib : FloatLib) (normal : List (vec3 ℚ)) (degree : List Nat)
    (hlen : degree.length = normal.length) :
    ∃ normal1, average_normals lib normal degree = .ok normal1 ∧
      normal1.length = normal.length := by
  unfold average_normals
  apply foldlM_invariant (fun s : List (vec3 ℚ) => s.length = normal.length)
  · intro s i hi hs
    have hin : i < normal.length := List.mem_range.1 hi
    obtain ⟨d, hd⟩ := subscript_ok degree (i : Int) (by omega) (by rw [hlen]; exact_mod_cast hin)
    simp only [hd, ok_bind]
    by_cases hpos : d > 0
    · simp only [hpos, if_true]
      obtain ⟨v1, hv1, hl⟩ := update_ok s (i : Int) (fun v => vec3_div lib v d) (by omega)
        (by rw [hs]; exact_mod_cast hin)
      exact ⟨v1, hv1, hl.trans hs⟩
    · simp only [hpos, if_false]
      exact ⟨s, rfl, hs⟩
  · rfl

/-- After a passed check the normal computation subscripts in range only; it
leaves positions and faces as they are. -/
theorem compute_normals_ok (lib : FloatLib) (st : ParseState) (degree : List Nat)
    (hdeg : degree.length = st.mesh.position.length)
    (hvalid : ∀ f, f ∈ st.mesh.face → ∀ j, j < 3 →
      0 ≤ f.i.get j ∧ f.i.get j < (st.mesh.position.length : Int)) :
    ∃ mesh, compute_normals lib st degree = .ok mesh ∧
      mesh.position = st.mesh.position ∧ mesh.face = st.mesh.face ∧
      (st.added_normal = false → mesh.normal.length = st.mesh.position.length) := by
  unfold compute_normals
  cases hadd : st.added_normal
  · simp only [Bool.not_false, if_true]
    obtain ⟨n1, hn1, hl1⟩ := foldlM_invariant
      (fun s : List (vec3 ℚ) => s.length = st.mesh.position.length)
      (add_face_normal lib st.mesh.position) st.mesh.face
      (fun s f hf hs => add_face_normal_ok lib st.mesh.position s f hs (hvalid f hf))
      (List.replicate st.mesh.position.length ⟨0, 0, 0⟩) (by simp)
    rw [hn1, ok_bind]
    obtain ⟨n2, hn2, hl2⟩ := average_normals_ok lib n1 degree (by rw [hdeg, hl1])
    rw [hn2, ok_bind]
    exact ⟨_, rfl, rfl, rfl, fun _ => hl2.trans hl1⟩
  · simp only [Bool.not_true, Bool.false_eq_true, if_false]
    exact ⟨_, rfl, rfl, rfl, fun h => by cases h⟩

/-- The normal computation never changes positions or faces. -/
theorem compute_normals_frame (lib : FloatLib) (st : ParseState) (degree : List Nat)
    (mesh : TriMesh) (h : compute_normals lib st degree = .ok mesh) :
    mesh.position = st.mesh.position ∧ mesh.face = st.mesh.face := by
  unfold compute_normals at h
  cases hadd : st.added_normal
  · simp only [hadd, Bool.not_false, if_true] at h
    cases h1 : List.foldlM (add_face_normal lib st.mesh.position)
        (List.replicate st.mesh.position.length ⟨0, 0, 0⟩) st.mesh.face with
    | error e => rw [h1, error_bind] at h; cases h
    | ok n1 =>
      rw [h1, ok_bind] at h
      cases h2 : average_normals lib n1 degree with
      | error e => rw [h2, error_bind] at h; cases h
      | ok n2 =>
        rw [h2, ok_bind] at h
        cases h
        exact ⟨rfl, rfl⟩
  · simp only [hadd, Bool.not_true, Bool.false_eq_true, if_false] at h
    cases h
    exact ⟨rfl, rfl⟩

/-- C9: let the face records hold `int` values, as they do in the source (the
conversion of an index token to `int` is defined only inside the `int` range).
Once the whole file is read, a face corner whose position index is at or above
the number of positions makes `LoadMesh` fail with the format error
`Error: index for triangle <index> is out of bounds`, where `<index>` is the
decimal numeral of an offending position index of some face, wherever the `v`
records stand relative to the `f` records. Conversely, when `LoadMesh` succeeds
every position index of every face is in range, and after a passed check the
degree and normal computations subscript in range only. -/
theorem position_indices_validated (lib : FloatLib) (resource_ : Registry) (vbo ebo : Nat)
    (name filename : String) (lines : List (List Char)) (st : ParseState)
    (hparse : parse_lines lib initial_state lines = .ok st)
    (hint : ∀ f, f ∈ st.mesh.face → ∀ j, j < 3 →
      is_int (f.i.get j) ∧ is_int (f.t.get j) ∧ is_int (f.n.get j)) :
    ((∃ f, f ∈ st.mesh.face ∧ ∃ j, j < 3 ∧ (st.mesh.position.length : Int) ≤ f.i.get j) →
      ∃ bad, (∃ f, f ∈ st.mesh.face ∧ ∃ j, j < 3 ∧ f.i.get j = bad) ∧
        (bad < 0 ∨ (st.mesh.position.length : Int) ≤ bad) ∧ is_int bad ∧
        LoadMesh lib resource_ vbo ebo name filename (some lines) =
          .error (.failure
            ("Error: index for triangle " ++ toString bad ++ " is out of bounds"))) ∧
    (∀ r, LoadMesh lib resource_ vbo ebo name filename (some lines) = .ok r →
      r.mesh.position = st.mesh.position ∧ r.mesh.face = st.mesh.face ∧
      ∀ f, f ∈ r.mesh.face → ∀ j, j < 3 →
        0 ≤ f.i.get j ∧ f.i.get j < (r.mesh.position.length : Int)) ∧
    (check_faces st.mesh = .ok () →
      ∃ degree mesh, compute_degree st.mesh = .ok degree ∧
        degree.length = st.mesh.position.length ∧
        compute_normals lib st degree = .ok mesh ∧
        (st.added_normal = false → mesh.normal.length = mesh.position.length)) := by
  have hspec := check_faces_spec st.mesh.position.length st.mesh.face
  have hload : LoadMesh lib resource_ vbo ebo name filename (some lines) =
      (check_faces st.mesh >>= fun _ => do
        let degree ← compute_degree st.mesh
        let mesh ← compute_normals lib st degree
        let (vbo_data, ebo_data) ← materialize mesh st.added_normal mesh.face 0
        pure { mesh := mesh, added_normal := st.added_normal, degree := degree,
               vbo_data := vbo_data, ebo_data := ebo_data,
               registry := AddResource2 resource_ ResourceType.Mesh name vbo ebo
                 (mesh.face.length * face_att) }) := by
    unfold LoadMesh
    simp only [hparse, ok_bind]
  refine ⟨?_, ?_, ?_⟩
  · rintro ⟨f, hf, j, hj, hbad⟩
    rcases hspec with ⟨-, hall⟩ | ⟨g, hg, k, hk, hex, herr⟩
    · have := (index_exceeds_false_iff _ _).1 (hall f hf j hj)
      omega
    · refine ⟨g.i.get k, ⟨g, hg, k, hk, rfl⟩, (index_exceeds_iff _ _).1 hex,
        (hint g hg k hk).1, ?_⟩
      rw [hload]
      unfold check_faces
      rw [herr, error_bind]
      rfl
  · intro r hr
    rw [hload] at hr
    rcases hspec with ⟨hok, hall⟩ | ⟨g, hg, k, hk, hex, herr⟩
    · have hck : check_faces st.mesh = .ok () := hok
      rw [hck, ok_bind] at hr
      cases hdeg : compute_degree st.mesh with
      | error e => rw [hdeg, error_bind] at hr; cases hr
      | ok degree =>
        rw [hdeg, ok_bind] at hr
        cases hnorm : compute_normals lib st degree with
        | error e => rw [hnorm, error_bind] at hr; cases hr
        | ok mesh =>
          rw [hnorm, ok_bind] at hr
          obtain ⟨hpos, hface⟩ := compute_normals_frame lib st degree mesh hnorm
          cases hmat : materialize mesh st.added_normal mesh.face 0 with
          | error e => rw [hmat, error_bind] at hr; cases hr
          | ok bufs =>
            rw [hmat, ok_bind] at hr
            cases hr
            refine ⟨hpos, hface, ?_⟩
            intro f hf j hj
            rw [hface] at hf
            rw [hpos]
            exact (index_exceeds_false_iff _ _).1 (hall f hf j hj)
    · have hck : check_faces st.mesh = .error (.failure (out_of_bounds_what (g.i.get k))) :=
        herr
      rw [hck, error_bind] at hr
      cases hr
  · intro hck
    rcases hspec with ⟨-, hall⟩ | ⟨g, hg, k, hk, hex, herr⟩
    · have hvalid : ∀ f, f ∈ st.mesh.face → ∀ j, j < 3 →
          0 ≤ f.i.get j ∧ f.i.get j < (st.mesh.position.length : Int) :=
        fun f hf j hj => (index_exceeds_false_iff _ _).1 (hall f hf j hj)
      obtain ⟨degree, hdeg, hdl⟩ := compute_degree_ok st.mesh hvalid
      obtain ⟨mesh, hmesh, hpos, -, hnl⟩ := compute_normals_ok lib st degree hdl hvalid
      exact ⟨degree, mesh, hdeg, hdl, hmesh, fun h => by rw [hpos]; exact hnl h⟩
    · have hck2 : check_faces st.mesh = .error (.failure (out_of_bounds_what (g.i.get k))) :=
        herr
      rw [hck2] at hck
      cases hck

theorem exampleLib_str_to_num (s : List Char) (q : ℚ) (h : read_decimal s = some q) :
    str_to_num exampleLib s = .ok q := by
  simp only [str_to_num, exampleLib, h]

theorem dangling_face_parse :
    parse_lines exampleLib initial_state dangling_face_lines =
      .ok { mesh := { position := [⟨0, 0, 0⟩, ⟨1, 0, 0⟩, ⟨0, 1, 0⟩], normal := [],
                      tex_coord := [],
                      face := [{ i := ⟨0, 1, 3⟩, n := ⟨-1, -1, -1⟩, t := ⟨-1, -1, -1⟩ }] },
            added_normal := false } := by
  have s0 : string_split "f 1 2 4".toList part_separator = [['f'], ['1'], ['2'], ['4']] := by
    decide
  obtain ⟨s1, s2, s3, -, o1, o2, -⟩ := split_single_triangle_lines
  have o4 : string_split_once ['4'] face_separator = [['4']] := by decide
  have n0 := exampleLib_str_to_num ['0'] 0 (by decide)
  have n1 := exampleLib_str_to_num ['1'] 1 (by decide)
  have i1 := exampleLib_index_of ['1'] 0 (by decide)
  have i2 := exampleLib_index_of ['2'] 1 (by decide)
  have i4 := exampleLib_index_of ['4'] 3 (by decide)
  have c1 : decode_corner exampleLib face_corner_what ['1'] =
      .ok { i := 0, t := -1, n := -1 } := by
    simp [decode_corner, o1, i1, ok_bind, pure_eq_ok]
  have c2 : decode_corner exampleLib face_corner_what ['2'] =
      .ok { i := 1, t := -1, n := -1 } := by
    simp [decode_corner, o2, i2, ok_bind, pure_eq_ok]
  have c4 : decode_corner exampleLib face_corner_what ['4'] =
      .ok { i := 3, t := -1, n := -1 } := by
    simp [decode_corner, o4, i4, ok_bind, pure_eq_ok]
  simp only [dangling_face_lines, initial_state, parse_lines, parse_line, s0, s1, s2, s3]
  simp [n0, n1, ok_bind, pure_eq_ok, c1, c2, c4, Face.ofCorners]

/-- Witness of C9: the face `f 1 2 4` ahead of three `v` records; `LoadMesh`
fails and the message names the offending index 3. -/
theorem position_indices_validated_witness :
    parse_lines exampleLib initial_state dangling_face_lines =
      .ok { mesh := { position := [⟨0, 0, 0⟩, ⟨1, 0, 0⟩, ⟨0, 1, 0⟩], normal := [],
                      tex_coord := [],
                      face := [{ i := ⟨0, 1, 3⟩, n := ⟨-1, -1, -1⟩, t := ⟨-1, -1, -1⟩ }] },
            added_normal := false } ∧
    LoadMesh exampleLib [] 1 2 "mesh" "mesh.obj" (some dangling_face_lines) =
      .error (.failure "Error: index for triangle 3 is out of bounds") := by
  refine ⟨dangling_face_parse, ?_⟩
  obtain ⟨bad, ⟨f, hf, j, hj, hfj⟩, hbad, -, hload⟩ :=
    (position_indices_validated exampleLib [] 1 2 "mesh" "mesh.obj" dangling_face_lines _
      dangling_face_parse
      (by
        intro f hf j hj
        rw [List.mem_singleton.1 hf]
        interval_cases j <;> (unfold is_int; decide))).1
      ⟨_, List.mem_singleton.2 rfl, 2, by decide, by decide⟩
  have h3 : bad = 3 := by
    rw [List.mem_singleton.1 hf] at hfj
    have hb : bad < 0 ∨ (3 : Int) ≤ bad := hbad
    interval_cases j
    · have : (0 : Int) = bad := hfj
      omega
    · have : (1 : Int) = bad := hfj
      omega
    · exact hfj.symm
  rw [h3] at hload
  exact hload

/-! ## C10 -/

/-- C10, the code at the failing inputs `v 1 2 3 4` and `vt 0 0 0`: a fourth
parameter of a `v` record and a third parameter of a `vt` record are ignored.
The lines are treated exactly like `v 1 2 3` and `vt 0 0`, and with the example
instance the position `(1,2,3)` and the texture coordinate `(0,0)` are
appended. -/
theorem extra_parameters_accepted (lib : FloatLib) (st : ParseState) :
    parse_line lib st "v 1 2 3 4".toList = parse_line lib st "v 1 2 3".toList ∧
    parse_line lib st "vt 0 0 0".toList = parse_line lib st "vt 0 0".toList ∧
    parse_line exampleLib st "v 1 2 3 4".toList = .ok
      { mesh := { position := st.mesh.position ++ [⟨1, 2, 3⟩], normal := st.mesh.normal,
                  tex_coord := st.mesh.tex_coord, face := st.mesh.face },
        added_normal := st.added_normal } ∧
    parse_line exampleLib st "vt 0 0 0".toList = .ok
      { mesh := { position := st.mesh.position, normal := st.mesh.normal,
                  tex_coord := st.mesh.tex_coord ++ [⟨0, 0⟩], face := st.mesh.face },
        added_normal := st.added_normal } ∧
    ∃ r, LoadMesh exampleLib [] 1 2 "mesh" "mesh.obj" (some extra_parameter_lines) = .ok r ∧
      r.mesh.position = [⟨1, 2, 3⟩] ∧ r.mesh.tex_coord = [⟨0, 0⟩] := by
  have a4 : string_split "v 1 2 3 4".toList part_separator =
      [['v'], ['1'], ['2'], ['3'], ['4']] := by decide
  have a3 : string_split "v 1 2 3".toList part_separator = [['v'], ['1'], ['2'], ['3']] := by
    decide
  have b3 : string_split "vt 0 0 0".toList part_separator =
      [['v', 't'], ['0'], ['0'], ['0']] := by decide
  have b2 : string_split "vt 0 0".toList part_separator = [['v', 't'], ['0'], ['0']] := by
    decide
  have n0 := exampleLib_str_to_num ['0'] 0 (by decide)
  have n1 := exampleLib_str_to_num ['1'] 1 (by decide)
  have n2 := exampleLib_str_to_num ['2'] 2 (by decide)
  have n3 := exampleLib_str_to_num ['3'] 3 (by decide)
  have hv : ∀ st1 : ParseState, parse_line exampleLib st1 "v 1 2 3 4".toList = .ok
      { mesh := { position := st1.mesh.position ++ [⟨1, 2, 3⟩], normal := st1.mesh.normal,
                  tex_coord := st1.mesh.tex_coord, face := st1.mesh.face },
        added_normal := st1.added_normal } := by
    intro st1
    simp only [parse_line, a4]
    simp [n1, n2, n3, ok_bind, pure_eq_ok]
  have hvt : ∀ st1 : ParseState, parse_line exampleLib st1 "vt 0 0 0".toList = .ok
      { mesh := { position := st1.mesh.position, normal := st1.mesh.normal,
                  tex_coord := st1.mesh.tex_coord ++ [⟨0, 0⟩], face := st1.mesh.face },
        added_normal := st1.added_normal } := by
    intro st1
    simp only [parse_line, b3]
    simp [n0, ok_bind, pure_eq_ok]
  refine ⟨?_, ?_, hv st, hvt st, ?_⟩
  · simp only [parse_line, a4, a3]
    simp
  · simp only [parse_line, b3, b2]
    simp
  · have hp : parse_lines exampleLib initial_state extra_parameter_lines = .ok
        { mesh := { position := [⟨1, 2, 3⟩], normal := [], tex_coord := [⟨0, 0⟩],
                    face := [] },
          added_normal := false } := by
      simp only [extra_parameter_lines, parse_lines, hv, hvt, ok_bind]
      rfl
    have hc : check_faces
        { position := [⟨1, 2, 3⟩], normal := [], tex_coord := [⟨0, 0⟩], face := [] } =
        .ok () := rfl
    have hd : compute_degree
        { position := [⟨1, 2, 3⟩], normal := [], tex_coord := [⟨0, 0⟩], face := [] } =
        .ok [0] := rfl
    have hn : compute_normals exampleLib
        { mesh := { position := [⟨1, 2, 3⟩], normal := [], tex_coord := [⟨0, 0⟩],
                    face := [] },
          added_normal := false } [0] = .ok
        { position := [⟨1, 2, 3⟩], normal := [⟨0, 0, 0⟩], tex_coord := [⟨0, 0⟩],
          face := [] } := rfl
    have hm : materialize
        { position := [⟨1, 2, 3⟩], normal := [⟨0, 0, 0⟩], tex_coord := [⟨0, 0⟩],
          face := [] } false [] 0 = .ok ([], []) := rfl
    refine ⟨{ mesh := { position := [⟨1, 2, 3⟩], normal := [⟨0, 0, 0⟩],
                        tex_coord := [⟨0, 0⟩], face := [] },
              added_normal := false, degree := [0], vbo_data := [], ebo_data := [],
              registry := AddResource2 [] ResourceType.Mesh "mesh" 1 2 0 }, ?_, rfl, rfl⟩
    unfold LoadMesh
    simp only [hp, hc, hd, hn, hm, ok_bind, pure_eq_ok, List.length_nil, Nat.zero_mul]

/-! ## C20 -/

theorem GetResource_loop_spec (name : String) (l : List Resource) (i0 : Nat) :
    (∀ i, GetResource_loop name l i0 = some i ↔
      ∃ k r, i = i0 + k ∧ l.get? k = some r ∧ r.name = name ∧
        ∀ j r1, j < k → l.get? j = some r1 → r1.name ≠ name) ∧
    (GetResource_loop name l i0 = none ↔ ∀ r, r ∈ l → r.name ≠ name) := by
  induction l generalizing i0 with
  | nil =>
    refine ⟨fun i => ⟨fun h => (by cases h), ?_⟩,
      ⟨fun _ r hr => absurd hr (List.not_mem_nil r), fun _ => rfl⟩⟩
    rintro ⟨k, r, -, hk, -⟩
    simp at hk
  | cons a l ih =>
    by_cases ha : a.name = name
    · have hloop : GetResource_loop name (a :: l) i0 = some i0 := by
        simp [GetResource_loop, ha]
      refine ⟨fun i => ?_, ?_⟩
      · rw [hloop]
        constructor
        · intro h
          cases h
          exact ⟨0, a, rfl, rfl, ha, fun j r1 hj => absurd hj (Nat.not_lt_zero j)⟩
        · rintro ⟨k, r, hi, hk, hr, hmin⟩
          cases k with
          | zero => rw [hi]; rfl
          | succ k => exact absurd ha (hmin 0 a (Nat.succ_pos k) rfl)
      · rw [hloop]
        constructor
        · intro h; cases h
        · intro h; exact absurd ha (h a (List.mem_cons_self _ _))
    · have hloop : GetResource_loop name (a :: l) i0 = GetResource_loop name l (i0 + 1) := by
        simp [GetResource_loop, ha]
      obtain ⟨ih1, ih2⟩ := ih (i0 + 1)
      refine ⟨fun i => ?_, ?_⟩
      · rw [hloop, ih1]
        constructor
        · rintro ⟨k, r, hi, hk, hr, hmin⟩
          refine ⟨k + 1, r, by omega, hk, hr, ?_⟩
          intro j r1 hj hj1
          cases j with
          | zero => simp only [List.get?_cons_zero, Option.some.injEq] at hj1; rw [← hj1]; exact ha
          | succ j => exact hmin j r1 (by omega) hj1
        · rintro ⟨k, r, hi, hk, hr, hmin⟩
          cases k with
          | zero =>
            simp only [List.get?_cons_zero, Option.some.injEq] at hk
            rw [hk] at ha; exact absurd hr ha
          | succ k =>
            exact ⟨k, r, by omega, hk, hr, fun j r1 hj hj1 => hmin (j + 1) r1 (by omega) hj1⟩
      · rw [hloop, ih2]
        constructor
        · intro h r hr
          rcases List.mem_cons.1 hr with e | e
          · rw [e]; exact ha
          · exact h r e
        · intro h r hr
          exact h r (List.mem_cons_of_mem _ hr)

/-- C20: for every registry and every name, `GetResource(name)` returns the
entry at the smallest position whose name equals the query, returns absent
exactly when no entry has that name, in particular on the empty registry, and
leaves the registry as it is. -/
theorem GetResource_first_match (resource_ : Registry) (name : String) :
    (∀ r, (GetResource resource_ name).1 = some r ↔
      ∃ k, resource_.get? k = some r ∧ r.name = name ∧
        ∀ j r1, j < k → resource_.get? j = some r1 → r1.name ≠ name) ∧
    ((GetResource resource_ name).1 = none ↔ ∀ r, r ∈ resource_ → r.name ≠ name) ∧
    (GetResource [] name).1 = none ∧
    (GetResource resource_ name).2 = resource_ := by
  obtain ⟨h1, h2⟩ := GetResource_loop_spec name resource_ 0
  refine ⟨fun r => ?_, ?_, rfl, rfl⟩
  · constructor
    · intro h
      simp only [GetResource] at h
      cases hl : GetResource_loop name resource_ 0 with
      | none => rw [hl] at h; cases h
      | some i =>
        rw [hl] at h
        obtain ⟨k, r0, hi, hk, hr, hmin⟩ := (h1 i).1 hl
        have hik : i = k := by omega
        subst hik
        simp only [Option.some_bind] at h
        rw [hk] at h
        cases h
        exact ⟨i, hk, hr, hmin⟩
    · rintro ⟨k, hk, hr, hmin⟩
      have hl : GetResource_loop name resource_ 0 = some k :=
        (h1 k).2 ⟨k, r, by omega, hk, hr, hmin⟩
      simp only [GetResource, hl, Option.some_bind, hk]
  · constructor
    · intro h
      simp only [GetResource] at h
      cases hl : GetResource_loop name resource_ 0 with
      | none => exact h2.1 hl
      | some i =>
        rw [hl] at h
        obtain ⟨k, r0, hi, hk, -, -⟩ := (h1 i).1 hl
        have hik : i = k := by omega
        subst hik
        simp only [Option.some_bind, hk] at h
        cases h
    · intro h
      simp only [GetResource, h2.2 h, Option.none_bind]

/-! ## How one line is processed -/

theorem bind_ok_cases {α β : Type} {x : Except Abort α} {f : α → Except Abort β} {b : β}
    (h : (x >>= f) = .ok b) : ∃ a, x = .ok a ∧ f a = .ok b := by
  cases x with
  | error e => cases h
  | ok a => exact ⟨a, rfl, h⟩

theorem bind_error_cases {α β : Type} {x : Except Abort α} {f : α → Except Abort β} {e : Abort}
    (h : (x >>= f) = .error e) : x = .error e ∨ ∃ a, x = .ok a ∧ f a = .error e := by
  cases x with
  | error e1 => left; cases h; rfl
  | ok a => exact Or.inr ⟨a, rfl, h⟩

theorem str_to_num_error (lib : FloatLib) (s : List Char) (e : Abort)
    (h : str_to_num lib s = .error e) : ∃ what, e = .failure what := by
  unfold str_to_num at h
  cases hr : lib.read_float s with
  | none => rw [hr] at h; cases h; exact ⟨_, rfl⟩
  | some q => rw [hr] at h; cases h

theorem str_to_num_ok (lib : FloatLib) (s : List Char) (q : ℚ)
    (h : str_to_num lib s = .ok q) : lib.read_float s = some q := by
  unfold str_to_num at h
  cases hr : lib.read_float s with
  | none => rw [hr] at h; cases h
  | some q1 => rw [hr] at h; cases h; rfl

theorem index_of_error (lib : FloatLib) (s : List Char) (e : Abort)
    (h : index_of lib s = .error e) : ∃ what, e = .failure what := by
  unfold index_of at h
  rcases bind_error_cases h with h1 | ⟨a, -, h1⟩
  · exact str_to_num_error lib s e h1
  · cases h1

theorem decode_corner_error (lib : FloatLib) (what : String) (d : List Char) (e : Abort)
    (h : decode_corner lib what d = .error e) : ∃ what1, e = .failure what1 := by
  unfold decode_corner at h
  dsimp only at h
  split_ifs at h
  · rcases bind_error_cases h with h1 | ⟨a, -, h1⟩
    · exact index_of_error lib _ e h1
    · cases h1
  · rcases bind_error_cases h with h1 | ⟨a, -, h1⟩
    · exact index_of_error lib _ e h1
    · rcases bind_error_cases h1 with h2 | ⟨b, -, h2⟩
      · exact index_of_error lib _ e h2
      · cases h2
  · rcases bind_error_cases h with h1 | ⟨a, -, h1⟩
    · exact index_of_error lib _ e h1
    · rcases bind_error_cases h1 with h2 | ⟨b, -, h2⟩
      · exact index_of_error lib _ e h2
      · rcases bind_error_cases h2 with h3 | ⟨c, -, h3⟩
        · exact index_of_error lib _ e h3
        · cases h3
  · rcases bind_error_cases h with h1 | ⟨a, -, h1⟩
    · exact index_of_error lib _ e h1
    · rcases bind_error_cases h1 with h2 | ⟨b, -, h2⟩
      · cases h2
      · rcases bind_error_cases h2 with h3 | ⟨c, -, h3⟩
        · exact index_of_error lib _ e h3
        · cases h3
  · injection h with h
    exact ⟨_, h.symm⟩

theorem bind_failure {α β : Type} {x : Except Abort α} {f : α → Except Abort β} {e : Abort}
    (h : (x >>= f) = .error e) (hx : ∀ e1, x = .error e1 → ∃ w, e1 = Abort.failure w)
    (hf : ∀ a e1, f a = .error e1 → ∃ w, e1 = Abort.failure w) :
    ∃ w, e = Abort.failure w := by
  rcases bind_error_cases h with h1 | ⟨a, -, h1⟩
  · exact hx e h1
  · exact hf a e h1

theorem pure_not_error {α : Type} {a : α} {e : Abort}
    (h : (pure a : Except Abort α) = .error e) : ∃ w, e = Abort.failure w := by
  cases h

theorem error_failure {α : Type} {w : String} {e : Abort}
    (h : (Except.error (Abort.failure w) : Except Abort α) = .error e) :
    ∃ w1, e = Abort.failure w1 := by
  injection h with h
  exact ⟨_, h.symm⟩

/-- The line loop only ever throws `std::ios_base::failure`. -/
theorem parse_line_error (lib : FloatLib) (st : ParseState) (line : List Char) (e : Abort)
    (h : parse_line lib st line = .error e) : ∃ what, e = .failure what := by
  unfold parse_line at h
  dsimp only at h
  split_ifs at h
  all_goals first
    | (cases h; done)
    | exact error_failure h
    | exact bind_failure h (str_to_num_error lib _) (fun _ _ h1 =>
        bind_failure h1 (str_to_num_error lib _) (fun _ _ h2 =>
          bind_failure h2 (str_to_num_error lib _) (fun _ _ h3 => pure_not_error h3)))
    | exact bind_failure h (str_to_num_error lib _) (fun _ _ h1 =>
        bind_failure h1 (str_to_num_error lib _) (fun _ _ h2 => pure_not_error h2))
    | exact bind_failure h (decode_corner_error lib _ _) (fun _ _ h1 =>
        bind_failure h1 (decode_corner_error lib _ _) (fun _ _ h2 =>
          bind_failure h2 (decode_corner_error lib _ _) (fun _ _ h3 =>
            bind_failure h3 (decode_corner_error lib _ _) (fun _ _ h4 => pure_not_error h4))))
    | exact bind_failure h (decode_corner_error lib _ _) (fun _ _ h1 =>
        bind_failure h1 (decode_corner_error lib _ _) (fun _ _ h2 =>
          bind_failure h2 (decode_corner_error lib _ _) (fun _ _ h3 => pure_not_error h3)))

/-- The line loop stops at the first line that throws. -/
theorem parse_lines_append (lib : FloatLib) (pre post : List (List Char)) (st : ParseState) :
    parse_lines lib st (pre ++ post) =
      parse_lines lib st pre >>= fun st1 => parse_lines lib st1 post := by
  induction pre generalizing st with
  | nil => rfl
  | cons l pre ih =>
    simp only [List.cons_append, parse_lines]
    cases h : parse_line lib st l with
    | error e => rfl
    | ok st1 => rw [ok_bind, ok_bind]; exact ih st1

theorem parse_lines_error (lib : FloatLib) (lines : List (List Char)) (st : ParseState)
    (e : Abort) (h : parse_lines lib st lines = .error e) : ∃ what, e = .failure what := by
  induction lines generalizing st e with
  | nil => cases h
  | cons l rest ih =>
    simp only [parse_lines] at h
    exact bind_failure h (parse_line_error lib st l) (fun st1 e1 h1 => ih st1 e1 h1)

/-- A file with a line that throws makes the line loop throw. -/
theorem parse_lines_failing_line (lib : FloatLib) (pre post : List (List Char))
    (line : List Char) (hline : ∀ st, ∃ what, parse_line lib st line = .error (.failure what)) :
    ∀ st, ∃ what, parse_lines lib st (pre ++ line :: post) = .error (.failure what) := by
  intro st
  rw [parse_lines_append]
  cases h : parse_lines lib st pre with
  | error e =>
    obtain ⟨w, rfl⟩ := parse_lines_error lib pre st e h
    exact ⟨w, rfl⟩
  | ok st1 =>
    obtain ⟨w, hw⟩ := hline st1
    refine ⟨w, ?_⟩
    rw [ok_bind]
    simp only [parse_lines]
    rw [hw]
    rfl

theorem LoadMesh_failing_line (lib : FloatLib) (resource_ : Registry) (vbo ebo : Nat)
    (name filename : String) (pre post : List (List Char)) (line : List Char)
    (hline : ∀ st, ∃ what, parse_line lib st line = .error (.failure what)) :
    ∃ what, LoadMesh lib resource_ vbo ebo name filename (some (pre ++ line :: post)) =
      .error (.failure what) := by
  obtain ⟨w, hw⟩ := parse_lines_failing_line lib pre post line hline initial_state
  refine ⟨w, ?_⟩
  simp only [LoadMesh]
  rw [hw]
  rfl

/-! ## C11 -/

theorem first_token_eq (line : List Char) (tok : List Char) (more : List (List Char))
    (htok : tok ≠ [] ) (hc : ∀ c, tok.head? = some c → c ≠ '#')
    (h : string_split line part_separator = tok :: more) :
    ¬ (line.length ≤ 0 ∨ line.head? = some '#') := by
  cases line with
  | nil =>
    simp [string_split, string_split_loop] at h
    exact absurd h.1 htok
  | cons c cs =>
    rintro (hlen | hhead)
    · simp at hlen
    · simp only [List.head?_cons, Option.some.injEq] at hhead
      subst hhead
      have hsep : is_separator part_separator '#' = false := by decide
      simp only [string_split, string_split_loop, hsep] at h
      have happ : append_to_last [[]] '#' = [['#']] := by decide
      rw [happ] at h
      obtain ⟨t1, m1, e⟩ := string_split_loop_head part_separator '#' cs false [] []
      rw [e] at h
      injection h with h1 h2
      exact hc '#' (by rw [← h1]; rfl) rfl


/-- C11: an `f` record whose number of corner descriptors (the tokens after
`f`) is neither 3 nor 4 makes the line loop throw `std::ios_base::failure`:
with fewer than 3 descriptors the message is "f command should have 3 or 4
parameters", with more than 4 it is "f commands with more than 4 vertices not
supported". No state results from the line, so no face is appended, and
`LoadMesh` throws on every file that contains such a line. -/
theorem face_record_wrong_count (lib : FloatLib) (line : List Char) (rest : List (List Char))
    (hsplit : string_split line part_separator = ['f'] :: rest)
    (h3 : rest.length ≠ 3) (h4 : rest.length ≠ 4) :
    (∀ st, parse_line lib st line = .error (.failure
        (if rest.length < 3 then "Error: f command should have 3 or 4 parameters"
         else "Error: f commands with more than 4 vertices not supported"))) ∧
    ∀ (resource_ : Registry) (vbo ebo : Nat) (name filename : String)
      (pre post : List (List Char)),
      ∃ what, LoadMesh lib resource_ vbo ebo name filename (some (pre ++ line :: post)) =
        .error (.failure what) := by
  have hline := line_of_first_token line _ hsplit
  have hparse : ∀ st, parse_line lib st line = .error (.failure
      (if rest.length < 3 then "Error: f command should have 3 or 4 parameters"
       else "Error: f commands with more than 4 vertices not supported")) := by
    intro st
    unfold parse_line
    simp only [hline, if_false, hsplit]
    by_cases hlt : rest.length < 3
    · have hn : ¬ (rest.length + 1 ≥ 4) := by omega
      simp [hlt, hn]
    · have hn : rest.length + 1 ≥ 4 := by omega
      have hg : rest.length + 1 > 5 := by omega
      simp [hlt, hn, hg]
  exact ⟨hparse, fun resource_ vbo ebo name filename pre post =>
    LoadMesh_failing_line lib resource_ vbo ebo name filename pre post line
      (fun st => ⟨_, hparse st⟩)⟩

/-- Witness of C11: the records `f 1 2` (two descriptors) and `f 1 2 3 4 5`
(five descriptors) read with the example instance. -/
theorem face_record_wrong_count_witness :
    (string_split "f 1 2".toList part_separator = ['f'] :: [['1'], ['2']] ∧
     string_split "f 1 2 3 4 5".toList part_separator =
       ['f'] :: [['1'], ['2'], ['3'], ['4'], ['5']]) ∧
    parse_line exampleLib initial_state "f 1 2".toList =
      .error (.failure "Error: f command should have 3 or 4 parameters") ∧
    parse_line exampleLib initial_state "f 1 2 3 4 5".toList =
      .error (.failure "Error: f commands with more than 4 vertices not supported") ∧
    (∃ what, LoadMesh exampleLib [] 1 2 "m" "m.obj"
        (some (["v 0 0 0".toList] ++ "f 1 2".toList :: ["v 1 0 0".toList])) =
      .error (.failure what)) :=
  ⟨⟨by decide, by decide⟩,
   (face_record_wrong_count exampleLib "f 1 2".toList [['1'], ['2']] (by decide) (by decide)
     (by decide)).1 initial_state,
   (face_record_wrong_count exampleLib "f 1 2 3 4 5".toList [['1'], ['2'], ['3'], ['4'], ['5']]
     (by decide) (by decide) (by decide)).1 initial_state,
   (face_record_wrong_count exampleLib "f 1 2".toList [['1'], ['2']] (by decide) (by decide)
     (by decide)).2 [] 1 2 "m" "m.obj" ["v 0 0 0".toList] ["v 1 0 0".toList]⟩

/-! ## C14 -/

theorem parse_lines_skip (lib : FloatLib) (line : List Char)
    (h : ∀ st, parse_line lib st line = .ok st) (pre post : List (List Char))
    (st : ParseState) :
    parse_lines lib st (pre ++ line :: post) = parse_lines lib st (pre ++ post) := by
  rw [parse_lines_append, parse_lines_append]
  cases hp : parse_lines lib st pre with
  | error e => rfl
  | ok st1 =>
    rw [ok_bind, ok_bind]
    simp only [parse_lines]
    rw [h st1, ok_bind]

/-- C14: an empty line, a line whose first character is `#`, and a line whose
first token `part[0]` is none of `v`, `vn`, `vt`, `f` end their iteration of
the line loop without an exception and with the positions, normals, texture
coordinates, faces and the flag `added_normal` unchanged; `LoadMesh` treats a
file with such a line exactly as the file without it. -/
theorem other_lines_ignored (lib : FloatLib) (line : List Char)
    (h : line = [] ∨ line.head? = some '#' ∨
      ((string_split line part_separator).getD 0 [] ≠ ['v'] ∧
       (string_split line part_separator).getD 0 [] ≠ ['v', 'n'] ∧
       (string_split line part_separator).getD 0 [] ≠ ['v', 't'] ∧
       (string_split line part_separator).getD 0 [] ≠ ['f'])) :
    (∀ st, parse_line lib st line = .ok st) ∧
    (∀ (pre post : List (List Char)) (st : ParseState),
      parse_lines lib st (pre ++ line :: post) = parse_lines lib st (pre ++ post)) ∧
    ∀ (resource_ : Registry) (vbo ebo : Nat) (name filename : String)
      (pre post : List (List Char)),
      LoadMesh lib resource_ vbo ebo name filename (some (pre ++ line :: post)) =
        LoadMesh lib resource_ vbo ebo name filename (some (pre ++ post)) := by
  have hparse : ∀ st, parse_line lib st line = .ok st := by
    intro st
    unfold parse_line
    by_cases hc : line.length ≤ 0 ∨ line.head? = some '#'
    · simp only [hc, if_true]
    · simp only [hc, if_false]
      rcases h with h | h | ⟨h1, h2, h3, h4⟩
      · exact absurd (Or.inl (by rw [h]; exact Nat.le_refl 0)) hc
      · exact absurd (Or.inr h) hc
      · simp only [h1, h2, h3, h4, if_false]
  refine ⟨hparse, parse_lines_skip lib line hparse, ?_⟩
  intro resource_ vbo ebo name filename pre post
  simp only [LoadMesh]
  rw [parse_lines_skip lib line hparse]

/-- Witness of C14: an empty line, the comment `# v 1 2 3` and the record
`g f 1` in front of the four lines of the single triangle model. -/
theorem other_lines_ignored_witness :
    parse_line exampleLib initial_state [] = .ok initial_state ∧
    parse_line exampleLib initial_state "# v 1 2 3".toList = .ok initial_state ∧
    parse_line exampleLib initial_state "g f 1".toList = .ok initial_state ∧
    LoadMesh exampleLib [] 1 2 "m" "m.obj"
        (some ([] ++ "g f 1".toList :: single_triangle_lines)) =
      LoadMesh exampleLib [] 1 2 "m" "m.obj" (some ([] ++ single_triangle_lines)) :=
  ⟨(other_lines_ignored exampleLib [] (Or.inl rfl)).1 initial_state,
   (other_lines_ignored exampleLib "# v 1 2 3".toList (Or.inr (Or.inl rfl))).1 initial_state,
   (other_lines_ignored exampleLib "g f 1".toList
     (Or.inr (Or.inr (by decide)))).1 initial_state,
   (other_lines_ignored exampleLib "g f 1".toList
     (Or.inr (Or.inr (by decide)))).2.2 [] 1 2 "m" "m.obj" [] single_triangle_lines⟩

/-! ## C13 -/

/-- C13: the line loop does not trim. On `  v 1 2 3` the local copy inside
`string_trim` is erased completely, the caller's line keeps its two leading
spaces, its first token is the empty string and the line is ignored, whereas
`v 1 2 3` appends the position (1,2,3). On `f 1 2 3 ` (trailing space) the
split yields a fifth, empty token, so the record takes the quad branch: it
either throws or appends two faces, never exactly one, whereas `f 1 2 3`
appends one face. -/
theorem lines_are_not_trimmed :
    string_trim "  v 1 2 3".toList ignore = [] ∧
    (∀ (lib : FloatLib) (st : ParseState), parse_line lib st "  v 1 2 3".toList = .ok st) ∧
    parse_line exampleLib initial_state "v 1 2 3".toList =
      .ok { mesh := { position := [⟨1, 2, 3⟩], normal := [], tex_coord := [], face := [] },
            added_normal := false } ∧
    string_split "f 1 2 3 ".toList part_separator = [['f'], ['1'], ['2'], ['3'], []] ∧
    (∀ (lib : FloatLib) (st st1 : ParseState),
      parse_line lib st "f 1 2 3 ".toList = .ok st1 →
        st1.mesh.face.length = st.mesh.face.length + 2) ∧
    parse_line exampleLib initial_state "f 1 2 3 ".toList =
      .error (.failure "Invalid number: ") ∧
    parse_line exampleLib initial_state "f 1 2 3".toList =
      .ok { mesh := { position := [], normal := [], tex_coord := [],
                      face := [{ i := ⟨0, 1, 2⟩, n := ⟨-1, -1, -1⟩, t := ⟨-1, -1, -1⟩ }] },
            added_normal := false } := by
  have sv0 : string_split "  v 1 2 3".toList part_separator = [[], ['v'], ['1'], ['2'], ['3']] := by
    decide
  have sv : string_split "v 1 2 3".toList part_separator = [['v'], ['1'], ['2'], ['3']] := by
    decide
  have sf0 : string_split "f 1 2 3 ".toList part_separator = [['f'], ['1'], ['2'], ['3'], []] := by
    decide
  have sf : string_split "f 1 2 3".toList part_separator = [['f'], ['1'], ['2'], ['3']] := by
    decide
  have hv0 : ¬ ("  v 1 2 3".toList.length ≤ 0 ∨ "  v 1 2 3".toList.head? = some '#') := by decide
  have hv : ¬ ("v 1 2 3".toList.length ≤ 0 ∨ "v 1 2 3".toList.head? = some '#') := by decide
  have hf0 : ¬ ("f 1 2 3 ".toList.length ≤ 0 ∨ "f 1 2 3 ".toList.head? = some '#') := by decide
  have hf : ¬ ("f 1 2 3".toList.length ≤ 0 ∨ "f 1 2 3".toList.head? = some '#') := by decide
  have o1 : string_split_once ['1'] face_separator = [['1']] := by decide
  have o2 : string_split_once ['2'] face_separator = [['2']] := by decide
  have o3 : string_split_once ['3'] face_separator = [['3']] := by decide
  have o0 : string_split_once [] face_separator = [[]] := by decide
  have n1 := exampleLib_str_to_num ['1'] 1 (by decide)
  have n2 := exampleLib_str_to_num ['2'] 2 (by decide)
  have n3 := exampleLib_str_to_num ['3'] 3 (by decide)
  have i1 := exampleLib_index_of ['1'] 0 (by decide)
  have i2 := exampleLib_index_of ['2'] 1 (by decide)
  have i3 := exampleLib_index_of ['3'] 2 (by decide)
  have i0 : index_of exampleLib [] = .error (.failure "Invalid number: ") := by
    simp only [index_of, str_to_num, exampleLib, show read_decimal [] = none by decide,
      error_bind]
    rfl
  refine ⟨by decide, ?_, ?_, sf0, ?_, ?_, ?_⟩
  · intro lib st
    unfold parse_line
    simp only [hv0, if_false, sv0]
    simp
  · unfold parse_line
    simp only [hv, if_false, sv]
    simp [n1, n2, n3, ok_bind, pure_eq_ok, initial_state]
  · intro lib st st1 h
    unfold parse_line at h
    simp only [hf0, if_false, sf0] at h
    simp only [List.getD_cons_zero, List.getD_cons_succ, List.length_cons, List.length_nil] at h
    simp at h
    obtain ⟨c0, -, h⟩ := bind_ok_cases h
    obtain ⟨c1, -, h⟩ := bind_ok_cases h
    obtain ⟨c2, -, h⟩ := bind_ok_cases h
    obtain ⟨c3, -, h⟩ := bind_ok_cases h
    cases h
    simp
  · unfold parse_line
    simp only [hf0, if_false, sf0]
    simp [decode_corner, o1, o2, o3, o0, i1, i2, i3, i0, ok_bind, error_bind, pure_eq_ok]
  · unfold parse_line
    simp only [hf, if_false, sf]
    simp [decode_corner, o1, o2, o3, i1, i2, i3, ok_bind, pure_eq_ok, Face.ofCorners,
      initial_state]

/-! ## C12 -/

theorem append_to_last_snoc (pre : List (List Char)) (tok : List Char) (c : Char) :
    append_to_last (pre ++ [tok]) c = pre ++ [tok ++ [c]] := by
  simp [append_to_last]

/-- Characters that are no separators extend the current token. -/
theorem string_split_once_loop_plain (sep s : List Char)
    (hs : ∀ c, c ∈ s → is_separator sep c = false) :
    ∀ (pre : List (List Char)) (tok rest : List Char),
      string_split_once_loop sep (s ++ rest) (pre ++ [tok]) =
        string_split_once_loop sep rest (pre ++ [tok ++ s]) := by
  induction s with
  | nil => intro pre tok rest; simp
  | cons c s ih =>
    intro pre tok rest
    have hc := hs c (List.mem_cons_self _ _)
    rw [List.cons_append, string_split_once_loop, hc, if_neg (by decide),
      append_to_last_snoc, ih (fun d hd => hs d (List.mem_cons_of_mem _ hd))]
    simp

theorem string_split_once_loop_slash (rest : List Char) (out : List (List Char)) :
    string_split_once_loop face_separator ('/' :: rest) out =
      string_split_once_loop face_separator rest (out ++ [[]]) := by
  have h : is_separator face_separator '/' = true := by decide
  simp only [string_split_once_loop, h, if_true]

theorem not_slash (s : List Char) (h : '/' ∉ s) :
    ∀ c, c ∈ s → is_separator face_separator c = false := by
  intro c hc
  have : c ≠ '/' := fun e => h (e ▸ hc)
  simp [is_separator, face_separator, this]

/-- The descriptors `i`, `i/t`, `i/t/n` split at their slashes. -/
theorem string_split_once_slashes (a b c : List Char) (ha : '/' ∉ a) (hb : '/' ∉ b)
    (hc : '/' ∉ c) :
    string_split_once a face_separator = [a] ∧
    string_split_once (a ++ '/' :: b) face_separator = [a, b] ∧
    string_split_once (a ++ '/' :: (b ++ '/' :: c)) face_separator = [a, b, c] := by
  have pa := string_split_once_loop_plain face_separator a (not_slash a ha)
  have pb := string_split_once_loop_plain face_separator b (not_slash b hb)
  have pc := string_split_once_loop_plain face_separator c (not_slash c hc)
  refine ⟨?_, ?_, ?_⟩
  · have := pa [] [] []
    simpa [string_split_once, string_split_once_loop] using this
  · have h1 := pa [] [] ('/' :: b)
    have h2 := pb [a] [] []
    simp only [List.nil_append, List.append_nil] at h1 h2
    simp only [string_split_once]
    rw [h1, string_split_once_loop_slash, h2]
    simp [string_split_once_loop]
  · have h1 := pa [] [] ('/' :: (b ++ '/' :: c))
    have h2 := pb [a] [] ('/' :: c)
    have h3 := pc [a, b] [] []
    simp only [List.nil_append, List.append_nil] at h1 h2 h3
    simp only [string_split_once]
    rw [h1, string_split_once_loop_slash, h2, string_split_once_loop_slash]
    simp only [List.cons_append, List.nil_append] at h3 ⊢
    rw [h3]
    simp [string_split_once_loop]

theorem append_to_last_length (out : List (List Char)) (c : Char) (h : out ≠ []) :
    (append_to_last out c).length = out.length := by
  have : 0 < out.length := List.length_pos.2 h
  simp [append_to_last]
  omega

/-- The number of tokens is one more than the number of separators. -/
theorem string_split_once_loop_length (s : List Char) :
    ∀ out : List (List Char), out ≠ [] →
      (string_split_once_loop face_separator s out).length = out.length + s.count '/' := by
  induction s with
  | nil => intro out _; simp [string_split_once_loop]
  | cons c s ih =>
    intro out hout
    by_cases hc : c = '/'
    · subst hc
      rw [string_split_once_loop_slash, ih _ (by simp)]
      simp
      omega
    · have hsep : is_separator face_separator c = false := by
        simp [is_separator, face_separator, hc]
      rw [string_split_once_loop, hsep, if_neg (by decide)]
      have hne : append_to_last out c ≠ [] := by simp [append_to_last]
      rw [ih _ hne, append_to_last_length out c hout]
      have hne2 : c ≠ '/' := hc
      simp [List.count_cons, hne2]

theorem string_split_once_length (s : List Char) :
    (string_split_once s face_separator).length = s.count '/' + 1 := by
  unfold string_split_once
  rw [string_split_once_loop_length s [[]] (by simp)]
  simp
  omega

theorem index_of_exact (lib : FloatLib) (s : List Char) (i : Nat) (hi : 1 ≤ i)
    (hr : lib.read_float s = some (i : ℚ))
    (hfl : lib.fl (((i - 1 : Nat) : ℚ)) = ((i - 1 : Nat) : ℚ)) :
    index_of lib s = .ok ((i : Int) - 1) := by
  have e : (i : ℚ) - 1 = ((i - 1 : Nat) : ℚ) := by
    rw [Nat.cast_sub hi]; simp
  have e2 : ((i - 1 : Nat) : Int) = (i : Int) - 1 := by omega
  simp only [index_of, str_to_num, hr, ok_bind, pure_eq_ok, e, hfl, float_to_int_natCast, e2]

theorem round_integer_natCast (n : Nat) : round_integer (n : ℚ) = ((f32 n : Nat) : ℚ) := by
  simp [round_integer]

/-- C12, amended: for index tokens that read as integers between 1 and `2^24`
(the integers a `float` holds exactly), the descriptor `i` decodes to
`(i-1, -1, -1)`, `i/t` to `(i-1, t-1, -1)`, `i/t/n` to `(i-1, t-1, n-1)` and
`i//n` to `(i-1, -1, n-1)`, in the order position, texture coordinate, normal;
a descriptor with more than two `/` throws `std::ios_base::failure`; and the
quad branch and the triangle branch decode every descriptor to the same
corner. -/
theorem corner_descriptor_decoded (lib : FloatLib) (what : String) (a b c : List Char)
    (i t n : Nat)
    (hfl : ∀ k : Nat, k ≤ 2 ^ 24 → lib.fl (k : ℚ) = (k : ℚ))
    (ha : '/' ∉ a) (hb : '/' ∉ b) (hc : '/' ∉ c) (hbne : b ≠ [])
    (ra : lib.read_float a = some (i : ℚ)) (rb : lib.read_float b = some (t : ℚ))
    (rc : lib.read_float c = some (n : ℚ))
    (hi : 1 ≤ i ∧ i ≤ 2 ^ 24) (ht : 1 ≤ t ∧ t ≤ 2 ^ 24) (hn : 1 ≤ n ∧ n ≤ 2 ^ 24) :
    decode_corner lib what a = .ok { i := (i : Int) - 1, t := -1, n := -1 } ∧
    decode_corner lib what (a ++ '/' :: b) =
      .ok { i := (i : Int) - 1, t := (t : Int) - 1, n := -1 } ∧
    decode_corner lib what (a ++ '/' :: (b ++ '/' :: c)) =
      .ok { i := (i : Int) - 1, t := (t : Int) - 1, n := (n : Int) - 1 } ∧
    decode_corner lib what (a ++ '/' :: '/' :: c) =
      .ok { i := (i : Int) - 1, t := -1, n := (n : Int) - 1 } ∧
    (∀ d : List Char, 2 < d.count '/' → decode_corner lib what d = .error (.failure what)) ∧
    (∀ (d : List Char) (r : Corner),
      decode_corner lib quad_corner_what d = .ok r ↔
        decode_corner lib face_corner_what d = .ok r) := by
  have ia := index_of_exact lib a i hi.1 ra (hfl _ (by omega))
  have ib := index_of_exact lib b t ht.1 rb (hfl _ (by omega))
  have ic := index_of_exact lib c n hn.1 rc (hfl _ (by omega))
  obtain ⟨s1, s2, s3⟩ := string_split_once_slashes a b c ha hb hc
  obtain ⟨-, -, s4⟩ := string_split_once_slashes a [] c ha (by simp) hc
  refine ⟨?_, ?_, ?_, ?_, ?_, ?_⟩
  · unfold decode_corner
    simp [s1, ia, ok_bind, pure_eq_ok]
  · unfold decode_corner
    simp [s2, ia, ib, ok_bind, pure_eq_ok]
  · unfold decode_corner
    simp [s3, ia, ib, ic, hbne, ok_bind, pure_eq_ok]
  · rw [List.nil_append] at s4
    unfold decode_corner
    simp [s4, ia, ic, ok_bind, pure_eq_ok]
  · intro d hd
    have hl := string_split_once_length d
    unfold decode_corner
    have h1 : (string_split_once d face_separator).length ≠ 1 := by omega
    have h2 : (string_split_once d face_separator).length ≠ 2 := by omega
    have h3 : (string_split_once d face_separator).length ≠ 3 := by omega
    simp only [h1, h2, h3, if_false]
  · intro d r
    exact ⟨decode_corner_what lib _ _ d r, decode_corner_what lib _ _ d r⟩

/-- Witness of C12: the descriptors `3`, `3/7`, `3/7/5` and `3//5` read with
the instance that rounds to the nearest `float`. -/
theorem corner_descriptor_decoded_witness :
    decode_corner integerLib "" "3".toList = .ok { i := 2, t := -1, n := -1 } ∧
    decode_corner integerLib "" "3/7".toList = .ok { i := 2, t := 6, n := -1 } ∧
    decode_corner integerLib "" "3/7/5".toList = .ok { i := 2, t := 6, n := 4 } ∧
    decode_corner integerLib "" "3//5".toList = .ok { i := 2, t := -1, n := 4 } ∧
    decode_corner integerLib "" "3/7/5/1".toList = .error (.failure "") := by
  have hfl : ∀ k : Nat, k ≤ 2 ^ 24 → integerLib.fl (k : ℚ) = (k : ℚ) := by
    intro k hk
    show round_integer (k : ℚ) = (k : ℚ)
    rw [round_integer_natCast, f32_of_le k hk]
  have r3 : integerLib.read_float ['3'] = some ((3 : Nat) : ℚ) := by
    show (read_decimal ['3']).map round_integer = some ((3 : Nat) : ℚ)
    rw [show read_decimal ['3'] = some ((3 : Nat) : ℚ) by decide, Option.map_some',
      round_integer_natCast, f32_of_le 3 (by decide)]
  have r7 : integerLib.read_float ['7'] = some ((7 : Nat) : ℚ) := by
    show (read_decimal ['7']).map round_integer = some ((7 : Nat) : ℚ)
    rw [show read_decimal ['7'] = some ((7 : Nat) : ℚ) by decide, Option.map_some',
      round_integer_natCast, f32_of_le 7 (by decide)]
  have r5 : integerLib.read_float ['5'] = some ((5 : Nat) : ℚ) := by
    show (read_decimal ['5']).map round_integer = some ((5 : Nat) : ℚ)
    rw [show read_decimal ['5'] = some ((5 : Nat) : ℚ) by decide, Option.map_some',
      round_integer_natCast, f32_of_le 5 (by decide)]
  obtain ⟨h1, h2, h3, h4, h5, -⟩ := corner_descriptor_decoded integerLib "" ['3'] ['7'] ['5']
    3 7 5 hfl (by decide) (by decide) (by decide) (by decide) r3 r7 r5
    ⟨by decide, by decide⟩ ⟨by decide, by decide⟩ ⟨by decide, by decide⟩
  exact ⟨h1, h2, h3, h4, h5 _ (by decide)⟩

/-- Counterexample to C12: the token `16777217` is an index above `2^24`; it is
read as the `float` 16777216, so the descriptor decodes to the position index
16777215 and not to 16777216. -/
theorem corner_index_rounded :
    read_decimal "16777217".toList = some 16777217 ∧
    decode_corner integerLib face_corner_what "16777217".toList =
      .ok { i := 16777215, t := -1, n := -1 } ∧
    decode_corner integerLib quad_corner_what "16777217".toList =
      .ok { i := 16777215, t := -1, n := -1 } := by
  have hr : read_decimal "16777217".toList = some ((16777217 : Nat) : ℚ) := by decide
  have hs : string_split_once "16777217".toList face_separator = ["16777217".toList] := by
    decide
  have f1 : f32 16777217 = 16777216 := by decide
  have f2 : f32 16777215 = 16777215 := by decide
  have e : ((16777216 : Nat) : ℚ) - 1 = ((16777215 : Nat) : ℚ) := by norm_num
  have hi : index_of integerLib ['1', '6', '7', '7', '7', '2', '1', '7'] = .ok 16777215 := by
    change index_of integerLib "16777217".toList = .ok 16777215
    simp only [index_of, str_to_num, integerLib, hr, Option.map_some', round_integer_natCast,
      f1, ok_bind, pure_eq_ok, e, f2, float_to_int_natCast]
    rfl
  refine ⟨by rw [hr]; norm_num, ?_, ?_⟩
  · unfold decode_corner
    simp only [hs]
    simp [hi, ok_bind, pure_eq_ok]
  · unfold decode_corner
    simp only [hs]
    simp [hi, ok_bind, pure_eq_ok]

/-! ## The stages of LoadMesh -/

/-- The stages of a call of `LoadMesh` that returns. -/
theorem LoadMesh_ok_cases (lib : FloatLib) (resource_ : Registry) (vbo ebo : Nat)
    (name filename : String) (lines : List (List Char)) (r : LoadedMesh)
    (h : LoadMesh lib resource_ vbo ebo name filename (some lines) = .ok r) :
    ∃ st, parse_lines lib initial_state lines = .ok st ∧
      check_faces st.mesh = .ok () ∧
      compute_degree st.mesh = .ok r.degree ∧
      compute_normals lib st r.degree = .ok r.mesh ∧
      materialize r.mesh st.added_normal r.mesh.face 0 = .ok (r.vbo_data, r.ebo_data) ∧
      r.added_normal = st.added_normal ∧
      r.registry = AddResource2 resource_ ResourceType.Mesh name vbo ebo
        (r.mesh.face.length * face_att) := by
  unfold LoadMesh at h
  dsimp only at h
  obtain ⟨st, hst, h⟩ := bind_ok_cases h
  obtain ⟨u, hu, h⟩ := bind_ok_cases h
  obtain ⟨degree, hd, h⟩ := bind_ok_cases h
  obtain ⟨mesh, hm, h⟩ := bind_ok_cases h
  obtain ⟨⟨vd, ed⟩, hb, h⟩ := bind_ok_cases h
  cases h
  exact ⟨st, hst, hu, hd, hm, hb, rfl, rfl⟩

/-- A call of `LoadMesh` whose stages all succeed returns. -/
theorem LoadMesh_of_stages (lib : FloatLib) (resource_ : Registry) (vbo ebo : Nat)
    (name filename : String) (lines : List (List Char)) (st : ParseState)
    (degree : List Nat) (mesh : TriMesh) (vd : List ℚ) (ed : List Nat)
    (h1 : parse_lines lib initial_state lines = .ok st)
    (h2 : check_faces st.mesh = .ok ())
    (h3 : compute_degree st.mesh = .ok degree)
    (h4 : compute_normals lib st degree = .ok mesh)
    (h5 : materialize mesh st.added_normal mesh.face 0 = .ok (vd, ed)) :
    LoadMesh lib resource_ vbo ebo name filename (some lines) =
      .ok { mesh := mesh, added_normal := st.added_normal, degree := degree,
            vbo_data := vd, ebo_data := ed,
            registry := AddResource2 resource_ ResourceType.Mesh name vbo ebo
              (mesh.face.length * face_att) } := by
  unfold LoadMesh
  simp only [h1, h2, h3, h4, h5, ok_bind, pure_eq_ok]

/-- The attributes of one corner, stage by stage. -/
theorem corner_attributes_cases (mesh : TriMesh) (added : Bool) (f : Face) (j : Nat)
    (a : List ℚ) (h : corner_attributes mesh added f j = .ok a) :
    ∃ (p n : vec3 ℚ) (t : vec2 ℚ), subscript mesh.position (f.i.get j) = .ok p ∧
      (added = false → subscript mesh.normal (f.i.get j) = .ok n) ∧
      (added = true → 0 ≤ f.n.get j → subscript mesh.normal (f.n.get j) = .ok n) ∧
      (added = true → f.n.get j < 0 → n = ⟨0, 0, 0⟩) ∧
      (0 ≤ f.t.get j → subscript mesh.tex_coord (f.t.get j) = .ok t) ∧
      (f.t.get j < 0 → t = ⟨0, 0⟩) ∧
      a = [p.x, p.y, p.z, n.x, n.y, n.z, 0, 0, 0, t.x, t.y] := by
  unfold corner_attributes at h
  obtain ⟨p, hp, h⟩ := bind_ok_cases h
  dsimp only at h
  have key : ∀ (n : vec3 ℚ),
      (if f.t.get j ≥ 0 then
          subscript mesh.tex_coord (f.t.get j) >>= fun t =>
            (pure [p.x, p.y, p.z, n.x, n.y, n.z, 0, 0, 0, t.x, t.y] : Except Abort (List ℚ))
        else (pure (⟨0, 0⟩ : vec2 ℚ) : Except Abort (vec2 ℚ)) >>= fun t =>
            (pure [p.x, p.y, p.z, n.x, n.y, n.z, 0, 0, 0, t.x, t.y] : Except Abort (List ℚ)))
        = .ok a →
      ∃ t : vec2 ℚ, (0 ≤ f.t.get j → subscript mesh.tex_coord (f.t.get j) = .ok t) ∧
        (f.t.get j < 0 → t = ⟨0, 0⟩) ∧
        a = [p.x, p.y, p.z, n.x, n.y, n.z, 0, 0, 0, t.x, t.y] := by
    intro n hk
    by_cases ht : f.t.get j ≥ 0
    · rw [if_pos ht] at hk
      obtain ⟨t, ht1, hk⟩ := bind_ok_cases hk
      cases hk
      exact ⟨t, fun _ => ht1, fun hneg => absurd ht (by omega), rfl⟩
    · rw [if_neg ht] at hk
      cases hk
      exact ⟨⟨0, 0⟩, fun hpos => absurd hpos ht, fun _ => rfl, rfl⟩
  cases added with
  | false =>
    simp only [Bool.not_false, if_true] at h
    obtain ⟨n, hn, h⟩ := bind_ok_cases h
    obtain ⟨t, t1, t2, t3⟩ := key n h
    exact ⟨p, n, t, hp, fun _ => hn, fun hc => (by cases hc), fun hc => (by cases hc), t1, t2, t3⟩
  | true =>
    simp only [Bool.not_true, Bool.false_eq_true, if_false] at h
    by_cases hn0 : f.n.get j ≥ 0
    · rw [if_pos hn0] at h
      obtain ⟨n, hn, h⟩ := bind_ok_cases h
      obtain ⟨t, t1, t2, t3⟩ := key n h
      exact ⟨p, n, t, hp, fun hc => (by cases hc), fun _ _ => hn,
        fun _ hneg => absurd hn0 (by omega), t1, t2, t3⟩
    · rw [if_neg hn0] at h
      obtain ⟨n, hn, h⟩ := bind_ok_cases h
      cases hn
      obtain ⟨t, t1, t2, t3⟩ := key _ h
      exact ⟨p, ⟨0, 0, 0⟩, t, hp, fun hc => (by cases hc), fun _ hpos => absurd hpos hn0,
        fun _ _ => rfl, t1, t2, t3⟩

theorem corner_attributes_length (mesh : TriMesh) (added : Bool) (f : Face) (j : Nat)
    (a : List ℚ) (h : corner_attributes mesh added f j = .ok a) : a.length = 11 := by
  obtain ⟨p, n, t, -, -, -, -, -, -, rfl⟩ := corner_attributes_cases mesh added f j a h
  rfl

theorem face_attributes_cases (mesh : TriMesh) (added : Bool) (f : Face) (att : List ℚ)
    (h : face_attributes mesh added f = .ok att) :
    ∃ a0 a1 a2, corner_attributes mesh added f 0 = .ok a0 ∧
      corner_attributes mesh added f 1 = .ok a1 ∧
      corner_attributes mesh added f 2 = .ok a2 ∧ att = a0 ++ a1 ++ a2 ∧
      a0.length = 11 ∧ a1.length = 11 ∧ a2.length = 11 := by
  unfold face_attributes at h
  obtain ⟨a0, h0, h⟩ := bind_ok_cases h
  obtain ⟨a1, h1, h⟩ := bind_ok_cases h
  obtain ⟨a2, h2, h⟩ := bind_ok_cases h
  cases h
  exact ⟨a0, a1, a2, h0, h1, h2, rfl, corner_attributes_length _ _ _ _ _ h0,
    corner_attributes_length _ _ _ _ _ h1, corner_attributes_length _ _ _ _ _ h2⟩

/-- The buffers the materialisation loop fills: three fresh indices and three
vertices of eleven attributes per face, vertex `3k+j` holding the attributes of
corner `j` of face `k`. -/
theorem materialize_spec (mesh : TriMesh) (added : Bool) (faces : List Face) :
    ∀ (vi : Nat) (vd : List ℚ) (ed : List Nat),
      materialize mesh added faces vi = .ok (vd, ed) →
      ed = List.range' vi (3 * faces.length) ∧ vd.length = 3 * faces.length * 11 ∧
      ∀ k j, k < faces.length → j < 3 →
        ∃ f, faces.get? k = some f ∧
          corner_attributes mesh added f j = .ok (emitted_vertex vd (3 * k + j)) := by
  induction faces with
  | nil =>
    intro vi vd ed h
    simp only [materialize] at h
    cases h
    exact ⟨rfl, rfl, fun k j hk => absurd hk (Nat.not_lt_zero k)⟩
  | cons f rest ih =>
    intro vi vd ed h
    simp only [materialize] at h
    obtain ⟨att, hatt, h⟩ := bind_ok_cases h
    obtain ⟨⟨vd1, ed1⟩, hrest, h⟩ := bind_ok_cases h
    cases h
    obtain ⟨a0, a1, a2, h0, h1, h2, rfl, l0, l1, l2⟩ := face_attributes_cases _ _ _ _ hatt
    obtain ⟨e1, e2, e3⟩ := ih (vi + 3) vd1 ed1 hrest
    refine ⟨?_, ?_, ?_⟩
    · rw [e1]
      simp only [face_indices, List.length_cons]
      rw [show 3 * (rest.length + 1) = (3 * rest.length + 2) + 1 by ring, List.range'_succ,
        show 3 * rest.length + 2 = (3 * rest.length + 1) + 1 by ring, List.range'_succ,
        List.range'_succ]
      simp [Nat.add_assoc]
    · simp only [List.length_append, List.length_cons, l0, l1, l2, e2]
      ring
    · intro k j hk hj
      cases k with
      | zero =>
        refine ⟨f, rfl, ?_⟩
        have hj3 : j = 0 ∨ j = 1 ∨ j = 2 := by omega
        rcases hj3 with rfl | rfl | rfl
        · rw [h0]
          simp [emitted_vertex, vertex_att, List.append_assoc, List.take_append_of_le_length, l0]
        · rw [h1]
          simp only [emitted_vertex, vertex_att, List.append_assoc]
          rw [show 3 * 0 + 1 = 1 by rfl, show 1 * 11 = a0.length + 0 by rw [l0],
            List.drop_append]
          simp [List.take_append_of_le_length, l1]
        · rw [h2]
          simp only [emitted_vertex, vertex_att]
          rw [show 3 * 0 + 2 = 2 by rfl, show 2 * 11 = (a0 ++ a1).length + 0 by simp [l0, l1],
            List.append_assoc (a0 ++ a1), List.drop_append]
          simp [List.take_append_of_le_length, l2]
      | succ k =>
        obtain ⟨g, hg, hc⟩ := e3 k j (by simpa using hk) hj
        refine ⟨g, by simpa using hg, ?_⟩
        rw [hc]
        simp only [emitted_vertex, vertex_att]
        rw [show (3 * (k + 1) + j) * 11 = (a0 ++ a1 ++ a2).length + (3 * k + j) * 11 by
          simp [l0, l1, l2]; ring, List.drop_append]

/-! ## What a file does to the mesh -/

theorem record_line (line tok : List Char) (htok : tok ≠ [])
    (hc : ∀ c, tok.head? = some c → c ≠ '#')
    (h : (string_split line part_separator).getD 0 [] = tok) :
    ¬ (line.length ≤ 0 ∨ line.head? = some '#') := by
  cases hsp : string_split line part_separator with
  | nil => rw [hsp] at h; exact absurd h.symm htok
  | cons t more =>
    rw [hsp] at h
    simp only [List.getD_cons_zero] at h
    subst h
    exact first_token_eq line t more htok hc hsp

/-- What a line that is processed without an exception does to the faces, the
normals and the flag `added_normal`. -/
theorem parse_line_ok_effect (lib : FloatLib) (st st1 : ParseState) (line : List Char)
    (h : parse_line lib st line = .ok st1) :
    st1.mesh.face.length = st.mesh.face.length +
      (if face_corners line = some 3 then 1 else if face_corners line = some 4 then 2 else 0) ∧
    st1.mesh.normal = st.mesh.normal ++ (vn_record lib line).toList ∧
    st1.added_normal = (st.added_normal || is_vn line) ∧
    st1.mesh.position.length = st.mesh.position.length +
      (if (string_split line part_separator).getD 0 [] = ['v'] then 1 else 0) := by
  unfold parse_line at h
  dsimp only at h
  unfold face_corners vn_record is_vn
  dsimp only
  have hrec : ∀ tok : List Char, tok ≠ [] → (∀ c, tok.head? = some c → c ≠ '#') →
      (string_split line part_separator).getD 0 [] = tok →
      ¬ (line.length ≤ 0 ∨ line.head? = some '#') := record_line line
  generalize string_split line part_separator = part at h hrec ⊢
  generalize part.getD 0 [] = tok at h hrec ⊢
  generalize part.getD 1 [] = p1 at h ⊢
  generalize part.getD 2 [] = p2 at h ⊢
  generalize part.getD 3 [] = p3 at h ⊢
  generalize part.getD 4 [] = p4 at h ⊢
  by_cases hline : line.length ≤ 0 ∨ line.head? = some '#'
  · rw [if_pos hline] at h
    cases h
    have hf : tok ≠ ['f'] := fun e => hrec ['f'] (by simp) (by simp) e hline
    have hn : tok ≠ ['v', 'n'] := fun e => hrec ['v', 'n'] (by simp) (by simp) e hline
    have hv : tok ≠ ['v'] := fun e => hrec ['v'] (by simp) (by simp) e hline
    simp [hf, hn, hv]
  · rw [if_neg hline] at h
    clear hrec
    by_cases hv : tok = ['v']
    · rw [if_pos hv] at h
      split_ifs at h
      obtain ⟨x, -, h⟩ := bind_ok_cases h
      obtain ⟨y, -, h⟩ := bind_ok_cases h
      obtain ⟨z, -, h⟩ := bind_ok_cases h
      cases h
      simp [hv]
    · rw [if_neg hv] at h
      by_cases hn : tok = ['v', 'n']
      · rw [if_pos hn] at h
        split_ifs at h with hlen
        obtain ⟨x, hx, h⟩ := bind_ok_cases h
        obtain ⟨y, hy, h⟩ := bind_ok_cases h
        obtain ⟨z, hz, h⟩ := bind_ok_cases h
        cases h
        have rx := str_to_num_ok lib _ _ hx
        have ry := str_to_num_ok lib _ _ hy
        have rz := str_to_num_ok lib _ _ hz
        simp [hn, hlen, rx, ry, rz]
      · rw [if_neg hn] at h
        by_cases ht : tok = ['v', 't']
        · rw [if_pos ht] at h
          split_ifs at h
          obtain ⟨x, -, h⟩ := bind_ok_cases h
          obtain ⟨y, -, h⟩ := bind_ok_cases h
          cases h
          simp [ht, hn]
        · rw [if_neg ht] at h
          by_cases hf : tok = ['f']
          · rw [if_pos hf] at h
            split_ifs at h with h4 h5 h6
            · obtain ⟨c0, -, h⟩ := bind_ok_cases h
              obtain ⟨c1, -, h⟩ := bind_ok_cases h
              obtain ⟨c2, -, h⟩ := bind_ok_cases h
              obtain ⟨c3, -, h⟩ := bind_ok_cases h
              cases h
              simp [hf, h6]
            · obtain ⟨c0, -, h⟩ := bind_ok_cases h
              obtain ⟨c1, -, h⟩ := bind_ok_cases h
              obtain ⟨c2, -, h⟩ := bind_ok_cases h
              cases h
              have hl : part.length = 4 := by omega
              simp [hf, hl]
          · rw [if_neg hf] at h
            cases h
            simp [hf, hn, hv]

/-- What a file that is read without an exception does to the faces, the
normals and the flag `added_normal`. -/
theorem parse_lines_effect (lib : FloatLib) (lines : List (List Char)) :
    ∀ st st1 : ParseState, parse_lines lib st lines = .ok st1 →
      st1.mesh.face.length =
        st.mesh.face.length + (face_records lines 3 + 2 * face_records lines 4) ∧
      st1.mesh.normal = st.mesh.normal ++ lines.filterMap (vn_record lib) ∧
      st1.added_normal = (st.added_normal || lines.any is_vn) := by
  induction lines with
  | nil =>
    intro st st1 h
    cases h
    simp [face_records]
  | cons l rest ih =>
    intro st st1 h
    simp only [parse_lines] at h
    obtain ⟨st2, h2, h⟩ := bind_ok_cases h
    obtain ⟨a1, a2, a3, -⟩ := parse_line_ok_effect lib st st2 l h2
    obtain ⟨b1, b2, b3⟩ := ih st2 st1 h
    refine ⟨?_, ?_, ?_⟩
    · rw [b1, a1]
      simp only [face_records, List.countP_cons]
      by_cases h3 : face_corners l = some 3
      · simp [h3]; omega
      · by_cases h4 : face_corners l = some 4
        · simp [h4]; omega
        · simp [h3, h4]
    · rw [b2, a2]
      cases hv : vn_record lib l with
      | none => simp [List.filterMap_cons, hv]
      | some v => simp [List.filterMap_cons, hv]
    · rw [b3, a3]
      simp [Bool.or_assoc]

theorem corner_attributes_ok (mesh : TriMesh) (added : Bool) (f : Face) (j : Nat)
    (hp : 0 ≤ f.i.get j ∧ f.i.get j < (mesh.position.length : Int))
    (hn0 : added = false → f.i.get j < (mesh.normal.length : Int))
    (hn1 : added = true → 0 ≤ f.n.get j → f.n.get j < (mesh.normal.length : Int))
    (ht : 0 ≤ f.t.get j → f.t.get j < (mesh.tex_coord.length : Int)) :
    ∃ a, corner_attributes mesh added f j = .ok a := by
  obtain ⟨p, hp1⟩ := subscript_ok mesh.position (f.i.get j) hp.1 hp.2
  have htex : ∃ t : vec2 ℚ,
      (if f.t.get j ≥ 0 then subscript mesh.tex_coord (f.t.get j) else pure ⟨0, 0⟩) = .ok t := by
    by_cases h : f.t.get j ≥ 0
    · rw [if_pos h]; exact subscript_ok _ _ h (ht h)
    · rw [if_neg h]; exact ⟨_, rfl⟩
  have hnorm : ∃ n : vec3 ℚ,
      (if !added then subscript mesh.normal (f.i.get j)
       else if f.n.get j ≥ 0 then subscript mesh.normal (f.n.get j)
       else pure ⟨0, 0, 0⟩) = .ok n := by
    cases added with
    | false => simp only [Bool.not_false, if_true]; exact subscript_ok _ _ hp.1 (hn0 rfl)
    | true =>
      simp only [Bool.not_true, Bool.false_eq_true, if_false]
      by_cases h : f.n.get j ≥ 0
      · rw [if_pos h]; exact subscript_ok _ _ h (hn1 rfl h)
      · rw [if_neg h]; exact ⟨_, rfl⟩
  obtain ⟨t, ht1⟩ := htex
  obtain ⟨n, hn⟩ := hnorm
  refine ⟨[p.x, p.y, p.z, n.x, n.y, n.z, 0, 0, 0, t.x, t.y], ?_⟩
  have e : corner_attributes mesh added f j =
      (subscript mesh.position (f.i.get j) >>= fun p =>
        (if !added then subscript mesh.normal (f.i.get j)
         else if f.n.get j ≥ 0 then subscript mesh.normal (f.n.get j)
         else pure ⟨0, 0, 0⟩) >>= fun n =>
        (if f.t.get j ≥ 0 then subscript mesh.tex_coord (f.t.get j) else pure ⟨0, 0⟩) >>=
          fun t => pure [p.x, p.y, p.z, n.x, n.y, n.z, 0, 0, 0, t.x, t.y]) := by
    unfold corner_attributes
    cases added <;> by_cases h1 : f.n.get j ≥ 0 <;> by_cases h2 : f.t.get j ≥ 0 <;>
      simp only [h1, h2, Bool.not_false, Bool.not_true, Bool.false_eq_true, if_true, if_false]
  rw [e, hp1, ok_bind, hn, ok_bind, ht1, ok_bind]
  rfl

/-- The materialisation loop subscripts in range only when the indices it
uses are in range. -/
theorem materialize_ok (mesh : TriMesh) (added : Bool) (faces : List Face)
    (h : ∀ f, f ∈ faces → ∀ j, j < 3 →
      (0 ≤ f.i.get j ∧ f.i.get j < (mesh.position.length : Int)) ∧
      (added = false → f.i.get j < (mesh.normal.length : Int)) ∧
      (added = true → 0 ≤ f.n.get j → f.n.get j < (mesh.normal.length : Int)) ∧
      (0 ≤ f.t.get j → f.t.get j < (mesh.tex_coord.length : Int))) :
    ∀ vi, ∃ vd ed, materialize mesh added faces vi = .ok (vd, ed) := by
  induction faces with
  | nil => intro vi; exact ⟨[], [], rfl⟩
  | cons f rest ih =>
    intro vi
    have hc : ∀ j, j < 3 → ∃ a, corner_attributes mesh added f j = .ok a := by
      intro j hj
      obtain ⟨h1, h2, h3, h4⟩ := h f (List.mem_cons_self _ _) j hj
      exact corner_attributes_ok mesh added f j h1 h2 h3 h4
    obtain ⟨a0, h0⟩ := hc 0 (by decide)
    obtain ⟨a1, h1⟩ := hc 1 (by decide)
    obtain ⟨a2, h2⟩ := hc 2 (by decide)
    obtain ⟨vd, ed, hr⟩ := ih (fun g hg => h g (List.mem_cons_of_mem _ hg)) (vi + 3)
    refine ⟨a0 ++ a1 ++ a2 ++ vd, face_indices vi ++ ed, ?_⟩
    simp only [materialize, face_attributes, h0, h1, h2, hr, ok_bind, pure_eq_ok]

theorem compute_normals_explicit (lib : FloatLib) (st : ParseState) (degree : List Nat)
    (mesh : TriMesh) (h : compute_normals lib st degree = .ok mesh) :
    mesh.tex_coord = st.mesh.tex_coord ∧ (st.added_normal = true → mesh = st.mesh) := by
  unfold compute_normals at h
  cases hadd : st.added_normal
  · simp only [hadd, Bool.not_false, if_true] at h
    obtain ⟨n1, -, h⟩ := bind_ok_cases h
    obtain ⟨n2, -, h⟩ := bind_ok_cases h
    cases h
    exact ⟨rfl, fun hc => by cases hc⟩
  · simp only [hadd, Bool.not_true, Bool.false_eq_true, if_false] at h
    cases h
    exact ⟨rfl, fun _ => rfl⟩

/-! ## C17 -/

theorem check_faces_valid (mesh : TriMesh) (h : check_faces mesh = .ok ()) :
    ∀ f, f ∈ mesh.face → ∀ j, j < 3 →
      0 ≤ f.i.get j ∧ f.i.get j < (mesh.position.length : Int) := by
  intro f hf j hj
  rcases check_faces_spec mesh.position.length mesh.face with ⟨-, hall⟩ | ⟨g, -, k, -, -, herr⟩
  · exact (index_exceeds_false_iff _ _).1 (hall f hf j hj)
  · unfold check_faces at h
    rw [herr] at h
    cases h

/-- After a passed check `LoadMesh` returns when the texture coordinate indices
and, with explicit normals, the normal indices that are present are in range. -/
theorem LoadMesh_returns (lib : FloatLib) (resource_ : Registry) (vbo ebo : Nat)
    (name filename : String) (lines : List (List Char)) (st : ParseState)
    (hparse : parse_lines lib initial_state lines = .ok st)
    (hcheck : check_faces st.mesh = .ok ())
    (hidx : ∀ f, f ∈ st.mesh.face → ∀ j, j < 3 →
      (0 ≤ f.t.get j → f.t.get j < (st.mesh.tex_coord.length : Int)) ∧
      (st.added_normal = true → 0 ≤ f.n.get j → f.n.get j < (st.mesh.normal.length : Int))) :
    ∃ r, LoadMesh lib resource_ vbo ebo name filename (some lines) = .ok r := by
  have hvalid := check_faces_valid st.mesh hcheck
  obtain ⟨degree, hd, hdl⟩ := compute_degree_ok st.mesh hvalid
  obtain ⟨mesh, hm, mp, mf, mn⟩ := compute_normals_ok lib st degree hdl hvalid
  obtain ⟨mt, me⟩ := compute_normals_explicit lib st degree mesh hm
  have hmat : ∃ vd ed, materialize mesh st.added_normal mesh.face 0 = .ok (vd, ed) := by
    apply materialize_ok
    intro f hf j hj
    rw [mf] at hf
    obtain ⟨v1, v2⟩ := hvalid f hf j hj
    obtain ⟨i1, i2⟩ := hidx f hf j hj
    refine ⟨by rw [mp]; exact ⟨v1, v2⟩, ?_, ?_, by rw [mt]; exact i1⟩
    · intro ha
      rw [mn ha]
      exact v2
    · intro ha
      rw [me ha]
      exact i2 ha
  obtain ⟨vd, ed, hb⟩ := hmat
  exact ⟨_, LoadMesh_of_stages lib resource_ vbo ebo name filename lines st degree mesh vd ed
    hparse hcheck hd hm hb⟩

/-- C17: after a file is read and its position indices are checked, with the
texture coordinate and normal indices that are used in range, `LoadMesh`
returns; the mesh has `F` faces, where `F` is the number of `f` records with
three corner descriptors plus twice the number of `f` records with four; the
vertex buffer holds `3F` vertices of eleven attributes; the index buffer is
`0, 1, ..., 3F-1`, so that face `k` has the indices `3k`, `3k+1`, `3k+2`; and a
Mesh resource of size `3F` with the two buffer handles is appended to the
registry. -/
theorem mesh_buffers_counts (lib : FloatLib) (resource_ : Registry) (vbo ebo : Nat)
    (name filename : String) (lines : List (List Char)) (st : ParseState)
    (hparse : parse_lines lib initial_state lines = .ok st)
    (hcheck : check_faces st.mesh = .ok ())
    (hidx : ∀ f, f ∈ st.mesh.face → ∀ j, j < 3 →
      (0 ≤ f.t.get j → f.t.get j < (st.mesh.tex_coord.length : Int)) ∧
      (st.added_normal = true → 0 ≤ f.n.get j → f.n.get j < (st.mesh.normal.length : Int))) :
    ∃ r, LoadMesh lib resource_ vbo ebo name filename (some lines) = .ok r ∧
      r.mesh.face.length = face_records lines 3 + 2 * face_records lines 4 ∧
      r.vbo_data.length = 3 * (face_records lines 3 + 2 * face_records lines 4) * vertex_att ∧
      (∀ v, v < 3 * (face_records lines 3 + 2 * face_records lines 4) →
        (emitted_vertex r.vbo_data v).length = vertex_att) ∧
      r.ebo_data = List.range (3 * (face_records lines 3 + 2 * face_records lines 4)) ∧
      (∀ k j, k < face_records lines 3 + 2 * face_records lines 4 → j < 3 →
        r.ebo_data.get? (3 * k + j) = some (3 * k + j)) ∧
      registersMesh resource_ r.registry name vbo ebo
        (3 * (face_records lines 3 + 2 * face_records lines 4)) := by
  obtain ⟨r, hr⟩ := LoadMesh_returns lib resource_ vbo ebo name filename lines st hparse hcheck
    hidx
  obtain ⟨st1, h1, -, -, h4, h5, -, h7⟩ :=
    LoadMesh_ok_cases lib resource_ vbo ebo name filename lines r hr
  rw [hparse] at h1
  cases h1
  obtain ⟨hface, -, -⟩ := parse_lines_effect lib lines initial_state st hparse
  have hF : r.mesh.face.length = face_records lines 3 + 2 * face_records lines 4 := by
    rw [(compute_normals_frame lib st r.degree r.mesh h4).2, hface]
    simp [initial_state]
  obtain ⟨e1, e2, -⟩ := materialize_spec r.mesh st.added_normal r.mesh.face 0 _ _ h5
  rw [hF] at e1 e2
  have hrange : r.ebo_data = List.range (3 * (face_records lines 3 + 2 * face_records lines 4)) := by
    rw [e1, List.range_eq_range']
  refine ⟨r, hr, hF, by rw [e2]; rfl, ?_, hrange, ?_, ?_⟩
  · intro v hv
    simp only [emitted_vertex, vertex_att, List.length_take, List.length_drop, e2]
    omega
  · intro k j hk hj
    rw [hrange, List.get?_eq_getElem?, List.getElem?_range (by omega)]
  · rw [h7, hF]
    simp [registersMesh, AddResource2, face_att, Nat.mul_comm]

/-- Witness of C17: the single triangle model, one `f` record with three
corner descriptors. -/
theorem mesh_buffers_counts_witness :
    (face_records single_triangle_lines 3 = 1 ∧ face_records single_triangle_lines 4 = 0) ∧
    ∃ r, LoadMesh exampleLib [] 1 2 "mesh" "mesh.obj" (some single_triangle_lines) = .ok r ∧
      r.mesh.face.length = 1 ∧ r.vbo_data.length = 33 ∧ r.ebo_data = [0, 1, 2] ∧
      registersMesh [] r.registry "mesh" 1 2 3 := by
  have hc : face_records single_triangle_lines 3 = 1 ∧
      face_records single_triangle_lines 4 = 0 := by decide
  obtain ⟨r, h1, h2, h3, -, h5, -, h7⟩ :=
    mesh_buffers_counts exampleLib [] 1 2 "mesh" "mesh.obj" single_triangle_lines _
      (single_triangle_parse exampleLib (by decide) (by decide) (by decide) (by decide)
        rfl rfl rfl)
      rfl
      (by
        intro f hf j hj
        rw [List.mem_singleton.1 hf]
        have hj3 : j = 0 ∨ j = 1 ∨ j = 2 := by omega
        rcases hj3 with rfl | rfl | rfl <;>
          exact ⟨fun h => absurd h (by decide), fun h => by cases h⟩)
  rw [hc.1, hc.2] at h2 h3 h5 h7
  exact ⟨hc, r, h1, h2, h3, h5, h7⟩

/-! ## A model with explicit normals -/

theorem explicit_normal_parse :
    parse_lines exampleLib initial_state explicit_normal_lines =
      .ok { mesh := explicit_normal_mesh, added_normal := true } := by
  obtain ⟨s1, s2, s3, -, o1, o2, o3⟩ := split_single_triangle_lines
  have s4 : string_split "vt 1 0".toList part_separator = [['v', 't'], ['1'], ['0']] := by
    decide
  have s5 : string_split "vn 1 0 0".toList part_separator =
      [['v', 'n'], ['1'], ['0'], ['0']] := by decide
  have s6 : string_split "f 1/1/1 2//1 3".toList part_separator =
      [['f'], ['1', '/', '1', '/', '1'], ['2', '/', '/', '1'], ['3']] := by decide
  have q1 : string_split_once ['1', '/', '1', '/', '1'] face_separator =
      [['1'], ['1'], ['1']] := by decide
  have q2 : string_split_once ['2', '/', '/', '1'] face_separator = [['2'], [], ['1']] := by
    decide
  have n0 := exampleLib_str_to_num ['0'] 0 (by decide)
  have n1 := exampleLib_str_to_num ['1'] 1 (by decide)
  have i1 := exampleLib_index_of ['1'] 0 (by decide)
  have i2 := exampleLib_index_of ['2'] 1 (by decide)
  have i3 := exampleLib_index_of ['3'] 2 (by decide)
  have c1 : decode_corner exampleLib face_corner_what ['1', '/', '1', '/', '1'] =
      .ok { i := 0, t := 0, n := 0 } := by
    simp [decode_corner, q1, i1, ok_bind, pure_eq_ok]
  have c2 : decode_corner exampleLib face_corner_what ['2', '/', '/', '1'] =
      .ok { i := 1, t := -1, n := 0 } := by
    simp [decode_corner, q2, i1, i2, ok_bind, pure_eq_ok]
  have c3 : decode_corner exampleLib face_corner_what ['3'] =
      .ok { i := 2, t := -1, n := -1 } := by
    simp [decode_corner, o3, i3, ok_bind, pure_eq_ok]
  simp only [explicit_normal_lines, initial_state, parse_lines, parse_line, s1, s2, s3, s4, s5,
    s6]
  simp [n0, n1, ok_bind, pure_eq_ok, c1, c2, c3, Face.ofCorners, explicit_normal_mesh]

/-- The model `explicit_normal_lines` loaded with the example instance. -/
theorem explicit_normal_loaded :
    LoadMesh exampleLib [] 1 2 "mesh" "mesh.obj" (some explicit_normal_lines) =
      .ok { mesh := explicit_normal_mesh, added_normal := true, degree := [1, 1, 1],
            vbo_data := [0, 0, 0, 1, 0, 0, 0, 0, 0, 1, 0,
                         1, 0, 0, 1, 0, 0, 0, 0, 0, 0, 0,
                         0, 1, 0, 0, 0, 0, 0, 0, 0, 0, 0],
            ebo_data := [0, 1, 2],
            registry := [{ type := ResourceType.Mesh, name := "mesh", resource := 1,
                           element_array_buffer := 2, size := 3 }] } := by
  have hm : materialize explicit_normal_mesh true explicit_normal_mesh.face 0 =
      .ok ([0, 0, 0, 1, 0, 0, 0, 0, 0, 1, 0,
            1, 0, 0, 1, 0, 0, 0, 0, 0, 0, 0,
            0, 1, 0, 0, 0, 0, 0, 0, 0, 0, 0], [0, 1, 2]) := by
    have t0 : subscript [(⟨1, 0⟩ : vec2 ℚ)] 0 = .ok ⟨1, 0⟩ := rfl
    have m0 : subscript [(⟨1, 0, 0⟩ : vec3 ℚ)] 0 = .ok ⟨1, 0, 0⟩ := rfl
    simp [materialize, face_attributes, corner_attributes, face_indices, vec3.get,
      explicit_normal_mesh, subscript_three, t0, m0, ok_bind, pure_eq_ok]
  exact LoadMesh_of_stages exampleLib [] 1 2 "mesh" "mesh.obj" explicit_normal_lines
    { mesh := explicit_normal_mesh, added_normal := true } [1, 1, 1] explicit_normal_mesh _ _
    explicit_normal_parse rfl rfl rfl hm

/-! ## C19 -/

/-- The vertices a returned call of `LoadMesh` has emitted: vertex `3k+j` holds
the attributes of corner `j` of face `k`. -/
theorem LoadMesh_vertex (lib : FloatLib) (resource_ : Registry) (vbo ebo : Nat)
    (name filename : String) (lines : List (List Char)) (r : LoadedMesh)
    (h : LoadMesh lib resource_ vbo ebo name filename (some lines) = .ok r)
    (k j : Nat) (hk : k < r.mesh.face.length) (hj : j < 3) :
    ∃ f, r.mesh.face.get? k = some f ∧
      corner_attributes r.mesh r.added_normal f j =
        .ok (emitted_vertex r.vbo_data (3 * k + j)) := by
  obtain ⟨st, -, -, -, -, h5, h6, -⟩ :=
    LoadMesh_ok_cases lib resource_ vbo ebo name filename lines r h
  rw [← h6] at h5
  exact (materialize_spec r.mesh r.added_normal r.mesh.face 0 _ _ h5).2.2 k j hk hj

theorem LoadMesh_indices (lib : FloatLib) (resource_ : Registry) (vbo ebo : Nat)
    (name filename : String) (lines : List (List Char)) (r : LoadedMesh)
    (h : LoadMesh lib resource_ vbo ebo name filename (some lines) = .ok r) :
    r.ebo_data = List.range (3 * r.mesh.face.length) := by
  obtain ⟨st, -, -, -, -, h5, -, -⟩ :=
    LoadMesh_ok_cases lib resource_ vbo ebo name filename lines r h
  rw [(materialize_spec r.mesh st.added_normal r.mesh.face 0 _ _ h5).1, List.range_eq_range']

/-- C19: when `LoadMesh` returns, vertex `3k+j` of the vertex buffer has in
attributes 0..2 the position `position[face.i[j]]` of corner `j` of face `k`,
in attributes 6..8 zeros, and in attributes 9..10 the texture coordinate
`tex_coord[face.t[j]]` when `face.t[j] >= 0` and zeros otherwise. The index
buffer refers to vertex `3k+j` in slot `3k+j` and in no other slot: no vertex
is used by two faces. -/
theorem vertex_attributes_copied (lib : FloatLib) (resource_ : Registry) (vbo ebo : Nat)
    (name filename : String) (lines : List (List Char)) (r : LoadedMesh)
    (h : LoadMesh lib resource_ vbo ebo name filename (some lines) = .ok r)
    (k j : Nat) (hk : k < r.mesh.face.length) (hj : j < 3) :
    ∃ (f : Face) (p : vec3 ℚ), r.mesh.face.get? k = some f ∧
      subscript r.mesh.position (f.i.get j) = .ok p ∧
      (emitted_vertex r.vbo_data (3 * k + j)).take 3 = [p.x, p.y, p.z] ∧
      ((emitted_vertex r.vbo_data (3 * k + j)).drop 6).take 3 = [0, 0, 0] ∧
      (0 ≤ f.t.get j → ∃ t : vec2 ℚ, subscript r.mesh.tex_coord (f.t.get j) = .ok t ∧
        (emitted_vertex r.vbo_data (3 * k + j)).drop 9 = [t.x, t.y]) ∧
      (f.t.get j < 0 → (emitted_vertex r.vbo_data (3 * k + j)).drop 9 = [0, 0]) ∧
      r.ebo_data.get? (3 * k + j) = some (3 * k + j) ∧
      ∀ s, r.ebo_data.get? s = some (3 * k + j) → s = 3 * k + j := by
  obtain ⟨f, hf, hc⟩ := LoadMesh_vertex lib resource_ vbo ebo name filename lines r h k j hk hj
  obtain ⟨p, n, t, hp, -, -, -, ht1, ht2, ha⟩ := corner_attributes_cases _ _ _ _ _ hc
  have he := LoadMesh_indices lib resource_ vbo ebo name filename lines r h
  refine ⟨f, p, hf, hp, by rw [ha]; rfl, by rw [ha]; rfl, ?_, ?_, ?_, ?_⟩
  · intro h0
    exact ⟨t, ht1 h0, by rw [ha]; rfl⟩
  · intro h0
    rw [ha, ht2 h0]
    rfl
  · rw [he, List.get?_eq_getElem?, List.getElem?_range (by omega)]
  · intro s hs
    rw [he, List.get?_eq_getElem?] at hs
    have hlt : s < 3 * r.mesh.face.length := by
      by_contra hge
      rw [List.getElem?_eq_none (by simpa using Nat.le_of_not_lt hge)] at hs
      cases hs
    rw [List.getElem?_range hlt] at hs
    exact Option.some.inj hs

/-- Witness of C19: the first and the third vertex of the model with explicit
normals; the first corner has a texture coordinate index, the third has none. -/
theorem vertex_attributes_copied_witness :
    ∃ r, LoadMesh exampleLib [] 1 2 "mesh" "mesh.obj" (some explicit_normal_lines) = .ok r ∧
      (emitted_vertex r.vbo_data 0).take 3 = [0, 0, 0] ∧
      (emitted_vertex r.vbo_data 0).drop 9 = [1, 0] ∧
      (emitted_vertex r.vbo_data 2).take 3 = [0, 1, 0] ∧
      (emitted_vertex r.vbo_data 2).drop 9 = [0, 0] ∧
      r.ebo_data.get? 2 = some 2 := by
  refine ⟨_, explicit_normal_loaded, ?_⟩
  obtain ⟨f, p, hf, hp, h1, -, h3, -, -, -⟩ :=
    vertex_attributes_copied exampleLib [] 1 2 "mesh" "mesh.obj" explicit_normal_lines _
      explicit_normal_loaded 0 0 (by decide) (by decide)
  obtain ⟨g, q, hg, hq, g1, -, -, g4, g5, -⟩ :=
    vertex_attributes_copied exampleLib [] 1 2 "mesh" "mesh.obj" explicit_normal_lines _
      explicit_normal_loaded 0 2 (by decide) (by decide)
  cases hf
  cases hg
  cases hp
  cases hq
  obtain ⟨t, ht, h3⟩ := h3 (by decide)
  cases ht
  exact ⟨h1, h3, g1, g4 (by decide), g5⟩

/-! ## C16 -/

/-- A `vn` record that is read without an exception declares a normal. -/
theorem parse_line_ok_vn (lib : FloatLib) (st st1 : ParseState) (line : List Char)
    (h : parse_line lib st line = .ok st1) (hv : is_vn line = true) :
    ∃ v, vn_record lib line = some v := by
  have hn : (string_split line part_separator).getD 0 [] = ['v', 'n'] := by
    simpa [is_vn] using hv
  have hline := record_line line ['v', 'n'] (by simp) (by simp) hn
  unfold parse_line at h
  dsimp only at h
  unfold vn_record
  dsimp only
  generalize string_split line part_separator = part at h hn ⊢
  generalize part.getD 0 [] = tok at h hn ⊢
  generalize part.getD 1 [] = p1 at h ⊢
  generalize part.getD 2 [] = p2 at h ⊢
  generalize part.getD 3 [] = p3 at h ⊢
  subst hn
  rw [if_neg hline, if_neg (by decide), if_pos rfl] at h
  split_ifs at h with hlen
  obtain ⟨x, hx, h⟩ := bind_ok_cases h
  obtain ⟨y, hy, h⟩ := bind_ok_cases h
  obtain ⟨z, hz, h⟩ := bind_ok_cases h
  have rx := str_to_num_ok lib _ _ hx
  have ry := str_to_num_ok lib _ _ hy
  have rz := str_to_num_ok lib _ _ hz
  refine ⟨⟨x, y, z⟩, ?_⟩
  simp [hlen, rx, ry, rz]

theorem parse_lines_ok_vn (lib : FloatLib) (lines : List (List Char)) :
    ∀ st st1 : ParseState, parse_lines lib st lines = .ok st1 →
      ∀ l, l ∈ lines → is_vn l = true → ∃ v, vn_record lib l = some v := by
  induction lines with
  | nil => intro st st1 _ l hl; cases hl
  | cons a rest ih =>
    intro st st1 h l hl hv
    simp only [parse_lines] at h
    obtain ⟨st2, h2, h⟩ := bind_ok_cases h
    rcases List.mem_cons.1 hl with rfl | hl
    · exact parse_line_ok_vn lib st st2 l h2 hv
    · exact ih st2 st1 h l hl hv

/-- C16: when `LoadMesh` returns on a file with at least one `vn` record, the
flag `added_normal` is set, the block that computes normals leaves the mesh as
it was read, the normal list is the list of the normals the `vn` records
declare, in file order and one per `vn` record, and every vertex of the vertex
buffer whose corner has no normal index (`face.n[j] < 0`) has the normal
`(0,0,0)` in attributes 3..5. -/
theorem explicit_normals_suppress_synthesis (lib : FloatLib) (resource_ : Registry)
    (vbo ebo : Nat) (name filename : String) (lines : List (List Char)) (r : LoadedMesh)
    (h : LoadMesh lib resource_ vbo ebo name filename (some lines) = .ok r)
    (hvn : ∃ l, l ∈ lines ∧ is_vn l = true) :
    r.added_normal = true ∧
    (∃ st, parse_lines lib initial_state lines = .ok st ∧ r.mesh = st.mesh) ∧
    r.mesh.normal = lines.filterMap (vn_record lib) ∧
    (∀ l, l ∈ lines → is_vn l = true → ∃ v, vn_record lib l = some v) ∧
    ∀ k j f, r.mesh.face.get? k = some f → j < 3 → f.n.get j < 0 →
      ((emitted_vertex r.vbo_data (3 * k + j)).drop 3).take 3 = [0, 0, 0] := by
  obtain ⟨st, h1, -, -, h4, -, h6, -⟩ :=
    LoadMesh_ok_cases lib resource_ vbo ebo name filename lines r h
  obtain ⟨-, e2, e3⟩ := parse_lines_effect lib lines initial_state st h1
  have hadd : st.added_normal = true := by
    rw [e3]
    obtain ⟨l, hl, hv⟩ := hvn
    simp only [initial_state, Bool.false_or, List.any_eq_true]
    exact ⟨l, hl, hv⟩
  have hmesh : r.mesh = st.mesh := (compute_normals_explicit lib st r.degree r.mesh h4).2 hadd
  refine ⟨by rw [h6, hadd], ⟨st, h1, hmesh⟩, ?_, parse_lines_ok_vn lib lines _ _ h1, ?_⟩
  · rw [hmesh, e2]
    simp [initial_state]
  · intro k j f hf hj hneg
    have hk : k < r.mesh.face.length := by
      by_contra hge
      rw [List.get?_eq_none.2 (Nat.le_of_not_lt hge)] at hf
      cases hf
    obtain ⟨g, hg, hc⟩ := LoadMesh_vertex lib resource_ vbo ebo name filename lines r h k j hk hj
    rw [hf] at hg
    cases hg
    obtain ⟨p, n, t, -, -, -, hn, -, -, ha⟩ := corner_attributes_cases _ _ _ _ _ hc
    rw [ha, hn (by rw [h6, hadd]) hneg]
    rfl

/-- Witness of C16: the model with one `vn` record whose third corner has no
normal index. -/
theorem explicit_normals_suppress_synthesis_witness :
    (∃ l, l ∈ explicit_normal_lines ∧ is_vn l = true) ∧
    ∃ r, LoadMesh exampleLib [] 1 2 "mesh" "mesh.obj" (some explicit_normal_lines) = .ok r ∧
      r.added_normal = true ∧ r.mesh.normal = [⟨1, 0, 0⟩] ∧
      explicit_normal_lines.filterMap (vn_record exampleLib) = [⟨1, 0, 0⟩] ∧
      ((emitted_vertex r.vbo_data 2).drop 3).take 3 = [0, 0, 0] := by
  have hv : ∃ l, l ∈ explicit_normal_lines ∧ is_vn l = true :=
    ⟨"vn 1 0 0".toList, by simp [explicit_normal_lines], by decide⟩
  obtain ⟨h1, -, h3, -, h5⟩ :=
    explicit_normals_suppress_synthesis exampleLib [] 1 2 "mesh" "mesh.obj"
      explicit_normal_lines _ explicit_normal_loaded hv
  exact ⟨hv, _, explicit_normal_loaded, h1, rfl, h3.symm.trans rfl,
    h5 0 2 _ rfl (by decide) (by decide)⟩

/-! ## C18 -/

/-- Without explicit normals the normal list is the result of the two loops of
the normal computation. -/
theorem compute_normals_synthesized (lib : FloatLib) (st : ParseState) (degree : List Nat)
    (mesh : TriMesh) (h : compute_normals lib st degree = .ok mesh)
    (hadd : st.added_normal = false) :
    ∃ acc, st.mesh.face.foldlM (add_face_normal lib st.mesh.position)
        (List.replicate st.mesh.position.length ⟨0, 0, 0⟩) = .ok acc ∧
      average_normals lib acc degree = .ok mesh.normal := by
  unfold compute_normals at h
  simp only [hadd, Bool.not_false, if_true] at h
  obtain ⟨n1, h1, h⟩ := bind_ok_cases h
  obtain ⟨n2, h2, h⟩ := bind_ok_cases h
  cases h
  exact ⟨n1, h1, h2⟩

/-- The normals the two loops compute for the triangle (0,0,0), (1,0,0),
(0,1,0), whatever normal and texture coordinate indices its corners carry. -/
theorem unit_triangle_synthesized (n t : vec3 Int) :
    ∃ acc, [({ i := ⟨0, 1, 2⟩, n := n, t := t } : Face)].foldlM
        (add_face_normal exampleLib [⟨0, 0, 0⟩, ⟨1, 0, 0⟩, ⟨0, 1, 0⟩])
        (List.replicate 3 ⟨0, 0, 0⟩) = .ok acc ∧
      average_normals exampleLib acc [1, 1, 1] =
        .ok [⟨0, 0, 1⟩, ⟨0, 0, 1⟩, ⟨0, 0, 1⟩] := by
  have f0 : exampleLib.fl 0 = 0 := rfl
  have f1 : exampleLib.fl 1 = 1 := rfl
  have fm1 : exampleLib.fl (-1) = -1 := rfl
  have hsq : exampleLib.inversesqrt 1 = 1 := by
    simp [exampleLib, show Rat.sqrt 1 = 1 by decide]
  have e01 : exampleLib.fl (0 - 1) = -1 := by norm_num [fm1]
  have hn : normalize exampleLib (cross exampleLib (vec3_sub exampleLib ⟨0, 0, 0⟩ ⟨1, 0, 0⟩)
      (vec3_sub exampleLib ⟨0, 0, 0⟩ ⟨0, 1, 0⟩)) = ⟨0, 0, 1⟩ := by
    simp [vec3_sub, cross, dot, normalize, f0, f1, fm1, e01, hsq]
  have ha : vec3_add exampleLib ⟨0, 0, 0⟩ ⟨0, 0, 1⟩ = ⟨0, 0, 1⟩ := by
    simp [vec3_add, f0, f1]
  have hd : vec3_div exampleLib ⟨0, 0, 1⟩ 1 = ⟨0, 0, 1⟩ := by
    simp [vec3_div, f0, f1]
  have hface : add_face_normal exampleLib [⟨0, 0, 0⟩, ⟨1, 0, 0⟩, ⟨0, 1, 0⟩]
      [⟨0, 0, 0⟩, ⟨0, 0, 0⟩, ⟨0, 0, 0⟩] { i := ⟨0, 1, 2⟩, n := n, t := t } =
      .ok [⟨0, 0, 1⟩, ⟨0, 0, 1⟩, ⟨0, 0, 1⟩] := by
    unfold add_face_normal
    simp only [vec3.get, subscript_three, update_three, ok_bind, hn, ha]
  have havg : average_normals exampleLib [⟨0, 0, 1⟩, ⟨0, 0, 1⟩, ⟨0, 0, 1⟩] [1, 1, 1] =
      .ok [⟨0, 0, 1⟩, ⟨0, 0, 1⟩, ⟨0, 0, 1⟩] := by
    have r3 : List.range 3 = [0, 1, 2] := rfl
    unfold average_normals
    simp only [List.length_cons, List.length_nil, Nat.zero_add, Nat.reduceAdd, r3,
      List.foldlM_cons, List.foldlM_nil, Nat.cast_ofNat, Nat.cast_zero, Nat.cast_one,
      subscript_three, update_three, ok_bind, pure_eq_ok, gt_iff_lt, Nat.lt_one_iff,
      Nat.zero_lt_one, if_true, hd]
  have hrep : List.replicate 3 (⟨0, 0, 0⟩ : vec3 ℚ) = [⟨0, 0, 0⟩, ⟨0, 0, 0⟩, ⟨0, 0, 0⟩] := rfl
  refine ⟨[⟨0, 0, 1⟩, ⟨0, 0, 1⟩, ⟨0, 0, 1⟩], ?_, havg⟩
  rw [hrep, List.foldlM_cons, hface, ok_bind, List.foldlM_nil]
  rfl

/-- C18, amended: when `LoadMesh` returns, attributes 3..5 of vertex `3k+j` are
the explicit normal `normal[face.n[j]]` when the file has a `vn` record and the
corner has a normal index, `(0,0,0)` when the file has a `vn` record and the
corner has no normal index, and, when the file has no `vn` record, the normal
`normal[face.i[j]]` of the list the two loops of the normal computation
produce, whether or not the corner has a normal index. -/
theorem emitted_normal_source (lib : FloatLib) (resource_ : Registry)
    (vbo ebo : Nat) (name filename : String) (lines : List (List Char)) (r : LoadedMesh)
    (h : LoadMesh lib resource_ vbo ebo name filename (some lines) = .ok r)
    (k j : Nat) (hk : k < r.mesh.face.length) (hj : j < 3) :
    ∃ f, r.mesh.face.get? k = some f ∧
      r.added_normal = lines.any is_vn ∧
      (lines.any is_vn = true → 0 ≤ f.n.get j →
        ∃ n, subscript (lines.filterMap (vn_record lib)) (f.n.get j) = .ok n ∧
          ((emitted_vertex r.vbo_data (3 * k + j)).drop 3).take 3 = [n.x, n.y, n.z]) ∧
      (lines.any is_vn = true → f.n.get j < 0 →
        ((emitted_vertex r.vbo_data (3 * k + j)).drop 3).take 3 = [0, 0, 0]) ∧
      (lines.any is_vn = false →
        (∃ st acc, parse_lines lib initial_state lines = .ok st ∧
          st.mesh.face.foldlM (add_face_normal lib st.mesh.position)
            (List.replicate st.mesh.position.length ⟨0, 0, 0⟩) = .ok acc ∧
          average_normals lib acc r.degree = .ok r.mesh.normal) ∧
        ∃ n, subscript r.mesh.normal (f.i.get j) = .ok n ∧
          ((emitted_vertex r.vbo_data (3 * k + j)).drop 3).take 3 = [n.x, n.y, n.z]) := by
  obtain ⟨st, h1, -, -, h4, -, h6, -⟩ :=
    LoadMesh_ok_cases lib resource_ vbo ebo name filename lines r h
  obtain ⟨-, e2, e3⟩ := parse_lines_effect lib lines initial_state st h1
  have hadd : r.added_normal = lines.any is_vn := by
    rw [h6, e3]
    simp [initial_state]
  obtain ⟨f, hf, hc⟩ := LoadMesh_vertex lib resource_ vbo ebo name filename lines r h k j hk hj
  obtain ⟨p, n, t, -, n0, n1, n2, -, -, ha⟩ := corner_attributes_cases _ _ _ _ _ hc
  refine ⟨f, hf, hadd, ?_, ?_, ?_⟩
  · intro hv hpos
    have hmesh : r.mesh = st.mesh :=
      (compute_normals_explicit lib st r.degree r.mesh h4).2 (by rw [← h6, hadd, hv])
    refine ⟨n, ?_, by rw [ha]; rfl⟩
    have := n1 (by rw [hadd, hv]) hpos
    rw [hmesh, e2] at this
    simpa [initial_state] using this
  · intro hv hneg
    rw [ha, n2 (by rw [hadd, hv]) hneg]
    rfl
  · intro hv
    have hst : st.added_normal = false := by rw [← h6, hadd, hv]
    obtain ⟨acc, a1, a2⟩ := compute_normals_synthesized lib st r.degree r.mesh h4 hst
    exact ⟨⟨st, acc, h1, a1, a2⟩, n, n0 (by rw [hadd, hv]), by rw [ha]; rfl⟩

/-- Witness of C18: the second and the third corner of the model with explicit
normals; the second has a normal index, the third has none. -/
theorem emitted_normal_source_witness :
    ∃ r, LoadMesh exampleLib [] 1 2 "mesh" "mesh.obj" (some explicit_normal_lines) = .ok r ∧
      r.added_normal = true ∧
      ((emitted_vertex r.vbo_data 1).drop 3).take 3 = [1, 0, 0] ∧
      ((emitted_vertex r.vbo_data 2).drop 3).take 3 = [0, 0, 0] := by
  have hv : explicit_normal_lines.any is_vn = true := by decide
  obtain ⟨f, hf, h1, -, -, -⟩ :=
    emitted_normal_source exampleLib [] 1 2 "mesh" "mesh.obj" explicit_normal_lines _
      explicit_normal_loaded 0 1 (by decide) (by decide)
  obtain ⟨g, hg, -, -, g3, -⟩ :=
    emitted_normal_source exampleLib [] 1 2 "mesh" "mesh.obj" explicit_normal_lines _
      explicit_normal_loaded 0 2 (by decide) (by decide)
  cases hf
  cases hg
  exact ⟨_, explicit_normal_loaded, h1.trans hv, rfl, g3 hv (by decide)⟩

/-- Counterexample to C18: in the model with the record `vn 1 0 0` and the face
`f 1/1/1 2//1 3` the third corner has no normal index. The normal of its vertex
is `(0,0,0)`, whereas the normal the two loops of the normal computation give
to its position is `(0,0,1)`. -/
theorem normal_neither_explicit_nor_synthesized :
    ∃ r, LoadMesh exampleLib [] 1 2 "mesh" "mesh.obj" (some explicit_normal_lines) = .ok r ∧
      r.mesh.face = [{ i := ⟨0, 1, 2⟩, n := ⟨0, 0, -1⟩, t := ⟨0, -1, -1⟩ }] ∧
      ((emitted_vertex r.vbo_data 2).drop 3).take 3 = [0, 0, 0] ∧
      ∃ acc normal, r.mesh.face.foldlM (add_face_normal exampleLib r.mesh.position)
          (List.replicate r.mesh.position.length ⟨0, 0, 0⟩) = .ok acc ∧
        average_normals exampleLib acc r.degree = .ok normal ∧
        normal.get? 2 = some ⟨0, 0, 1⟩ := by
  obtain ⟨acc, h1, h2⟩ := unit_triangle_synthesized ⟨0, 0, -1⟩ ⟨0, -1, -1⟩
  exact ⟨_, explicit_normal_loaded, rfl, rfl, acc, _, h1, h2, rfl⟩

/-! ## Accumulation loops -/

/-- The single triangle model loaded with the example instance. -/
theorem single_triangle_loaded :
    LoadMesh exampleLib [] 1 2 "mesh" "mesh.obj" (some single_triangle_lines) =
      .ok { mesh := { position := [⟨0, 0, 0⟩, ⟨1, 0, 0⟩, ⟨0, 1, 0⟩],
                      normal := [⟨0, 0, 1⟩, ⟨0, 0, 1⟩, ⟨0, 0, 1⟩], tex_coord := [],
                      face := [{ i := ⟨0, 1, 2⟩, n := ⟨-1, -1, -1⟩, t := ⟨-1, -1, -1⟩ }] },
            added_normal := false, degree := [1, 1, 1],
            vbo_data := [0, 0, 0, 0, 0, 1, 0, 0, 0, 0, 0,
                         1, 0, 0, 0, 0, 1, 0, 0, 0, 0, 0,
                         0, 1, 0, 0, 0, 1, 0, 0, 0, 0, 0],
            ebo_data := [0, 1, 2],
            registry := [{ type := ResourceType.Mesh, name := "mesh", resource := 1,
                           element_array_buffer := 2, size := 3 }] } :=
  LoadMesh_of_stages exampleLib [] 1 2 "mesh" "mesh.obj" single_triangle_lines _ _ _ _ _
    (single_triangle_parse exampleLib (by decide) (by decide) (by decide) (by decide)
      rfl rfl rfl)
    rfl rfl
    (single_triangle_normals exampleLib rfl rfl rfl
      (by simp [exampleLib, show Rat.sqrt 1 = 1 by decide]))
    single_triangle_buffers

theorem GetResource_loop_find (name : String) (l : List Resource) :
    ∀ pre : List Resource,
      (GetResource_loop name l pre.length).bind (fun i => (pre ++ l).get? i) =
        l.find? (fun r => decide (r.name = name)) := by
  induction l with
  | nil => intro pre; rfl
  | cons a l ih =>
    intro pre
    by_cases ha : a.name = name
    · simp [GetResource_loop, ha, List.find?_cons, List.getElem_append_right]
    · have h := ih (pre ++ [a])
      simp only [List.length_append, List.length_singleton, List.append_assoc,
        List.singleton_append] at h
      simp only [GetResource_loop, ha, if_false, List.find?_cons, decide_False]
      exact h

/-- The lookup is the first entry, in insertion order, with the name asked for. -/
theorem GetResource_find (resource_ : Registry) (name : String) :
    (GetResource resource_ name).1 = resource_.find? (fun r => decide (r.name = name)) := by
  have h := GetResource_loop_find name resource_ []
  simpa [GetResource] using h

theorem GetResource_append (resource_ : Registry) (new : Resource) (y : String) :
    (GetResource (resource_ ++ [new]) y).1 =
      match (GetResource resource_ y).1 with
      | some r => some r
      | none => if new.name = y then some new else none := by
  rw [GetResource_find, GetResource_find, List.find?_append]
  cases h : List.find? (fun r => decide (r.name = y)) resource_ with
  | some r => rfl
  | none =>
    by_cases hn : new.name = y
    · simp [List.find?_cons, hn]
    · simp [List.find?_cons, hn]

/-- C21: both overloads of `AddResource` append one entry behind the entries
that are there, which keep their order. After `AddResource(kind, x, ...)`,
`GetResource(x)` returns the new entry when no earlier entry is named `x`, and
otherwise returns what it returned before, an earlier entry; `GetResource(y)`
for `y != x` returns what it returned before. On the empty registry
`GetResource(x)` returns the added entry and every other name is absent. -/
theorem AddResource_then_GetResource (resource_ : Registry) (type : ResourceType)
    (x : String) (resource element_array_buffer size : Nat) :
    AddResource resource_ type x resource size =
      resource_ ++ [{ type := type, name := x, resource := resource,
                      element_array_buffer := 0, size := size }] ∧
    AddResource2 resource_ type x resource element_array_buffer size =
      resource_ ++ [{ type := type, name := x, resource := resource,
                      element_array_buffer := element_array_buffer, size := size }] ∧
    ((∀ r, r ∈ resource_ → r.name ≠ x) →
      (GetResource (AddResource resource_ type x resource size) x).1 =
        some { type := type, name := x, resource := resource,
               element_array_buffer := 0, size := size } ∧
      (GetResource (AddResource2 resource_ type x resource element_array_buffer size) x).1 =
        some { type := type, name := x, resource := resource,
               element_array_buffer := element_array_buffer, size := size }) ∧
    ((∃ r, r ∈ resource_ ∧ r.name = x) →
      ∃ k r, k < resource_.length ∧ resource_.get? k = some r ∧
        (GetResource resource_ x).1 = some r ∧
        (GetResource (AddResource resource_ type x resource size) x).1 = some r ∧
        (GetResource (AddResource2 resource_ type x resource element_array_buffer size) x).1 =
          some r) ∧
    (∀ y, y ≠ x →
      (GetResource (AddResource resource_ type x resource size) y).1 =
        (GetResource resource_ y).1 ∧
      (GetResource (AddResource2 resource_ type x resource element_array_buffer size) y).1 =
        (GetResource resource_ y).1) ∧
    (GetResource (AddResource [] type x resource size) x).1 =
      some { type := type, name := x, resource := resource,
             element_array_buffer := 0, size := size } ∧
    (∀ y, y ≠ x → (GetResource (AddResource [] type x resource size) y).1 = none ∧
      (GetResource (AddResource2 [] type x resource element_array_buffer size) y).1 = none) := by
  have key : ∀ (reg : Registry) (new : Resource), new.name = x →
      ((∀ r, r ∈ reg → r.name ≠ x) → (GetResource (reg ++ [new]) x).1 = some new) ∧
      (∀ r, (GetResource reg x).1 = some r → (GetResource (reg ++ [new]) x).1 = some r) ∧
      (∀ y, y ≠ x → (GetResource (reg ++ [new]) y).1 = (GetResource reg y).1) := by
    intro reg new hnew
    refine ⟨?_, ?_, ?_⟩
    · intro hno
      have hnone : (GetResource reg x).1 = none := by
        rw [GetResource_find, List.find?_eq_none]
        intro r hr
        simpa using hno r hr
      rw [GetResource_append, hnone]
      simp [hnew]
    · intro r hr
      rw [GetResource_append, hr]
    · intro y hy
      rw [GetResource_append]
      cases h : (GetResource reg y).1 with
      | some r => rfl
      | none =>
        have : ¬ new.name = y := by rw [hnew]; exact fun e => hy e.symm
        simp [this]
  refine ⟨rfl, rfl, ?_, ?_, ?_, ?_, ?_⟩
  · intro hno
    exact ⟨(key resource_ _ rfl).1 hno, (key resource_ _ rfl).1 hno⟩
  · rintro ⟨r0, hr0, hname⟩
    cases hg : (GetResource resource_ x).1 with
    | none =>
      rw [GetResource_find, List.find?_eq_none] at hg
      have := hg r0 hr0
      simp [hname] at this
    | some r =>
      have hfind := hg
      rw [GetResource_find] at hfind
      have hmem : r ∈ resource_ := List.mem_of_find?_eq_some hfind
      obtain ⟨k, hk, hget⟩ := List.getElem_of_mem hmem
      refine ⟨k, r, hk, ?_, rfl, (key resource_ _ rfl).2.1 r hg, (key resource_ _ rfl).2.1 r hg⟩
      rw [List.get?_eq_getElem?, List.getElem?_eq_getElem hk, hget]
  · intro y hy
    exact ⟨(key resource_ _ rfl).2.2 y hy, (key resource_ _ rfl).2.2 y hy⟩
  · exact (key [] _ rfl).1 (fun r hr => absurd hr (List.not_mem_nil r))
  · intro y hy
    exact ⟨(key [] _ rfl).2.2 y hy, (key [] _ rfl).2.2 y hy⟩

/-! ## C22 -/

/-- C22: `LoadResource` hands a `Material` to `LoadMaterial`, a `Texture` to
`LoadTexture` and a `Mesh` to `LoadMesh`, which differ in their first call
(opening the vertex shader file, `SOIL_load_OGL_texture`, opening the model
file). For a kind that is none of the three it throws
`std::invalid_argument("Invalid type of resource")` and leaves the world as it
was: no file is opened, no backend call is made and the registry is not
changed. -/
theorem LoadResource_dispatch (env : Environment) (w : World) (name filename : String) :
    LoadResource env w (some .Material) name filename = LoadMaterial env w name filename ∧
    LoadResource env w (some .Texture) name filename = LoadTexture env w name filename ∧
    LoadResource env w (some .Mesh) name filename = LoadMesh_call env w name filename ∧
    LoadResource env w none name filename =
      (.error (.invalid_argument "Invalid type of resource"), w) ∧
    (LoadResource env w none name filename).2.calls = w.calls ∧
    (LoadResource env w none name filename).2.resource_ = w.resource_ ∧
    (∃ rest, (LoadMaterial env w name filename).2.calls =
      w.calls ++ Call.ifstream_open (filename ++ env.VERTEX_PROGRAM_EXTENSION) :: rest) ∧
    (∃ rest, (LoadTexture env w name filename).2.calls =
      w.calls ++ Call.SOIL_load_OGL_texture filename :: rest) ∧
    (∃ rest, (LoadMesh_call env w name filename).2.calls =
      w.calls ++ Call.ifstream_open filename :: rest) := by
  refine ⟨rfl, rfl, rfl, rfl, rfl, rfl, ?_, ?_, ?_⟩
  · unfold LoadMaterial LoadTextFile
    cases env.file (filename ++ env.VERTEX_PROGRAM_EXTENSION) with
    | none => exact ⟨[], rfl⟩
    | some vp =>
      cases env.file (filename ++ env.FRAGMENT_PROGRAM_EXTENSION) with
      | none => exact ⟨_, by simp only [World.call, List.append_assoc, List.singleton_append, List.cons_append, List.nil_append]; rfl⟩
      | some fp =>
        dsimp only
        split_ifs <;> exact ⟨_, by simp only [World.call, List.append_assoc, List.singleton_append, List.cons_append, List.nil_append]; rfl⟩
  · unfold LoadTexture
    dsimp only
    split_ifs <;> exact ⟨_, by simp only [World.call, List.append_assoc, List.singleton_append, List.cons_append, List.nil_append]; rfl⟩
  · unfold LoadMesh_call
    cases LoadMesh env.lib w.resource_ env.vbo env.ebo name filename (env.file filename) with
    | error e => exact ⟨[], rfl⟩
    | ok r => exact ⟨_, rfl⟩

/-! ## C23 -/

/-- The text `LoadTextFile` returns for a file with the given lines. -/
theorem LoadTextFile_some (env : Environment) (w : World) (filename : String)
    (lines : List (List Char)) (h : env.file filename = some lines) :
    LoadTextFile env w filename =
      (.ok (lines.foldl (fun content line => content ++ (String.mk line ++ "\n")) ""),
       w.call [.ifstream_open filename]) := by
  simp only [LoadTextFile, h]

/-- `LoadMaterial` once both shader files are read. -/
theorem LoadMaterial_files (env : Environment) (w : World) (name prefix_ : String)
    (vp fp : List (List Char))
    (hvp : env.file (prefix_ ++ env.VERTEX_PROGRAM_EXTENSION) = some vp)
    (hfp : env.file (prefix_ ++ env.FRAGMENT_PROGRAM_EXTENSION) = some fp) :
    LoadMaterial env w name prefix_ =
      (let vsrc := vp.foldl (fun content line => content ++ (String.mk line ++ "\n")) ""
       let fsrc := fp.foldl (fun content line => content ++ (String.mk line ++ "\n")) ""
       let vs := env.glCreateShader .GL_VERTEX_SHADER
       let fs := env.glCreateShader .GL_FRAGMENT_SHADER
       let sp := env.glCreateProgram
       let c0 : List Call := [.ifstream_open (prefix_ ++ env.VERTEX_PROGRAM_EXTENSION),
         .ifstream_open (prefix_ ++ env.FRAGMENT_PROGRAM_EXTENSION),
         .glCreateShader .GL_VERTEX_SHADER, .glShaderSource vs vsrc, .glCompileShader vs,
         .glGetShaderiv vs]
       let c1 : List Call := [.glCreateShader .GL_FRAGMENT_SHADER, .glShaderSource fs fsrc,
         .glCompileShader fs, .glGetShaderiv fs]
       let c2 : List Call := [.glCreateProgram, .glAttachShader sp vs, .glAttachShader sp fs,
         .glLinkProgram sp, .glGetProgramiv sp]
       if env.compile_status vs = false then
         (.error (.failure ("Error compiling vertex shader: " ++ env.shader_info_log vs)),
          { resource_ := w.resource_, calls := w.calls ++ (c0 ++ [.glGetShaderInfoLog vs]) })
       else if env.compile_status fs = false then
         (.error (.failure ("Error compiling fragment shader: " ++ env.shader_info_log fs)),
          { resource_ := w.resource_,
            calls := w.calls ++ (c0 ++ c1 ++ [.glGetShaderInfoLog fs]) })
       else if env.link_status sp = false then
         (.error (.failure ("Error linking shaders: " ++ env.shader_info_log sp)),
          { resource_ := w.resource_,
            calls := w.calls ++ (c0 ++ c1 ++ c2 ++ [.glGetShaderInfoLog sp]) })
       else
         (.ok (), { resource_ := AddResource w.resource_ .Material name sp 0,
                    calls := w.calls ++
                      (c0 ++ c1 ++ c2 ++ [.glDeleteShader vs, .glDeleteShader fs]) })) := by
  unfold LoadMaterial
  rw [LoadTextFile_some env w _ vp hvp]
  dsimp only
  rw [LoadTextFile_some env _ _ fp hfp]
  dsimp only
  cases h1 : env.compile_status (env.glCreateShader .GL_VERTEX_SHADER) <;>
    cases h2 : env.compile_status (env.glCreateShader .GL_FRAGMENT_SHADER) <;>
    cases h3 : env.link_status env.glCreateProgram <;>
    simp [World.call]

/-- C23: once both shader files are read, a vertex shader whose compile status
is not `GL_TRUE` makes `LoadMaterial` throw "Error compiling vertex shader: "
followed by the info log of the vertex shader; the calls it has made are the
two file openings, the creation, source, compilation and status query of the
vertex shader and the query of its info log: no fragment shader is created or
compiled, no program is created and nothing is linked. When the vertex shader
compiles and the fragment shader does not, it throws "Error compiling fragment
shader: " followed by the info log of the fragment shader, and no program is
created or linked. -/
theorem compile_failure_stops (env : Environment) (w : World) (name prefix_ : String)
    (vp fp : List (List Char))
    (hvp : env.file (prefix_ ++ env.VERTEX_PROGRAM_EXTENSION) = some vp)
    (hfp : env.file (prefix_ ++ env.FRAGMENT_PROGRAM_EXTENSION) = some fp) :
    (env.compile_status (env.glCreateShader .GL_VERTEX_SHADER) = false →
      (LoadMaterial env w name prefix_).1 = .error (.failure
        ("Error compiling vertex shader: " ++
          env.shader_info_log (env.glCreateShader .GL_VERTEX_SHADER))) ∧
      ∃ made, (LoadMaterial env w name prefix_).2.calls = w.calls ++ made ∧
        made = [.ifstream_open (prefix_ ++ env.VERTEX_PROGRAM_EXTENSION),
          .ifstream_open (prefix_ ++ env.FRAGMENT_PROGRAM_EXTENSION),
          .glCreateShader .GL_VERTEX_SHADER,
          .glShaderSource (env.glCreateShader .GL_VERTEX_SHADER)
            (vp.foldl (fun content line => content ++ (String.mk line ++ "\n")) ""),
          .glCompileShader (env.glCreateShader .GL_VERTEX_SHADER),
          .glGetShaderiv (env.glCreateShader .GL_VERTEX_SHADER),
          .glGetShaderInfoLog (env.glCreateShader .GL_VERTEX_SHADER)] ∧
        Call.glCreateShader .GL_FRAGMENT_SHADER ∉ made ∧
        (∀ shader, Call.glCompileShader shader ∈ made →
          shader = env.glCreateShader .GL_VERTEX_SHADER) ∧
        Call.glCreateProgram ∉ made ∧
        (∀ program shader, Call.glAttachShader program shader ∉ made) ∧
        (∀ program, Call.glLinkProgram program ∉ made)) ∧
    (env.compile_status (env.glCreateShader .GL_VERTEX_SHADER) = true →
      env.compile_status (env.glCreateShader .GL_FRAGMENT_SHADER) = false →
      (LoadMaterial env w name prefix_).1 = .error (.failure
        ("Error compiling fragment shader: " ++
          env.shader_info_log (env.glCreateShader .GL_FRAGMENT_SHADER))) ∧
      ∃ made, (LoadMaterial env w name prefix_).2.calls = w.calls ++ made ∧
        made.getLast? = some (.glGetShaderInfoLog (env.glCreateShader .GL_FRAGMENT_SHADER)) ∧
        Call.glCreateProgram ∉ made ∧
        (∀ program shader, Call.glAttachShader program shader ∉ made) ∧
        (∀ program, Call.glLinkProgram program ∉ made)) := by
  have h := LoadMaterial_files env w name prefix_ vp fp hvp hfp
  dsimp only at h
  constructor
  · intro hv
    rw [h, if_pos hv]
    refine ⟨rfl, _, rfl, rfl, ?_, ?_, ?_, ?_, ?_⟩
    · simp
    · intro shader hs
      simpa using hs
    · simp
    · intro program shader; simp
    · intro program; simp
  · intro hv hf
    rw [h, if_neg (by rw [hv]; decide), if_pos hf]
    refine ⟨rfl, _, rfl, ?_, ?_, ?_, ?_⟩
    · simp
    · simp
    · intro program shader; simp
    · intro program; simp

/-- Witness of C23: the material `m` of the example environment, first with a
vertex shader that does not compile, then with a fragment shader that does
not compile. -/
theorem compile_failure_stops_witness :
    (LoadMaterial (exampleEnvironment false true true) ⟨[], []⟩ "mat" "m").1 =
      .error (.failure "Error compiling vertex shader: vertex diagnostic") ∧
    (LoadMaterial (exampleEnvironment false true true) ⟨[], []⟩ "mat" "m").2.calls =
      [.ifstream_open "m_vp.glsl", .ifstream_open "m_fp.glsl",
       .glCreateShader .GL_VERTEX_SHADER, .glShaderSource 1 "v\n", .glCompileShader 1,
       .glGetShaderiv 1, .glGetShaderInfoLog 1] ∧
    (LoadMaterial (exampleEnvironment true false true) ⟨[], []⟩ "mat" "m").1 =
      .error (.failure "Error compiling fragment shader: fragment diagnostic") := by
  have hv1 : (exampleEnvironment false true true).file
      ("m" ++ (exampleEnvironment false true true).VERTEX_PROGRAM_EXTENSION) =
      some ["v".toList] := by decide
  have hf1 : (exampleEnvironment false true true).file
      ("m" ++ (exampleEnvironment false true true).FRAGMENT_PROGRAM_EXTENSION) =
      some ["f".toList] := by decide
  have hv2 : (exampleEnvironment true false true).file
      ("m" ++ (exampleEnvironment true false true).VERTEX_PROGRAM_EXTENSION) =
      some ["v".toList] := by decide
  have hf2 : (exampleEnvironment true false true).file
      ("m" ++ (exampleEnvironment true false true).FRAGMENT_PROGRAM_EXTENSION) =
      some ["f".toList] := by decide
  obtain ⟨h1, -⟩ := compile_failure_stops (exampleEnvironment false true true) ⟨[], []⟩ "mat"
    "m" _ _ hv1 hf1
  obtain ⟨-, h2⟩ := compile_failure_stops (exampleEnvironment true false true) ⟨[], []⟩ "mat"
    "m" _ _ hv2 hf2
  obtain ⟨e1, made, c1, c2, -⟩ := h1 rfl
  obtain ⟨e2, -⟩ := h2 rfl rfl
  refine ⟨e1, ?_, e2⟩
  rw [c1, c2]
  decide

/-! ## C25 -/

/-- C25, the code when both shaders compile and the program does not link:
`LoadMaterial` queries `glGetShaderInfoLog` with the handle of the program and
never `glGetProgramInfoLog`, so the text behind "Error linking shaders: " is
what the shader query leaves in the buffer, not the info log of the program.
In the example environment the linker's diagnostic is "link diagnostic" and the
error carries no diagnostic text. -/
theorem link_failure_reads_shader_log :
    (∀ (env : Environment) (w : World) (name prefix_ : String) (vp fp : List (List Char)),
      env.file (prefix_ ++ env.VERTEX_PROGRAM_EXTENSION) = some vp →
      env.file (prefix_ ++ env.FRAGMENT_PROGRAM_EXTENSION) = some fp →
      env.compile_status (env.glCreateShader .GL_VERTEX_SHADER) = true →
      env.compile_status (env.glCreateShader .GL_FRAGMENT_SHADER) = true →
      env.link_status env.glCreateProgram = false →
      (LoadMaterial env w name prefix_).1 = .error (.failure
        ("Error linking shaders: " ++ env.shader_info_log env.glCreateProgram)) ∧
      ∃ made, (LoadMaterial env w name prefix_).2.calls = w.calls ++ made ∧
        made.getLast? = some (.glGetShaderInfoLog env.glCreateProgram) ∧
        ∀ program, Call.glGetProgramInfoLog program ∉ made) ∧
    (exampleEnvironment true true false).link_status
      (exampleEnvironment true true false).glCreateProgram = false ∧
    (exampleEnvironment true true false).program_info_log
      (exampleEnvironment true true false).glCreateProgram = "link diagnostic" ∧
    (LoadMaterial (exampleEnvironment true true false) ⟨[], []⟩ "mat" "m").1 =
      .error (.failure "Error linking shaders: ") ∧
    (LoadMaterial (exampleEnvironment true true false) ⟨[], []⟩ "mat" "m").2.calls =
      [.ifstream_open "m_vp.glsl", .ifstream_open "m_fp.glsl",
       .glCreateShader .GL_VERTEX_SHADER, .glShaderSource 1 "v\n", .glCompileShader 1,
       .glGetShaderiv 1,
       .glCreateShader .GL_FRAGMENT_SHADER, .glShaderSource 2 "f\n", .glCompileShader 2,
       .glGetShaderiv 2,
       .glCreateProgram, .glAttachShader 3 1, .glAttachShader 3 2, .glLinkProgram 3,
       .glGetProgramiv 3, .glGetShaderInfoLog 3] := by
  have general : ∀ (env : Environment) (w : World) (name prefix_ : String)
      (vp fp : List (List Char)),
      env.file (prefix_ ++ env.VERTEX_PROGRAM_EXTENSION) = some vp →
      env.file (prefix_ ++ env.FRAGMENT_PROGRAM_EXTENSION) = some fp →
      env.compile_status (env.glCreateShader .GL_VERTEX_SHADER) = true →
      env.compile_status (env.glCreateShader .GL_FRAGMENT_SHADER) = true →
      env.link_status env.glCreateProgram = false →
      (LoadMaterial env w name prefix_).1 = .error (.failure
        ("Error linking shaders: " ++ env.shader_info_log env.glCreateProgram)) ∧
      ∃ made, (LoadMaterial env w name prefix_).2.calls = w.calls ++ made ∧
        made.getLast? = some (.glGetShaderInfoLog env.glCreateProgram) ∧
        ∀ program, Call.glGetProgramInfoLog program ∉ made := by
    intro env w name prefix_ vp fp hvp hfp hv hf hl
    have h := LoadMaterial_files env w name prefix_ vp fp hvp hfp
    dsimp only at h
    rw [h, if_neg (by rw [hv]; decide), if_neg (by rw [hf]; decide), if_pos hl]
    refine ⟨rfl, _, rfl, by simp, ?_⟩
    intro program
    simp
  have hfiles := LoadMaterial_files (exampleEnvironment true true false) ⟨[], []⟩ "mat" "m"
    ["v".toList] ["f".toList] (by decide) (by decide)
  dsimp only at hfiles
  refine ⟨general, rfl, rfl, ?_, ?_⟩
  · rw [hfiles]
    rfl
  · rw [hfiles]
    decide

/-! ## C24 -/

theorem LoadTextFile_registry (env : Environment) (w : World) (filename : String) :
    (LoadTextFile env w filename).2.resource_ = w.resource_ := by
  unfold LoadTextFile
  cases env.file filename <;> rfl

/-- `LoadMaterial` changes the registry only when it returns, by one Material
resource. -/
theorem LoadMaterial_registry (env : Environment) (w : World) (name prefix_ : String) :
    (∀ e, (LoadMaterial env w name prefix_).1 = .error e →
      (LoadMaterial env w name prefix_).2.resource_ = w.resource_) ∧
    ((LoadMaterial env w name prefix_).1 = .ok () →
      ∃ r, (LoadMaterial env w name prefix_).2.resource_ = w.resource_ ++ [r] ∧
        r.name = name ∧ r.type = .Material) := by
  cases hvp : env.file (prefix_ ++ env.VERTEX_PROGRAM_EXTENSION) with
  | none =>
    have h : LoadMaterial env w name prefix_ =
        (.error (.failure ("Error opening file " ++
          (prefix_ ++ env.VERTEX_PROGRAM_EXTENSION))),
         w.call [.ifstream_open (prefix_ ++ env.VERTEX_PROGRAM_EXTENSION)]) := by
      simp only [LoadMaterial, LoadTextFile, hvp]
    rw [h]
    exact ⟨fun _ _ => rfl, fun hc => by cases hc⟩
  | some vp =>
    cases hfp : env.file (prefix_ ++ env.FRAGMENT_PROGRAM_EXTENSION) with
    | none =>
      have h : LoadMaterial env w name prefix_ =
          (.error (.failure ("Error opening file " ++
            (prefix_ ++ env.FRAGMENT_PROGRAM_EXTENSION))),
           (w.call [.ifstream_open (prefix_ ++ env.VERTEX_PROGRAM_EXTENSION)]).call
             [.ifstream_open (prefix_ ++ env.FRAGMENT_PROGRAM_EXTENSION)]) := by
        simp only [LoadMaterial, LoadTextFile, hvp, hfp]
      rw [h]
      exact ⟨fun _ _ => rfl, fun hc => by cases hc⟩
    | some fp =>
      have h := LoadMaterial_files env w name prefix_ vp fp hvp hfp
      dsimp only at h
      rw [h]
      split_ifs
      · exact ⟨fun _ _ => rfl, fun hc => by cases hc⟩
      · exact ⟨fun _ _ => rfl, fun hc => by cases hc⟩
      · exact ⟨fun _ _ => rfl, fun hc => by cases hc⟩
      · exact ⟨fun e hc => (by cases hc), fun _ => ⟨_, rfl, rfl, rfl⟩⟩

theorem LoadTexture_registry (env : Environment) (w : World) (name filename : String) :
    (∀ e, (LoadTexture env w name filename).1 = .error e →
      (LoadTexture env w name filename).2.resource_ = w.resource_) ∧
    ((LoadTexture env w name filename).1 = .ok () →
      ∃ r, (LoadTexture env w name filename).2.resource_ = w.resource_ ++ [r] ∧
        r.name = name ∧ r.type = .Texture) := by
  unfold LoadTexture
  dsimp only
  split_ifs
  · exact ⟨fun _ _ => rfl, fun hc => by cases hc⟩
  · exact ⟨fun e hc => (by cases hc), fun _ => ⟨_, rfl, rfl, rfl⟩⟩

theorem LoadMesh_call_registry (env : Environment) (w : World) (name filename : String) :
    (∀ e, (LoadMesh_call env w name filename).1 = .error e →
      (LoadMesh_call env w name filename).2.resource_ = w.resource_) ∧
    ((LoadMesh_call env w name filename).1 = .ok () →
      ∃ r, (LoadMesh_call env w name filename).2.resource_ = w.resource_ ++ [r] ∧
        r.name = name ∧ r.type = .Mesh) := by
  unfold LoadMesh_call
  cases hfile : env.file filename with
  | none =>
    have : LoadMesh env.lib w.resource_ env.vbo env.ebo name filename none =
        .error (.failure ("Error opening file " ++ filename)) := rfl
    rw [this]
    exact ⟨fun _ _ => rfl, fun hc => by cases hc⟩
  | some lines =>
    cases hl : LoadMesh env.lib w.resource_ env.vbo env.ebo name filename (some lines) with
    | error e => exact ⟨fun _ _ => rfl, fun hc => by cases hc⟩
    | ok r =>
      obtain ⟨st, -, -, -, -, -, -, hreg⟩ :=
        LoadMesh_ok_cases env.lib w.resource_ env.vbo env.ebo name filename lines r hl
      refine ⟨fun e hc => (by cases hc), fun _ =>
        ⟨{ type := .Mesh, name := name, resource := env.vbo,
           element_array_buffer := env.ebo, size := r.mesh.face.length * face_att },
         ?_, rfl, rfl⟩⟩
      dsimp only
      rw [hreg]
      rfl

theorem LoadCubeMap_loop_registry (env : Environment) (faces : List String) :
    ∀ (i : Nat) (w : World),
      (LoadCubeMap_loop env faces i w).2.resource_ = w.resource_ := by
  induction faces with
  | nil => intro i w; rfl
  | cons face rest ih =>
    intro i w
    unfold LoadCubeMap_loop
    dsimp only
    split_ifs
    · rw [ih]
      rfl
    · rfl

theorem LoadCubeMap_registry (env : Environment) (w : World) (name : String)
    (faces : List String) :
    (∀ e, (LoadCubeMap env w name faces).1 = .error e →
      (LoadCubeMap env w name faces).2.resource_ = w.resource_) ∧
    ((LoadCubeMap env w name faces).1 = .ok () →
      ∃ r, (LoadCubeMap env w name faces).2.resource_ = w.resource_ ++ [r] ∧
        r.name = name ∧ r.type = .Texture) := by
  have hreg := LoadCubeMap_loop_registry env faces 0
    (w.call [.glGenTextures, .glBindTexture env.glGenTextures])
  unfold LoadCubeMap
  dsimp only
  cases hl : LoadCubeMap_loop env faces 0
      (w.call [.glGenTextures, .glBindTexture env.glGenTextures]) with
  | mk res w2 =>
    rw [hl] at hreg
    cases res with
    | error e => exact ⟨fun _ _ => hreg, fun hc => by cases hc⟩
    | ok u =>
      refine ⟨fun e hc => (by cases hc), fun _ =>
        ⟨{ type := .Texture, name := name, resource := env.glGenTextures,
           element_array_buffer := 0, size := 0 }, ?_, rfl, rfl⟩⟩
      dsimp only [World.call, AddResource]
      dsimp only at hreg
      rw [hreg]
      rfl

/-- C24: when `LoadResource` with kind Material, Texture or Mesh, or
`LoadCubeMap`, throws, the registry after the call is the registry before it;
when it returns, exactly one resource has been appended, with the requested
name and with the kind asked for (Texture for a cube map). In the example
environment a cube map whose second face does not load leaves the registry
as it was although the first face has been uploaded, and the texture `a.png`
is appended to the registry. -/
theorem failing_load_keeps_registry (env : Environment) (w : World) (type : ResourceType)
    (name filename : String) (faces : List String) :
    (∀ e, (LoadResource env w (some type) name filename).1 = .error e →
      (∀ index, e ≠ .out_of_range index) →
      (LoadResource env w (some type) name filename).2.resource_ = w.resource_) ∧
    ((LoadResource env w (some type) name filename).1 = .ok () →
      ∃ r, (LoadResource env w (some type) name filename).2.resource_ = w.resource_ ++ [r] ∧
        r.name = name ∧ r.type = type) ∧
    (∀ e, (LoadCubeMap env w name faces).1 = .error e →
      (LoadCubeMap env w name faces).2.resource_ = w.resource_) ∧
    ((LoadCubeMap env w name faces).1 = .ok () →
      ∃ r, (LoadCubeMap env w name faces).2.resource_ = w.resource_ ++ [r] ∧
        r.name = name ∧ r.type = .Texture) ∧
    LoadCubeMap (exampleEnvironment true true true) ⟨[], []⟩ "sky" ["a.png", "b.png"] =
      (.error (.failure "Error loading cube map texture: b.png: Unable to open file"),
       ⟨[], [.glGenTextures, .glBindTexture 8, .SOIL_load_image "a.png", .glTexImage2D 0,
             .SOIL_free_image_data, .SOIL_load_image "b.png", .SOIL_last_result]⟩) ∧
    LoadResource (exampleEnvironment true true true) ⟨[], []⟩ (some .Mesh) "mesh" "no.obj" =
      (.error (.failure "Error opening file no.obj"), ⟨[], [.ifstream_open "no.obj"]⟩) ∧
    LoadResource (exampleEnvironment true true true) ⟨[], []⟩ (some .Texture) "tex" "a.png" =
      (.ok (),
       ⟨[{ type := .Texture, name := "tex", resource := 7, element_array_buffer := 0, size := 0 }],
        [.SOIL_load_OGL_texture "a.png"]⟩) := by
  refine ⟨?_, ?_, (LoadCubeMap_registry env w name faces).1,
    (LoadCubeMap_registry env w name faces).2, rfl, rfl, rfl⟩
  · intro e he _
    cases type with
    | Material => exact (LoadMaterial_registry env w name filename).1 e he
    | Texture => exact (LoadTexture_registry env w name filename).1 e he
    | Mesh => exact (LoadMesh_call_registry env w name filename).1 e he
  · intro he
    cases type with
    | Material => exact (LoadMaterial_registry env w name filename).2 he
    | Texture => exact (LoadTexture_registry env w name filename).2 he
    | Mesh => exact (LoadMesh_call_registry env w name filename).2 he

/-! ## C26 -/

theorem string_split_loop_length (sep s : List Char) :
    ∀ (skipping : Bool) (pre : List (List Char)) (tok : List Char),
      (string_split_loop sep s skipping (pre ++ [tok])).length =
        pre.length + 1 + separator_runs sep s skipping := by
  induction s with
  | nil => intro skipping pre tok; simp [string_split_loop, separator_runs]
  | cons c s ih =>
    intro skipping pre tok
    by_cases hc : is_separator sep c = true
    · cases skipping with
      | true =>
        rw [string_split_loop, if_pos hc, if_pos rfl, ih, separator_runs, if_pos hc, if_pos rfl]
        omega
      | false =>
        rw [string_split_loop, if_pos hc, if_neg (by decide), ih, separator_runs, if_pos hc,
          if_neg (by decide)]
        simp only [List.length_append, List.length_singleton]
        omega
    · rw [string_split_loop, if_neg hc, append_to_last_snoc, ih, separator_runs, if_neg hc]

theorem string_split_loop_clean (sep s : List Char) :
    ∀ (skipping : Bool) (out : List (List Char)), out ≠ [] →
      (∀ tok, tok ∈ out → ∀ c, c ∈ tok → is_separator sep c = false) →
      ∀ tok, tok ∈ string_split_loop sep s skipping out →
        ∀ c, c ∈ tok → is_separator sep c = false := by
  induction s with
  | nil => intro skipping out _ h; simpa [string_split_loop] using h
  | cons d s ih =>
    intro skipping out hne h
    by_cases hd : is_separator sep d = true
    · cases skipping with
      | true =>
        rw [string_split_loop, if_pos hd, if_pos rfl]
        exact ih true out hne h
      | false =>
        rw [string_split_loop, if_pos hd, if_neg (by decide)]
        apply ih true (out ++ [[]]) (by simp)
        intro tok htok c hc
        rcases List.mem_append.1 htok with h1 | h1
        · exact h tok h1 c hc
        · rw [List.mem_singleton.1 h1] at hc
          cases hc
    · rw [string_split_loop, if_neg hd]
      obtain ⟨pre, tok0, rfl⟩ : ∃ pre tok0, out = pre ++ [tok0] :=
        ⟨out.dropLast, out.getLast hne, (List.dropLast_append_getLast hne).symm⟩
      rw [append_to_last_snoc]
      apply ih false _ (by simp)
      intro tok htok c hc
      rcases List.mem_append.1 htok with h1 | h1
      · exact h tok (List.mem_append_left _ h1) c hc
      · rw [List.mem_singleton.1 h1] at hc
        rcases List.mem_append.1 hc with h2 | h2
        · exact h tok0 (List.mem_append_right _ (List.mem_singleton.2 rfl)) c h2
        · rw [List.mem_singleton.1 h2]
          simpa using hd

theorem string_split_loop_flatten (sep s : List Char) :
    ∀ (skipping : Bool) (pre : List (List Char)) (tok : List Char),
      (string_split_loop sep s skipping (pre ++ [tok])).flatten =
        (pre ++ [tok]).flatten ++ s.filter (fun c => !is_separator sep c) := by
  induction s with
  | nil => intro skipping pre tok; simp [string_split_loop]
  | cons c s ih =>
    intro skipping pre tok
    by_cases hc : is_separator sep c = true
    · cases skipping with
      | true =>
        rw [string_split_loop, if_pos hc, if_pos rfl, ih]
        simp [List.filter_cons, hc]
      | false =>
        rw [string_split_loop, if_pos hc, if_neg (by decide), ih]
        simp [List.filter_cons, hc]
    · rw [string_split_loop, if_neg hc, append_to_last_snoc, ih]
      simp [List.filter_cons, hc]

/-- Between the first and the last token no token is empty: a token is only
closed by a separator after it has received a character, except the first. -/
theorem string_split_loop_middle (sep s : List Char) :
    ∀ (skipping : Bool) (pre : List (List Char)) (tok : List Char),
      (∀ i, 0 < i → i + 1 < (pre ++ [tok]).length → (pre ++ [tok])[i]? ≠ some []) →
      (skipping = false → pre ≠ [] → tok ≠ []) →
      ∀ i, 0 < i → i + 1 < (string_split_loop sep s skipping (pre ++ [tok])).length →
        (string_split_loop sep s skipping (pre ++ [tok]))[i]? ≠ some [] := by
  induction s with
  | nil => intro skipping pre tok hmid _; simpa [string_split_loop] using hmid
  | cons c s ih =>
    intro skipping pre tok hmid hlast
    by_cases hc : is_separator sep c = true
    · cases skipping with
      | true =>
        rw [string_split_loop, if_pos hc, if_pos rfl]
        exact ih true pre tok hmid (fun h => by cases h)
      | false =>
        rw [string_split_loop, if_pos hc, if_neg (by decide)]
        apply ih true (pre ++ [tok]) [] _ (fun h => by cases h)
        intro i hi hlt
        simp only [List.length_append, List.length_singleton] at hlt
        have hi2 : i < (pre ++ [tok]).length := by
          simp only [List.length_append, List.length_singleton]; omega
        rw [List.getElem?_append_left hi2]
        by_cases hend : i + 1 < (pre ++ [tok]).length
        · exact hmid i hi hend
        · have hip : i = pre.length := by
            simp only [List.length_append, List.length_singleton] at hend; omega
          have hpre : pre ≠ [] := by
            intro e
            rw [e] at hip
            simp at hip
            omega
          rw [hip, List.getElem?_append_right (Nat.le_refl _)]
          simp only [Nat.sub_self, List.getElem?_cons_zero, ne_eq, Option.some.injEq]
          exact hlast rfl hpre
    · rw [string_split_loop, if_neg hc, append_to_last_snoc]
      apply ih false pre (tok ++ [c]) _ (fun _ _ => by simp)
      intro i hi hlt
      simp only [List.length_append, List.length_singleton] at hlt
      have hi2 : i < pre.length := by omega
      rw [List.getElem?_append_left hi2]
      have := hmid i hi (by simp only [List.length_append, List.length_singleton]; omega)
      rwa [List.getElem?_append_left hi2] at this

/-- A string that ends with a character that is no separator ends its last
token with it. -/
theorem string_split_loop_last (sep s : List Char) :
    s ≠ [] → (∀ c, s.getLast? = some c → is_separator sep c = false) →
    ∀ (skipping : Bool) (pre : List (List Char)) (tok : List Char),
      ∃ pre1 tok1, string_split_loop sep s skipping (pre ++ [tok]) = pre1 ++ [tok1] ∧
        tok1 ≠ [] := by
  induction s with
  | nil => intro h; exact absurd rfl h
  | cons c s ih =>
    intro _ hl skipping pre tok
    cases s with
    | nil =>
      have hc : is_separator sep c = false := hl c rfl
      rw [string_split_loop, hc, if_neg (by decide), append_to_last_snoc, string_split_loop]
      exact ⟨pre, tok ++ [c], rfl, by simp⟩
    | cons d s =>
      have hl2 : ∀ x, (d :: s).getLast? = some x → is_separator sep x = false := by
        intro x hx
        apply hl x
        rw [List.getLast?_cons_cons]
        exact hx
      have ih2 := ih (by simp) hl2
      by_cases hc : is_separator sep c = true
      · cases skipping with
        | true =>
          rw [string_split_loop, if_pos hc, if_pos rfl]
          exact ih2 true pre tok
        | false =>
          rw [string_split_loop, if_pos hc, if_neg (by decide)]
          exact ih2 true (pre ++ [tok]) []
      · rw [string_split_loop, if_neg hc, append_to_last_snoc]
        exact ih2 false pre (tok ++ [c])

/-- C26: for every string `s` and separator set `sep`, `string_split(s, sep)`
has one token more than `s` has maximal runs of separator characters; no token
contains a separator character; the tokens concatenated are `s` without its
separator characters; no token other than the first and the last is empty; and
when `s` is not empty and neither starts nor ends with a separator character,
no token is empty. -/
theorem string_split_tokens (s sep : List Char) :
    (string_split s sep).length = separator_runs sep s false + 1 ∧
    (∀ tok, tok ∈ string_split s sep → ∀ c, c ∈ tok → is_separator sep c = false) ∧
    (string_split s sep).flatten = s.filter (fun c => !is_separator sep c) ∧
    (∀ i, 0 < i → i + 1 < (string_split s sep).length → (string_split s sep)[i]? ≠ some []) ∧
    (s ≠ [] → (∀ c, s.head? = some c → is_separator sep c = false) →
      (∀ c, s.getLast? = some c → is_separator sep c = false) →
      ∀ tok, tok ∈ string_split s sep → tok ≠ []) := by
  have hlen := string_split_loop_length sep s false [] []
  have hmid := string_split_loop_middle sep s false [] []
    (fun i hi hlt => by simp at hlt) (fun _ h => absurd rfl h)
  simp only [List.nil_append] at hlen hmid
  refine ⟨?_, ?_, ?_, hmid, ?_⟩
  · unfold string_split
    rw [hlen]
    simp
    omega
  · unfold string_split
    apply string_split_loop_clean sep s false [[]] (by simp)
    intro tok htok c hc
    rw [List.mem_singleton.1 htok] at hc
    cases hc
  · unfold string_split
    have := string_split_loop_flatten sep s false [] []
    simpa using this
  · intro hne hfirst hlast tok htok
    obtain ⟨pre1, tok1, hsplit, htok1⟩ := string_split_loop_last sep s hne hlast false [] []
    simp only [List.nil_append] at hsplit
    have hhead : ∃ c t more, string_split s sep = (c :: t) :: more := by
      cases s with
      | nil => exact absurd rfl hne
      | cons c rest =>
        have hc : is_separator sep c = false := hfirst c rfl
        obtain ⟨t, more, e⟩ := string_split_loop_head sep c rest false [] []
        refine ⟨c, t, more, ?_⟩
        unfold string_split
        rw [string_split_loop, hc, if_neg (by decide)]
        exact e
    obtain ⟨c, t, more, hhd⟩ := hhead
    obtain ⟨i, hi, hget⟩ := List.getElem_of_mem htok
    intro hempty
    subst hempty
    have hget2 : (string_split s sep)[i]? = some [] := by
      rw [List.getElem?_eq_getElem hi, hget]
    by_cases h0 : i = 0
    · subst h0
      rw [hhd] at hget2
      simp at hget2
    · by_cases hend : i + 1 < (string_split s sep).length
      · exact hmid i (Nat.pos_of_ne_zero h0) hend hget2
      · unfold string_split at hget2 hi hend
        rw [hsplit] at hget2 hi hend
        simp only [List.length_append, List.length_singleton] at hi hend
        have hip : i = pre1.length := by omega
        rw [hip, List.getElem?_append_right (Nat.le_refl _)] at hget2
        simp only [Nat.sub_self, List.getElem?_cons_zero, Option.some.injEq] at hget2
        exact htok1 hget2

theorem separator_runs_example :
    separator_runs part_separator " a  b\tc ".toList false = 4 ∧
    string_split " a  b\tc ".toList part_separator = [[], ['a'], ['b'], ['c'], []] := by
  decide

/-! ## C27 -/

theorem string_split_once_loop_count (sep s : List Char) :
    ∀ (pre : List (List Char)) (tok : List Char),
      (string_split_once_loop sep s (pre ++ [tok])).length =
        pre.length + 1 + s.countP (is_separator sep) := by
  induction s with
  | nil => intro pre tok; simp [string_split_once_loop]
  | cons c s ih =>
    intro pre tok
    by_cases hc : is_separator sep c = true
    · rw [string_split_once_loop, if_pos hc, ih, List.countP_cons_of_pos _ _ hc]
      simp only [List.length_append, List.length_singleton]
      omega
    · rw [string_split_once_loop, if_neg hc, append_to_last_snoc, ih,
        List.countP_cons_of_neg _ _ hc]

theorem string_split_once_loop_clean (sep s : List Char) :
    ∀ (pre : List (List Char)) (tok0 : List Char),
      (∀ tok, tok ∈ pre ++ [tok0] → ∀ c, c ∈ tok → is_separator sep c = false) →
      ∀ tok, tok ∈ string_split_once_loop sep s (pre ++ [tok0]) →
        ∀ c, c ∈ tok → is_separator sep c = false := by
  induction s with
  | nil => intro pre tok0 h; simpa [string_split_once_loop] using h
  | cons d s ih =>
    intro pre tok0 h
    by_cases hd : is_separator sep d = true
    · rw [string_split_once_loop, if_pos hd]
      apply ih (pre ++ [tok0]) []
      intro tok htok c hc
      rcases List.mem_append.1 htok with h1 | h1
      · exact h tok h1 c hc
      · rw [List.mem_singleton.1 h1] at hc
        cases hc
    · rw [string_split_once_loop, if_neg hd, append_to_last_snoc]
      apply ih pre (tok0 ++ [d])
      intro tok htok c hc
      rcases List.mem_append.1 htok with h1 | h1
      · exact h tok (List.mem_append_left _ h1) c hc
      · rw [List.mem_singleton.1 h1] at hc
        rcases List.mem_append.1 hc with h2 | h2
        · exact h tok0 (List.mem_append_right _ (List.mem_singleton.2 rfl)) c h2
        · rw [List.mem_singleton.1 h2]
          simpa using hd

theorem join_with_snoc (c : Char) (pre : List (List Char)) (tok : List Char) :
    join_with c (pre ++ [tok]) = (pre.flatMap fun t => t ++ [c]) ++ tok := by
  induction pre with
  | nil => simp [join_with]
  | cons a pre ih =>
    cases pre with
    | nil => simp [join_with]
    | cons b pre =>
      change a ++ c :: join_with c ((b :: pre) ++ [tok]) = _
      rw [ih]
      simp [List.flatMap_cons]

theorem string_split_once_loop_join (c : Char) (s : List Char) :
    ∀ (pre : List (List Char)) (tok : List Char),
      join_with c (string_split_once_loop [c] s (pre ++ [tok])) =
        join_with c (pre ++ [tok]) ++ s := by
  induction s with
  | nil => intro pre tok; simp [string_split_once_loop]
  | cons d s ih =>
    intro pre tok
    by_cases hd : is_separator [c] d = true
    · have hdc : d = c := by simpa [is_separator] using hd
      rw [string_split_once_loop, if_pos hd, ih, join_with_snoc, join_with_snoc, hdc]
      simp [List.flatMap_append]
    · rw [string_split_once_loop, if_neg hd, append_to_last_snoc, ih, join_with_snoc,
        join_with_snoc]
      simp

/-- C27: for every string `s` and separator set `sep`,
`string_split_once(s, sep)` has one token more than `s` has separator
characters and no token contains a separator character; for a separator set
of one character the tokens joined with that character give back `s`; and
`1//3` is split at `/` into `1`, the empty token and `3`. -/
theorem string_split_once_tokens (s sep : List Char) (c : Char) :
    (string_split_once s sep).length = s.countP (is_separator sep) + 1 ∧
    (∀ tok, tok ∈ string_split_once s sep → ∀ d, d ∈ tok → is_separator sep d = false) ∧
    join_with c (string_split_once s [c]) = s ∧
    string_split_once "1//3".toList face_separator = ["1".toList, [], "3".toList] ∧
    join_with '/' ["1".toList, [], "3".toList] = "1//3".toList := by
  refine ⟨?_, ?_, ?_, by decide, by decide⟩
  · have := string_split_once_loop_count sep s [] []
    simp only [List.nil_append, List.length_nil] at this
    unfold string_split_once
    rw [this]
    omega
  · unfold string_split_once
    apply string_split_once_loop_clean sep s [] []
    intro tok htok d hd
    simp only [List.nil_append, List.mem_singleton] at htok
    rw [htok] at hd
    cases hd
  · have := string_split_once_loop_join c s [] []
    simpa [string_split_once, join_with] using this

/-! ## C28 -/

theorem dangling_texcoord_parse :
    parse_lines exampleLib initial_state dangling_texcoord_lines =
      .ok { mesh := { position := [⟨0, 0, 0⟩, ⟨1, 0, 0⟩, ⟨0, 1, 0⟩], normal := [],
                      tex_coord := [],
                      face := [{ i := ⟨0, 1, 2⟩, n := ⟨-1, -1, -1⟩, t := ⟨4, -1, -1⟩ }] },
            added_normal := false } := by
  obtain ⟨s1, s2, s3, -, o1, o2, o3⟩ := split_single_triangle_lines
  have s4 : string_split "f 1/5 2 3".toList part_separator =
      [['f'], ['1', '/', '5'], ['2'], ['3']] := by decide
  have q1 : string_split_once ['1', '/', '5'] face_separator = [['1'], ['5']] := by decide
  have n0 := exampleLib_str_to_num ['0'] 0 (by decide)
  have n1 := exampleLib_str_to_num ['1'] 1 (by decide)
  have i1 := exampleLib_index_of ['1'] 0 (by decide)
  have i2 := exampleLib_index_of ['2'] 1 (by decide)
  have i3 := exampleLib_index_of ['3'] 2 (by decide)
  have i5 := exampleLib_index_of ['5'] 4 (by decide)
  have c1 : decode_corner exampleLib face_corner_what ['1', '/', '5'] =
      .ok { i := 0, t := 4, n := -1 } := by
    simp [decode_corner, q1, i1, i5, ok_bind, pure_eq_ok]
  have c2 : decode_corner exampleLib face_corner_what ['2'] =
      .ok { i := 1, t := -1, n := -1 } := by
    simp [decode_corner, o2, i2, ok_bind, pure_eq_ok]
  have c3 : decode_corner exampleLib face_corner_what ['3'] =
      .ok { i := 2, t := -1, n := -1 } := by
    simp [decode_corner, o3, i3, ok_bind, pure_eq_ok]
  simp only [dangling_texcoord_lines, initial_state, parse_lines, parse_line, s1, s2, s3, s4]
  simp [n0, n1, ok_bind, pure_eq_ok, c1, c2, c3, Face.ofCorners]

theorem dangling_normal_parse :
    parse_lines exampleLib initial_state dangling_normal_lines =
      .ok { mesh := { position := [⟨0, 0, 0⟩, ⟨1, 0, 0⟩, ⟨0, 1, 0⟩], normal := [⟨1, 0, 0⟩],
                      tex_coord := [],
                      face := [{ i := ⟨0, 1, 2⟩, n := ⟨6, -1, -1⟩, t := ⟨-1, -1, -1⟩ }] },
            added_normal := true } := by
  obtain ⟨s1, s2, s3, -, o1, o2, o3⟩ := split_single_triangle_lines
  have s4 : string_split "vn 1 0 0".toList part_separator =
      [['v', 'n'], ['1'], ['0'], ['0']] := by decide
  have s5 : string_split "f 1//7 2 3".toList part_separator =
      [['f'], ['1', '/', '/', '7'], ['2'], ['3']] := by decide
  have q1 : string_split_once ['1', '/', '/', '7'] face_separator = [['1'], [], ['7']] := by
    decide
  have n0 := exampleLib_str_to_num ['0'] 0 (by decide)
  have n1 := exampleLib_str_to_num ['1'] 1 (by decide)
  have i1 := exampleLib_index_of ['1'] 0 (by decide)
  have i2 := exampleLib_index_of ['2'] 1 (by decide)
  have i3 := exampleLib_index_of ['3'] 2 (by decide)
  have i7 := exampleLib_index_of ['7'] 6 (by decide)
  have c1 : decode_corner exampleLib face_corner_what ['1', '/', '/', '7'] =
      .ok { i := 0, t := -1, n := 6 } := by
    simp [decode_corner, q1, i1, i7, ok_bind, pure_eq_ok]
  have c2 : decode_corner exampleLib face_corner_what ['2'] =
      .ok { i := 1, t := -1, n := -1 } := by
    simp [decode_corner, o2, i2, ok_bind, pure_eq_ok]
  have c3 : decode_corner exampleLib face_corner_what ['3'] =
      .ok { i := 2, t := -1, n := -1 } := by
    simp [decode_corner, o3, i3, ok_bind, pure_eq_ok]
  simp only [dangling_normal_lines, initial_state, parse_lines, parse_line, s1, s2, s3, s4, s5]
  simp [n0, n1, ok_bind, pure_eq_ok, c1, c2, c3, Face.ofCorners]

/-- C28, the code at two failing inputs. The model `v 0 0 0`, `v 1 0 0`,
`v 0 1 0`, `f 1/5 2 3` has no `vt` record; it is read without an exception and
passes the check of the position indices, and the materialisation loop then
subscripts the empty texture coordinate list at index 4. The model with the
one record `vn 1 0 0` and the face `f 1//7 2 3` passes likewise, and the loop
subscripts the normal list of length 1 at index 6. -/
theorem texcoord_normal_indices_unchecked :
    (∃ st, parse_lines exampleLib initial_state dangling_texcoord_lines = .ok st ∧
      check_faces st.mesh = .ok () ∧ st.mesh.tex_coord.length = 0 ∧
      st.mesh.face = [{ i := ⟨0, 1, 2⟩, n := ⟨-1, -1, -1⟩, t := ⟨4, -1, -1⟩ }]) ∧
    LoadMesh exampleLib [] 1 2 "mesh" "mesh.obj" (some dangling_texcoord_lines) =
      .error (.out_of_range 4) ∧
    (∃ st, parse_lines exampleLib initial_state dangling_normal_lines = .ok st ∧
      check_faces st.mesh = .ok () ∧ st.added_normal = true ∧ st.mesh.normal.length = 1 ∧
      st.mesh.face = [{ i := ⟨0, 1, 2⟩, n := ⟨6, -1, -1⟩, t := ⟨-1, -1, -1⟩ }]) ∧
    LoadMesh exampleLib [] 1 2 "mesh" "mesh.obj" (some dangling_normal_lines) =
      .error (.out_of_range 6) := by
  refine ⟨⟨_, dangling_texcoord_parse, rfl, rfl, rfl⟩, ?_,
    ⟨_, dangling_normal_parse, rfl, rfl, rfl, rfl⟩, ?_⟩
  · obtain ⟨acc, h1, h2⟩ := unit_triangle_synthesized ⟨-1, -1, -1⟩ ⟨4, -1, -1⟩
    have hcheck : check_faces
        { position := [⟨0, 0, 0⟩, ⟨1, 0, 0⟩, ⟨0, 1, 0⟩], normal := [], tex_coord := [],
          face := [{ i := ⟨0, 1, 2⟩, n := ⟨-1, -1, -1⟩, t := ⟨4, -1, -1⟩ }] } = .ok () := rfl
    have hdeg : compute_degree
        { position := [⟨0, 0, 0⟩, ⟨1, 0, 0⟩, ⟨0, 1, 0⟩], normal := [], tex_coord := [],
          face := [{ i := ⟨0, 1, 2⟩, n := ⟨-1, -1, -1⟩, t := ⟨4, -1, -1⟩ }] } =
        .ok [1, 1, 1] := rfl
    have hnorm : compute_normals exampleLib
        { mesh := { position := [⟨0, 0, 0⟩, ⟨1, 0, 0⟩, ⟨0, 1, 0⟩], normal := [],
                    tex_coord := [],
                    face := [{ i := ⟨0, 1, 2⟩, n := ⟨-1, -1, -1⟩, t := ⟨4, -1, -1⟩ }] },
          added_normal := false } [1, 1, 1] =
        .ok { position := [⟨0, 0, 0⟩, ⟨1, 0, 0⟩, ⟨0, 1, 0⟩],
              normal := [⟨0, 0, 1⟩, ⟨0, 0, 1⟩, ⟨0, 0, 1⟩], tex_coord := [],
              face := [{ i := ⟨0, 1, 2⟩, n := ⟨-1, -1, -1⟩, t := ⟨4, -1, -1⟩ }] } := by
      unfold compute_normals
      simp only [Bool.not_false, if_true, List.length_cons, List.length_nil, Nat.zero_add,
        Nat.reduceAdd]
      rw [h1, ok_bind, h2, ok_bind]
      rfl
    have hmat : materialize
        { position := [⟨0, 0, 0⟩, ⟨1, 0, 0⟩, ⟨0, 1, 0⟩],
          normal := [⟨0, 0, 1⟩, ⟨0, 0, 1⟩, ⟨0, 0, 1⟩], tex_coord := [],
          face := [{ i := ⟨0, 1, 2⟩, n := ⟨-1, -1, -1⟩, t := ⟨4, -1, -1⟩ }] } false
        [{ i := ⟨0, 1, 2⟩, n := ⟨-1, -1, -1⟩, t := ⟨4, -1, -1⟩ }] 0 =
        .error (.out_of_range 4) := by
      have t4 : subscript ([] : List (vec2 ℚ)) 4 = .error (.out_of_range 4) := rfl
      simp [materialize, face_attributes, corner_attributes, vec3.get, subscript_three, t4,
        ok_bind, error_bind, pure_eq_ok]
    unfold LoadMesh
    simp only [dangling_texcoord_parse, ok_bind, hcheck, hdeg, hnorm, hmat, error_bind]
  · have hmat : materialize
        { position := [⟨0, 0, 0⟩, ⟨1, 0, 0⟩, ⟨0, 1, 0⟩], normal := [⟨1, 0, 0⟩],
          tex_coord := [],
          face := [{ i := ⟨0, 1, 2⟩, n := ⟨6, -1, -1⟩, t := ⟨-1, -1, -1⟩ }] } true
        [{ i := ⟨0, 1, 2⟩, n := ⟨6, -1, -1⟩, t := ⟨-1, -1, -1⟩ }] 0 =
        .error (.out_of_range 6) := by
      have n6 : subscript [(⟨1, 0, 0⟩ : vec3 ℚ)] 6 = .error (.out_of_range 6) := rfl
      simp [materialize, face_attributes, corner_attributes, vec3.get, subscript_three, n6,
        ok_bind, error_bind, pure_eq_ok]
    have hcheck : check_faces
        { position := [⟨0, 0, 0⟩, ⟨1, 0, 0⟩, ⟨0, 1, 0⟩], normal := [⟨1, 0, 0⟩],
          tex_coord := [],
          face := [{ i := ⟨0, 1, 2⟩, n := ⟨6, -1, -1⟩, t := ⟨-1, -1, -1⟩ }] } = .ok () := rfl
    have hdeg : compute_degree
        { position := [⟨0, 0, 0⟩, ⟨1, 0, 0⟩, ⟨0, 1, 0⟩], normal := [⟨1, 0, 0⟩],
          tex_coord := [],
          face := [{ i := ⟨0, 1, 2⟩, n := ⟨6, -1, -1⟩, t := ⟨-1, -1, -1⟩ }] } =
        .ok [1, 1, 1] := rfl
    unfold LoadMesh
    simp only [dangling_normal_parse, ok_bind, hcheck, hdeg, compute_normals, Bool.not_true,
      Bool.false_eq_true, if_false, pure_eq_ok, hmat, error_bind]

/-! ## C29 -/

/-- C29, the code at the failing input `v_gridWidth = 3`, `v_gridLength = 2`:
six vertices are allocated, the index buffer holds the index 7 in the slots 8
and 9, and the vertex loop stores the attributes of grid point `(2,1)` at the
places `7*11 .. 7*11+10`, behind the 66 allocated places. With
`v_gridWidth = 2`, `v_gridLength = 3` every index and every place stored to is
in range. -/
theorem crater_indices_beyond_vertices {A : Type} (ops : FloatOps A) (heightMap : Nat → A)
    (gw gh : A) :
    (craterData ops heightMap gw gh 3 2).vertex_len = 3 * 2 * 11 ∧
    (craterData ops heightMap gw gh 3 2).face_len = 12 ∧
    (craterData ops heightMap gw gh 3 2).indexAt 8 = some 7 ∧
    (craterData ops heightMap gw gh 3 2).indexAt 9 = some 7 ∧
    ¬ 7 < 3 * 2 ∧
    (∃ a, (7 * 11 + 10, a) ∈ (craterData ops heightMap gw gh 3 2).vertex) ∧
    ¬ 7 * 11 + 10 < (craterData ops heightMap gw gh 3 2).vertex_len ∧
    (∀ s v, (s, v) ∈ (craterData ops heightMap gw gh 2 3).face → v < 2 * 3) ∧
    (∀ s a, (s, a) ∈ (craterData ops heightMap gw gh 2 3).vertex → s < 2 * 3 * 11) := by
  refine ⟨rfl, rfl, rfl, rfl, by decide, ?_, (by show ¬ (87 < 66); decide), ?_, ?_⟩
  · refine ⟨ops.div (ops.ofInt 1) (ops.ofInt (2 - 1)), ?_⟩
    simp [craterData, addVectors, crater_slot, crater_vectors, vertex_att, vec3.get, vec2.get,
      List.range_succ_eq_map, List.flatMap]
  · intro s v h
    have hf : (craterData ops heightMap gw gh 2 3).face =
        [(0, 0), (3, 3), (1, 1), (4, 2), (2, 3), (5, 0),
         (6, 1), (9, 4), (7, 2), (10, 3), (8, 4), (11, 1)] := rfl
    rw [hf] at h
    simp at h
    omega
  · intro s a h
    simp [craterData, addVectors, crater_slot, crater_vectors, vertex_att, vec3.get, vec2.get,
      List.range_succ_eq_map, List.flatMap] at h
    omega

end game
